import Mathlib

/-!
# playwavefile: SD/MMC block driver and wave playback

A shallow embedding of `avr_mmcp.c` (Petit FatFs disk layer over SPI) and of
`playwaveutils.c` (wave header check, sample interrupt, playback loop).

Bytes and machine words are natural numbers, reduced modulo `2 ^ width` at the
places where the C code truncates.  The card on the SPI bus is an arbitrary
transducer `σ → Bool → Nat → Nat × σ`: from its state, the level of the
chip-select pin and the byte on MOSI it yields the byte on MISO and its next
state.
-/

namespace PlayWave

/-! ## avr_mmcp.c : constants -/

def GO_IDLE : Nat := 0x40 + 0
def INIT : Nat := 0x40 + 1
def APP_INIT : Nat := 0xC0 + 41
def CHECK_V : Nat := 0x40 + 8
def STOP_READ : Nat := 0x40 + 12
def SET_BLOCKLEN : Nat := 0x40 + 16
def READ_SINGLE_BLOCK : Nat := 0x40 + 17
def READ_MULTI_BLOCK : Nat := 0x40 + 18
def WRITE_SINGLE_BLOCK : Nat := 0x40 + 24
def WRITE_MULTI_BLOCK : Nat := 0x40 + 25
def ACMD_LEADING : Nat := 0x40 + 55
def READ_OCR : Nat := 0x40 + 58
def ACMD_MASK : Nat := 0x7F

/-- The macro `IS_ACMD(cmd)`: `cmd & 0x80`, read as a C truth value. -/
def IS_ACMD (cmd : Nat) : Bool := cmd &&& 0x80 != 0

def IN_IDLE_STATE : Nat := 0x01

/-- The macro `IS_R1_RESP(i)`: `(i & 0x80) == 0`. -/
def IS_R1_RESP (i : Nat) : Bool := i &&& 0x80 == 0

def D_TOK1 : Nat := 0xFE
def HCS_SET : Nat := 0x40000000
def DATA_RESP_MASK : Nat := 0x0F
def DATA_ACCEPTED : Nat := 0x05
def GO_IDLE_CRC : Nat := 0x95
def CHECK_V_CRC : Nat := 0x87

def CT_UNKNOWN : Nat := 0x00
def CT_SDC1 : Nat := 0x01
def CT_SDC2 : Nat := 0x02
def CT_MMC3 : Nat := 0x04
def CT_BLOCK : Nat := 0x08

/-- The type `DRESULT` of `diskio.h`; the driver only uses these four names. -/
inductive DRESULT where
  | RES_OK
  | RES_ERROR
  | RES_NOTRDY
  | RES_PARERR
deriving DecidableEq

open DRESULT

/-! ## avr_mmcp.c : the SPI transport -/

/-- One byte exchange as seen on the wires. `cs = true` is the chip-select pin
high, which is the card deselected. -/
structure Xch where
  cs : Bool
  mosi : Nat
  miso : Nat
deriving DecidableEq

/-- A device on the bus. -/
abbrev Dev (σ : Type) : Type := σ → Bool → Nat → Nat × σ

/-- Everything the driver owns: the card behind the bus, the chip-select bit of
`SPI_PORT`, the clock mode, the static `cardType`, the static `wcnt` of
`disk_writep`, and a record of every exchange made so far. -/
structure Drive (σ : Type) where
  card : σ
  cs : Bool
  fast : Bool
  cardType : Nat
  wcnt : Nat
  log : List Xch

section Driver

variable {σ : Type} (dev : Dev σ)

/-- The macro `SELECT()`: clear the chip-select bit. -/
def SELECT (d : Drive σ) : Drive σ := { d with cs := false }

/-- The macro `DESELECT()`: set the chip-select bit. -/
def DESELECT (d : Drive σ) : Drive σ := { d with cs := true }

/-- The macro `IS_SELECTED()`: `SPI_PORT & _BV(SPI_CS)`, the pin level itself. -/
def IS_SELECTED (d : Drive σ) : Bool := d.cs

/-- The function `init_spi`: slow clock; the chip-select bit is not touched. -/
def init_spi (d : Drive σ) : Drive σ := { d with fast := false }

/-- The function `spi_set_rw_speed`. -/
def spi_set_rw_speed (d : Drive σ) : Drive σ := { d with fast := true }

/-- The function `spi`: put a byte in `SPDR`, wait for the transfer, read `SPDR`. -/
def spi (data : Nat) (d : Drive σ) : Nat × Drive σ :=
  let r := dev d.card d.cs (data % 256)
  (r.1 % 256, { d with card := r.2, log := d.log ++ [⟨d.cs, data % 256, r.1 % 256⟩] })

def rx_spi (d : Drive σ) : Nat × Drive σ := spi dev 0xFF d

def tx_spi (data : Nat) (d : Drive σ) : Drive σ := (spi dev data d).2

/-! ## avr_mmcp.c : send_cmd -/

/-- The response loop of `send_cmd`, `do result = rx_spi(); while (!IS_R1_RESP(result) && i--)`,
as a function of the current value of `i`. -/
def send_cmd_poll : Nat → Drive σ → Nat × Drive σ
  | 0, d => rx_spi dev d
  | i + 1, d =>
    let r := rx_spi dev d
    if IS_R1_RESP r.1 then r else send_cmd_poll i r.2

/-- The body of `send_cmd` below the application-command test; `cmd` is a byte
and `arg` a 32-bit word there. -/
def send_cmd_frame (cmd arg : Nat) (d : Drive σ) : Nat × Drive σ :=
  let d := DESELECT d
  let d := (rx_spi dev d).2
  let d := SELECT d
  let d := (rx_spi dev d).2
  let d := tx_spi dev cmd d
  let d := tx_spi dev (arg >>> 24) d
  let d := tx_spi dev (arg >>> 16) d
  let d := tx_spi dev (arg >>> 8) d
  let d := tx_spi dev arg d
  let i := 0xFF
  let i := if cmd = GO_IDLE then GO_IDLE_CRC else i
  let i := if cmd = CHECK_V then CHECK_V_CRC else i
  let d := tx_spi dev i d
  let d := if cmd = STOP_READ then (rx_spi dev d).2 else d
  send_cmd_poll dev 10 d

/-- The function `send_cmd(uint8_t cmd, uint32_t arg)`, with its recursive call
counted by `fuel`: `none` means the nesting went deeper than `fuel` calls. -/
def send_cmd_fuel : Nat → Nat → Nat → Drive σ → Option (Nat × Drive σ)
  | 0, _, _, _ => none
  | fuel + 1, cmd, arg, d =>
    if IS_ACMD (cmd % 256) then
      match send_cmd_fuel fuel ACMD_LEADING 0 d with
      | none => none
      | some r =>
        if r.1 > 1 then some r
        else some (send_cmd_frame dev ((cmd % 256) &&& ACMD_MASK) (arg % 2 ^ 32) r.2)
    else some (send_cmd_frame dev (cmd % 256) (arg % 2 ^ 32) d)

/-- The function `send_cmd`: two nested calls always suffice (`send_cmd_fuel_two`). -/
def send_cmd (cmd arg : Nat) (d : Drive σ) : Nat × Drive σ :=
  match send_cmd_fuel dev 2 cmd arg d with
  | some r => r
  | none => (0xFF, d)

/-! ## avr_mmcp.c : bounded waiting loops -/

/-- The loop `for (n = N; n && again(attempt()); n--) ;` used for every timeout
of the driver: it yields the final value of the counter, `0` on exhaustion. -/
def retry (attempt : Drive σ → Nat × Drive σ) (again : Nat → Bool) :
    Nat → Drive σ → Nat × Drive σ
  | 0, d => (0, d)
  | n + 1, d =>
    let r := attempt d
    if again r.1 then retry attempt again n r.2 else (n + 1, r.2)

/-- The loop `for (i = 0; i < n; i++) a[i] = rx_spi();`, the bytes in order. -/
def rx_n : Nat → Drive σ → List Nat × Drive σ
  | 0, d => ([], d)
  | n + 1, d =>
    let r := rx_spi dev d
    let t := rx_n n r.2
    (r.1 :: t.1, t.2)

/-! ## avr_mmcp.c : disk_writep -/

/-- The loop `while (bcnt && wcnt) { tx_spi(*buff++); wcnt--; bcnt--; }`;
`buff i` is the byte at `buff + i` and `i` the number of bytes already taken. -/
def wr_data (buff : Nat → Nat) : Nat → Nat → Drive σ → Drive σ
  | 0, _, d => d
  | bcnt + 1, i, d =>
    if d.wcnt ≠ 0 then
      wr_data buff bcnt (i + 1) { tx_spi dev (buff i) d with wcnt := d.wcnt - 1 }
    else d

/-- The loop `while (bcnt--) tx_spi(0);`. -/
def wr_fill : Nat → Drive σ → Drive σ
  | 0, d => d
  | bcnt + 1, d => wr_fill bcnt (tx_spi dev 0 d)

/-- The loop `for (bcnt = 10000; rx_spi() != 0xFF && bcnt; bcnt--) ;` as a
function of the current `bcnt`; it yields the final `bcnt`. -/
def wr_busy : Nat → Drive σ → Nat × Drive σ
  | 0, d => (0, (rx_spi dev d).2)
  | bcnt + 1, d =>
    let r := rx_spi dev d
    if r.1 ≠ 0xFF then wr_busy bcnt r.2 else (bcnt + 1, r.2)

/-- The function `disk_writep(const BYTE *buff, DWORD sc)`; `buff = none` is the
null pointer. -/
def disk_writep (buff : Option (Nat → Nat)) (sc : Nat) (d : Drive σ) : DRESULT × Drive σ :=
  let sc := sc % 2 ^ 32
  match buff with
  | some b => (RES_OK, wr_data dev b sc 0 d)
  | none =>
    if sc ≠ 0 then
      let sc := if d.cardType &&& CT_BLOCK = 0 then (sc <<< 9) % 2 ^ 32 else sc
      let c := send_cmd dev WRITE_SINGLE_BLOCK sc d
      if c.1 = 0 then
        let d := tx_spi dev 0xFF c.2
        let d := tx_spi dev D_TOK1 d
        (RES_OK, { d with wcnt := 512 })
      else (RES_ERROR, c.2)
    else
      let bcnt := (d.wcnt + 2) % 2 ^ 32
      let d := wr_fill dev bcnt d
      let r := rx_spi dev d
      let e :=
        if r.1 &&& DATA_RESP_MASK = DATA_ACCEPTED then
          let b := wr_busy dev 10000 r.2
          (if b.1 ≠ 0 then RES_OK else RES_ERROR, b.2)
        else (RES_ERROR, r.2)
      let d := DESELECT e.2
      (e.1, (rx_spi dev d).2)

/-! ## avr_mmcp.c : disk_initialize -/

/-- The opening of `disk_initialize`, up to the 80 dummy clocks: the state in
which the first command is sent. `useWrite` is the configuration switch
`PF_USE_WRITE`, declared in a header outside the driver. -/
def init_prelude (useWrite : Bool) (d : Drive σ) : Drive σ :=
  let d :=
    if useWrite && (d.cardType != CT_UNKNOWN && !IS_SELECTED d) then
      (disk_writep dev none 0 d).2
    else d
  let d := { d with cardType := CT_UNKNOWN }
  let d := init_spi d
  let d := DESELECT d
  (rx_n dev 10 d).2

/-- The function `disk_initialize`. `STA_NOINIT` is the status flag of that
name, declared in a header outside the driver. The delays are not modelled. -/
def disk_initialize (useWrite : Bool) (STA_NOINIT : Nat) (d : Drive σ) : Nat × Drive σ :=
  let d := init_prelude dev useWrite d
  let g := retry (send_cmd dev GO_IDLE 0x00) (fun r => r != IN_IDLE_STATE) 1000 d
  let d :=
    if g.1 ≠ 0 then
      let v := send_cmd dev CHECK_V 0x01AA g.2
      if v.1 = 0x01 then
        let ocr := rx_n dev 4 v.2
        if ocr.1.getD 2 0 = 0x01 ∧ ocr.1.getD 3 0 = 0xAA then
          let a := retry (send_cmd dev APP_INIT HCS_SET) (fun r => r != 0) 10000 ocr.2
          if a.1 ≠ 0 then
            let o := send_cmd dev READ_OCR 0x00 a.2
            if o.1 = 0x00 then
              let ocr := rx_n dev 4 o.2
              { ocr.2 with
                cardType := if ocr.1.getD 0 0 &&& 0x40 ≠ 0 then CT_SDC2 ||| CT_BLOCK else CT_SDC2 }
            else o.2
          else a.2
        else ocr.2
      else
        let a := retry (send_cmd dev APP_INIT 0x00) (fun r => r != 0) 10000 v.2
        if a.1 ≠ 0 then { a.2 with cardType := CT_SDC1 }
        else
          let m := retry (send_cmd dev INIT 0x00) (fun r => r != 0) 10000 a.2
          { m.2 with cardType := if m.1 ≠ 0 then CT_MMC3 else CT_UNKNOWN }
    else g.2
  let d :=
    if d.cardType &&& CT_BLOCK = 0 ∧ d.cardType ≠ CT_UNKNOWN then
      (send_cmd dev SET_BLOCKLEN 0x0200 d).2
    else d
  let d := DESELECT d
  let d := if d.cardType ≠ CT_UNKNOWN then spi_set_rw_speed d else d
  (if d.cardType = CT_UNKNOWN then STA_NOINIT else 0, d)

/-! ## avr_mmcp.c : disk_readp -/

/-- The function `skip_data(uint16_t bytes)`: `while (bytes--) rx_spi();`. -/
def skip_data : Nat → Drive σ → Drive σ
  | 0, d => d
  | bytes + 1, d => skip_data bytes (rx_spi dev d).2

/-- The loop `while (count) { *buff++ = rx_spi(); --count; }`: the bytes stored
so far are `acc`, in the order of the addresses they go to. -/
def rd_rest : Nat → List Nat → Drive σ → List Nat × Drive σ
  | 0, acc, d => (acc, d)
  | count + 1, acc, d =>
    let r := rx_spi dev d
    rd_rest count (acc ++ [r.1]) r.2

/-- The loop `do { *buff++ = rx_spi(); } while (--count);` on a `UINT` of
`ub` bits: the body runs once, `count` is decremented with wrap-around, and
the loop goes on while `count` is not zero (where the decrement no longer
wraps). The result lists the bytes stored at `buff[0]`, `buff[1]`, ... -/
def rd_fill (ub : Nat) (count : Nat) (d : Drive σ) : List Nat × Drive σ :=
  let r := rx_spi dev d
  rd_rest dev ((count + 2 ^ ub - 1) % 2 ^ ub) [r.1] r.2

/-- The function `disk_readp(BYTE* buff, DWORD sector, UINT offset, UINT count)`.
`ub` is the width of `UINT` (`unsigned int`, declared outside the driver; 16 on
the ATmega328P the driver is written for), `buff` tells whether the destination
pointer is non-null. The second component lists the bytes stored through
`buff`, in address order; with a null `buff` the same bytes are read and
dropped. -/
def disk_readp (ub : Nat) (buff : Bool) (sector offset count : Nat) (d : Drive σ) :
    DRESULT × List Nat × Drive σ :=
  let sector := sector % 2 ^ 32
  let offset := offset % 2 ^ ub
  let count := count % 2 ^ ub
  if d.cardType = CT_UNKNOWN then (RES_NOTRDY, [], d)
  else
    let sector := if d.cardType &&& CT_BLOCK = 0 then (sector <<< 9) % 2 ^ 32 else sector
    if (offset + count) % 2 ^ ub > 512 then (RES_PARERR, [], d)
    else
      let c := send_cmd dev READ_SINGLE_BLOCK sector d
      let e : DRESULT × List Nat × Drive σ :=
        if c.1 = 0x00 then
          let t := retry (rx_spi dev) (fun r => r != D_TOK1) 10000 c.2
          if t.1 ≠ 0 then
            let bc := ((512 + 2 + 2 * 2 ^ ub - offset - count) % 2 ^ ub) % 2 ^ 16
            let d := skip_data dev (offset % 2 ^ 16) t.2
            let f := rd_fill dev ub count d
            let d := skip_data dev bc f.2
            (RES_OK, if buff then f.1 else [], d)
          else (RES_ERROR, [], t.2)
        else (RES_ERROR, [], c.2)
      let d := DESELECT e.2.2
      (e.1, e.2.1, (rx_spi dev d).2)

/-- The state of the drive after `k` consecutive runs of `attempt`. -/
def after_attempts (attempt : Drive σ → Nat × Drive σ) : Nat → Drive σ → Drive σ
  | 0, d => d
  | k + 1, d => after_attempts attempt k (attempt d).2

/-- The bytes the driver has put on MOSI so far, in order. -/
def sent (d : Drive σ) : List Nat := d.log.map Xch.mosi

/-- The bytes a data call `disk_writep(buff, n)` is given: `buff[0] .. buff[n-1]`. -/
def chunk (c : (Nat → Nat) × Nat) : List Nat :=
  (List.range (c.2 % 2 ^ 32)).map (fun j => c.1 j % 256)

/-- The bytes a sequence of data calls is given, call after call. -/
def supplied : List ((Nat → Nat) × Nat) → List Nat
  | [] => []
  | c :: cs => chunk c ++ supplied cs

/-- A list of bytes as the arguments of a data call: a buffer holding the
list, and its length. -/
def asCall (c : List Nat) : (Nat → Nat) × Nat := (fun i => c.getD i 0, c.length)

/-- A sequence of data calls `disk_writep(buff, n)`, one after the other. -/
def write_calls : List ((Nat → Nat) × Nat) → Drive σ → Drive σ
  | [], d => d
  | c :: cs, d => write_calls cs (disk_writep dev (some c.1) c.2 d).2

end Driver

/-! ## Simulated devices -/

/-- A card that plays back a fixed list of bytes, one per exchange, whatever it
is sent, and then leaves the line high. -/
def scriptDev : Dev (List Nat) := fun s _ _ =>
  match s with
  | [] => (0xFF, [])
  | b :: t => (b, t)

/-- Eight idle bytes, the time of one command frame, then the bytes `l`. -/
def answer (l : List Nat) : List Nat := List.replicate 8 0xFF ++ l

/-- A version-1 card: it misses the first idle-reset, answers the second,
rejects the version check, leaves idle at the second application init and
accepts the block length. -/
def scriptSD1 : List Nat :=
  List.replicate 10 0xFF ++ List.replicate 19 0xFF ++ answer [0x01] ++ answer [0x05] ++
    answer [0x01] ++ answer [0x01] ++ answer [0x01] ++ answer [0x00] ++ answer [0x00]

/-- A high-capacity version-2 card: idle-reset, version check with the echo
`01 AA`, application init accepted at the second attempt, operating conditions
with the capacity bit set. -/
def scriptSDHC : List Nat :=
  List.replicate 10 0xFF ++ answer [0x01] ++ answer [0x01, 0x00, 0x00, 0x01, 0xAA] ++
    answer [0x01] ++ answer [0x01] ++ answer [0x01] ++ answer [0x00] ++
    answer [0x00, 0xC0, 0xFF, 0x80, 0x00]

/-- A card answering one block read: status `0x00`, one idle byte, the data
token, 512 data bytes and two checksum bytes. -/
def scriptRead : List Nat :=
  answer [0x00] ++ [0xFF, 0xFE] ++ (List.range 512).map (fun i => (7 * i + 3) % 256) ++
    [0x12, 0x34]

/-- What the simulated storage card is doing between two exchanges. -/
inductive Phase where
  /-- Waiting for the first byte of a command frame. -/
  | idle
  /-- Inside a command frame: the bytes received so far. -/
  | frame (bytes : List Nat)
  /-- Sending `out`, one byte per exchange; after the last byte the card waits
  for the data token of a write to `write`, or goes idle. -/
  | reply (out : List Nat) (write : Option (List Nat))
  /-- A write to `addr` was accepted: waiting for the data token. -/
  | wtoken (addr : List Nat)
  /-- Receiving the 512 data bytes and 2 checksum bytes of a write to `addr`. -/
  | wdata (addr : List Nat) (acc : List Nat)

/-- A simulated card: its blocks, found under the four address bytes of the
command that wrote them, and its phase. -/
structure SimCard where
  mem : List Nat → List Nat
  ph : Phase

/-- One exchange of the simulated card while selected. A read command is
answered by `0x00`, the data token, the stored block and two checksum bytes; a
write command by `0x00`, after which the 512 bytes that follow the data token
are stored under the address of the command, the data response says
"accepted" and the card is busy for one exchange; any other command is
answered "illegal command". -/
def simStep (mem : List Nat → List Nat) : Phase → Nat → Nat × SimCard
  | .idle, mosi =>
    (0xFF, ⟨mem, if mosi / 64 = 1 then .frame [mosi] else .idle⟩)
  | .frame [cmd, a3, a2, a1, a0], _ =>
    (0xFF, ⟨mem,
      if cmd = READ_SINGLE_BLOCK then
        .reply ([0x00, D_TOK1] ++ mem [a3, a2, a1, a0] ++ [0x00, 0x00]) none
      else if cmd = WRITE_SINGLE_BLOCK then .reply [0x00] (some [a3, a2, a1, a0])
      else .reply [0x04] none⟩)
  | .frame bytes, mosi => (0xFF, ⟨mem, .frame (bytes ++ [mosi])⟩)
  | .reply [] _, _ => (0xFF, ⟨mem, .idle⟩)
  | .reply (b :: rest) w, _ =>
    (b, ⟨mem,
      if rest.isEmpty then (match w with | none => .idle | some a => .wtoken a)
      else .reply rest w⟩)
  | .wtoken a, mosi => (0xFF, ⟨mem, if mosi = D_TOK1 then .wdata a [] else .wtoken a⟩)
  | .wdata a acc, mosi =>
    if acc.length < 513 then (0xFF, ⟨mem, .wdata a (acc ++ [mosi])⟩)
    else (0xFF, ⟨fun k => if k = a then acc.take 512 else mem k, .reply [0xE5, 0x00] none⟩)

/-- The simulated card as a bus device: deaf and silent while deselected. -/
def simCard : Dev SimCard := fun c cs mosi =>
  if cs then (0xFF, c) else simStep c.mem c.ph mosi

/-- A simulated card whose blocks are all zero, idle. -/
def blankCard : SimCard := ⟨fun _ => List.replicate 512 0, .idle⟩

/-- 512 bytes in three data calls of 200, 300 and 12 bytes. -/
def sampleChunks : List (List Nat) :=
  [List.replicate 200 0xAB, (List.range 300).map (fun i => i % 256), List.replicate 12 7]

/-- The four address bytes of a command argument, most significant first. -/
def addrBytes (arg : Nat) : List Nat :=
  [(arg >>> 24) % 256, (arg >>> 16) % 256, (arg >>> 8) % 256, arg % 256]

/-- A drive at power-up in front of a card in state `c`. -/
def powerUp {σ : Type} (c : σ) : Drive σ :=
  { card := c, cs := false, fast := false, cardType := CT_UNKNOWN, wcnt := 0, log := [] }

/-- A drive left by a successful `disk_initialize` with card family `ct`, in
front of a card in state `c`. -/
def ready {σ : Type} (ct : Nat) (c : σ) : Drive σ :=
  { card := c, cs := true, fast := true, cardType := ct, wcnt := 0, log := [] }

/-! ## playwaveutils.h : constants and macros -/

def FILE_FORMAT : Nat := 0x08
def FORMAT_BLOCK_ID : Nat := 0x0C
def FORMAT_BLOCK_SIZE : Nat := 0x10
def SAMPLE_FORMAT : Nat := 0x14
def NUM_CHANNELS : Nat := 0x16
def SAMPLE_FREQUENCY : Nat := 0x18
def BITS_PER_SAMPLE : Nat := 0x22
def DATA_BLOCK_ID : Nat := 0x24
def DATA_BLOCK_SIZE : Nat := 0x26
def DATA_START_OFFSET : Nat := 0x28
def WAVEFILE_HEADER_SIZE : Nat := 0x28
def BUFFER_SIZE : Nat := 128
def SAMPLE_FREQ_MAX : Nat := 10000
def SAMPLE_FREQ_MIN : Nat := 8000

/-- The macro `FCC(c1,c2,c3,c4)`, on `uint32_t`. -/
def FCC (c1 c2 c3 c4 : Char) : Nat :=
  ((c4.toNat <<< 24) + (c3.toNat <<< 16) + (c2.toNat <<< 8) + c1.toNat) % 2 ^ 32

/-- The byte `*(buf + i)` of a buffer. -/
def byteAt (buf : List Nat) (i : Nat) : Nat := buf.getD i 0 % 256

/-- The macro `LD_WORD(pos(buf, off))`, on 16-bit unsigned integers. -/
def LD_WORD (buf : List Nat) (off : Nat) : Nat :=
  ((byteAt buf (off + 1) <<< 8) + byteAt buf off) % 2 ^ 16

/-- The macro `LD_DWORD(pos(buf, off))`, on `uint32_t`. -/
def LD_DWORD (buf : List Nat) (off : Nat) : Nat :=
  ((byteAt buf (off + 3) <<< 24) + (byteAt buf (off + 2) <<< 16) + (byteAt buf (off + 1) <<< 8)
    + byteAt buf off) % 2 ^ 32

/-! ## The file read of Petit FatFs -/

/-- The open file as the player sees it: its bytes, the read pointer
`fs.fptr`, and the result codes of the reads to come (a read beyond this list
succeeds). -/
structure Fs where
  data : List Nat
  fptr : Nat
  errs : List Nat

/-- Modelled from the spec: the result code `FR_OK` of `pff.h`, which is not
part of the sources; `load_header` tests the result of `pf_read` for non-zero,
so success is 0. -/
def FR_OK : Nat := 0

/-- Modelled from the spec: `pf_read(buff, btr, &br)` of the filesystem layer
(`pff.c`, not part of the sources), "a sequential byte-stream read over an
already-opened file, returning bytes actually transferred". The result is the
result code, the bytes transferred (`br` is their number) and the file
afterwards. A read that succeeds transfers the next `btr` bytes, fewer at the
end of the file; a read that fails transfers nothing. -/
def pf_read (fs : Fs) (btr : Nat) : Nat × List Nat × Fs :=
  let res := fs.errs.headD FR_OK
  if res = FR_OK then
    let bytes := ((fs.data.drop fs.fptr).take btr).map (fun b => b % 256)
    (res, bytes, { fs with fptr := fs.fptr + bytes.length, errs := fs.errs.tail })
  else (res, [], { fs with errs := fs.errs.tail })

/-- The bytes of a read stored at the start of a buffer; the rest of the buffer
keeps its contents. -/
def store (buf bytes : List Nat) : List Nat := bytes ++ buf.drop bytes.length

/-! ## playwaveutils.c : state -/

/-- The static variables of `playwaveutils.c`, the file, and the registers the
player drives: the compare value `OCR0A` of the sample timer, the duty
register `OCR2B`, whether the sample timer and the PWM run. `emitted` lists
the bytes the interrupt handler has written to the duty register, oldest
first. -/
structure Player where
  buffer0 : List Nat
  buffer1 : List Nat
  active_buffer : Nat
  alt_buffer : Nat
  buffer_index : Nat
  buffer_end : Nat
  bcnt : Nat
  fs : Fs
  OCR0A : Nat
  OCR2B : Nat
  timer : Bool
  pwm : Bool
  emitted : List Nat

/-- The program at reset, with the file `fs` open: zeroed buffers, the
initialisers of the static variables, timers stopped. -/
def Player.reset (fs : Fs) : Player :=
  { buffer0 := List.replicate BUFFER_SIZE 0, buffer1 := List.replicate BUFFER_SIZE 0,
    active_buffer := 0, alt_buffer := 1, buffer_index := 0, buffer_end := 0, bcnt := 0,
    fs := fs, OCR0A := 0, OCR2B := 0, timer := false, pwm := false, emitted := [] }

/-- The array `buffers[i]`. -/
def Player.buffers (p : Player) (i : Nat) : List Nat :=
  if i = 0 then p.buffer0 else p.buffer1

/-- Assignment through `buffers[i]`. -/
def Player.setBuffer (p : Player) (i : Nat) (b : List Nat) : Player :=
  if i = 0 then { p with buffer0 := b } else { p with buffer1 := b }

/-! ## playwaveutils.c : load_header -/

/-- The function `load_header`. `F_CPU` is the clock frequency given to the
compiler. The result is the return value and the state afterwards. -/
def load_header (F_CPU : Nat) (p : Player) : Nat × Player :=
  let r := pf_read p.fs WAVEFILE_HEADER_SIZE
  let br := r.2.1.length
  let p := { p with buffer0 := store p.buffer0 r.2.1, fs := r.2.2 }
  if r.1 ≠ 0 then (1, p)
  else if br ≠ WAVEFILE_HEADER_SIZE ∨ LD_DWORD p.buffer0 FILE_FORMAT ≠ FCC 'W' 'A' 'V' 'E' then
    (0, p)
  else if LD_DWORD p.buffer0 FORMAT_BLOCK_ID ≠ FCC 'f' 'm' 't' ' ' then (0, p)
  else
    let sz := LD_DWORD p.buffer0 FORMAT_BLOCK_SIZE
    if sz < 16 then (0, p)
    else if LD_WORD p.buffer0 SAMPLE_FORMAT ≠ 1 then (0, p)
    else if LD_WORD p.buffer0 NUM_CHANNELS ≠ 1 then (0, p)
    else if LD_WORD p.buffer0 BITS_PER_SAMPLE ≠ 8 then (0, p)
    else
      let f := LD_DWORD p.buffer0 SAMPLE_FREQUENCY
      if f < SAMPLE_FREQ_MIN ∨ f > SAMPLE_FREQ_MAX then (0, p)
      else
        let p := { p with OCR0A := ((F_CPU / 8 / f + 2 ^ 32 - 1) % 2 ^ 32) % 256 }
        if LD_DWORD p.buffer0 DATA_BLOCK_ID = FCC 'd' 'a' 't' 'a' then
          let sz := LD_DWORD p.buffer0 DATA_BLOCK_SIZE
          if sz < 1024 then (0, p)
          else (sz, { p with pwm := false })
        else (0, p)

/-- Little-endian bytes of a 16-bit and of a 32-bit value. -/
def le16 (v : Nat) : List Nat := [v % 256, v / 256 % 256]

def le32 (v : Nat) : List Nat := [v % 256, v / 256 % 256, v / 65536 % 256, v / 16777216 % 256]

/-- The characters of a tag as bytes. -/
def tag (t : String) : List Nat := t.toList.map Char.toNat

/-- The first 36 bytes of a wave file: `RIFF` chunk, `WAVE` tag and a 16-byte
`fmt ` chunk for PCM with the given channel count, sample rate and sample
width. -/
def wavFormat (channels rate bits size : Nat) : List Nat :=
  tag "RIFF" ++ le32 (36 + size) ++ tag "WAVE" ++ tag "fmt " ++ le32 16 ++ le16 1 ++
    le16 channels ++ le32 rate ++ le32 (rate * channels * bits / 8) ++
    le16 (channels * bits / 8) ++ le16 bits

/-- A canonical 44-byte wave header for 8-bit mono PCM with `size` bytes of
samples: the 36 bytes above, the tag `data` at bytes 36-39 and `size` at bytes
40-43. -/
def wavHeader (rate size : Nat) : List Nat :=
  wavFormat 1 rate 8 size ++ tag "data" ++ le32 size

/-- Bytes 8 to 127 of `buffer0` after a reset and the read of the first 40
bytes of a canonical header for 8-bit mono PCM at 9000 Hz: bytes 8-39 of the
header, then the zeros the buffer held. -/
def wavTail : List Nat :=
  (tag "WAVE" ++ tag "fmt " ++ le32 16 ++ le16 1 ++ le16 1 ++ le32 9000 ++
    le32 (9000 * 1 * 8 / 8) ++ le16 (1 * 8 / 8) ++ le16 8 ++ tag "data").map (fun b => b % 256)
    ++ List.drop 40 (List.replicate 128 0)

/-- A wave file just opened. -/
def wavFile (header samples : List Nat) : Fs := { data := header ++ samples, fptr := 0, errs := [] }

/-! ## playwaveutils.c : the sample interrupt -/

/-- The handler `ISR(TIMER0_COMPA_vect)`; it runs with interrupts disabled, as
one step. -/
def isr (p : Player) : Player :=
  let p :=
    if p.buffer_index = BUFFER_SIZE then
      { p with buffer_end := 1, buffer_index := 0,
               active_buffer := (p.active_buffer ^^^ 1) % 256,
               alt_buffer := (p.alt_buffer ^^^ 1) % 256 }
    else p
  let b := byteAt (p.buffers p.active_buffer) p.buffer_index
  { p with OCR2B := b, emitted := p.emitted ++ [b],
           buffer_index := (p.buffer_index + 1) % 2 ^ 16,
           bcnt := (p.bcnt + 2 ^ 16 - 1) % 2 ^ 16 }

/-! ## playwaveutils.c : playback -/

/-- Where the foreground is in `playback`. -/
inductive Pc where
  /-- At the entry of `playback`. -/
  | entry
  /-- At `if (buffer_end)` in the `do` loop. -/
  | loopTop
  /-- At `res = pf_read(buffers[alt_buffer], BUFFER_SIZE, &br)`. -/
  | doRead
  /-- At `bcnt = br`. -/
  | setBcnt
  /-- At `while (br == BUFFER_SIZE)`. -/
  | loopCond
  /-- At `while (bcnt)`. -/
  | drain
  /-- At `sample_timer_stop()`. -/
  | stop
  /-- After the `return`. -/
  | done
deriving DecidableEq

/-- A run of `playback`: the program state, the place of the foreground, its
locals `br` and `res`, and the return value once it has returned. -/
structure Run where
  p : Player
  pc : Pc
  br : Nat
  res : Nat
  ret : Option Nat

/-- A call of `playback` about to start on the state `p`. -/
def Run.start (p : Player) : Run := { p := p, pc := .entry, br := 0, res := 0, ret := none }

/-- One foreground step of `playback`. The first step runs from the entry to
the start of the sample timer (the timer interrupt is masked until then):
reset of the indices, the alignment read, the two priming reads, `sei`,
`PWM_start`, `sample_timer_start`. -/
def fg (r : Run) : Run :=
  match r.pc with
  | .entry =>
    let p := { r.p with active_buffer := 0, alt_buffer := 1, buffer_index := 0, buffer_end := 0 }
    let k := pf_read p.fs
      ((512 + 2 ^ 32 - (p.fs.fptr + DATA_START_OFFSET) % 2 ^ 32 % 512) % 2 ^ 32 % 2 ^ 16)
    let p := { p with fs := k.2.2 }
    if k.1 ≠ FR_OK then { r with p := p, br := k.2.1.length, pc := .done, ret := some 1 }
    else
      let a := pf_read p.fs BUFFER_SIZE
      let p := { p.setBuffer p.active_buffer (store (p.buffers p.active_buffer) a.2.1) with
        fs := a.2.2 }
      let p := { p with bcnt := (p.bcnt + a.2.1.length) % 2 ^ 16 }
      let b := pf_read p.fs BUFFER_SIZE
      let p := { p.setBuffer p.alt_buffer (store (p.buffers p.alt_buffer) b.2.1) with
        fs := b.2.2 }
      let p := { p with bcnt := (p.bcnt + b.2.1.length) % 2 ^ 16 }
      let p := { p with OCR2B := 128, pwm := true, timer := true }
      { r with p := p, br := b.2.1.length, pc := .loopTop }
  | .loopTop =>
    if r.p.buffer_end ≠ 0 then { r with p := { r.p with buffer_end := 0 }, pc := .doRead }
    else { r with pc := .loopCond }
  | .doRead =>
    let a := pf_read r.p.fs BUFFER_SIZE
    let p := { r.p.setBuffer r.p.alt_buffer (store (r.p.buffers r.p.alt_buffer) a.2.1) with
      fs := a.2.2 }
    { r with p := p, res := a.1, br := a.2.1.length, pc := .setBcnt }
  | .setBcnt => { r with p := { r.p with bcnt := r.br }, pc := .loopCond }
  | .loopCond => if r.br = BUFFER_SIZE then { r with pc := .loopTop } else { r with pc := .drain }
  | .drain => if r.p.bcnt ≠ 0 then r else { r with pc := .stop }
  | .stop => { r with p := { r.p with timer := false, pwm := false }, pc := .done, ret := some 0 }
  | .done => r

/-- One tick of the sample timer: the handler runs if the timer is running. -/
def tick (r : Run) : Run := if r.p.timer then { r with p := isr r.p } else r

/-- A run under a schedule: `true` is a timer tick, `false` a foreground step. -/
def run : List Bool → Run → Run
  | [], r => r
  | true :: s, r => run s (tick r)
  | false :: s, r => run s (fg r)

/-- `n` timer ticks in a row. -/
def ticks (n : Nat) : List Bool := List.replicate n true

/-- `n` foreground steps in a row. -/
def steps (n : Nat) : List Bool := List.replicate n false

/-! ## A sample run -/

/-- 687 sample bytes: with the 44-byte header the file has 731 bytes. -/
def tune : List Nat := (List.range 687).map (fun i => (7 * i + 1) % 256)

/-- The player after reset and `load_header` (16 MHz clock) on the file made
of a canonical header and `tune`, as `main` leaves it before `playback`; the
result codes of the reads to come are `errs`. -/
def loaded (errs : List Nat) : Player :=
  let p := (load_header 16000000 (Player.reset (wavFile (wavHeader 9000 687) tune))).2
  { p with fs := { p.fs with errs := errs } }

/-- The bytes of that file from offset `n` on. -/
def fileFrom (n : Nat) : List Nat := (wavHeader 9000 687 ++ tune).drop n

/-- A schedule in which the foreground refills as soon as the handler has
swapped buffers: entry and start of the timer, 129 ticks (the last one swaps
and emits the first byte of the second buffer), the four foreground steps of
one refill, 3 ticks, and the two foreground steps that see the counter at zero
and stop the timer. -/
def earlyRefill : List Bool := steps 1 ++ ticks 129 ++ steps 4 ++ ticks 3 ++ steps 2

/-! ## Further devices, sample data and auxiliary notions -/

/-- A bus on which no card answers: the line stays high. -/
def silent : List Nat := []

/-- The byte count of the first read of `playback`,
`512 - (fs.fptr + DATA_START_OFFSET)%512` with the file pointer `fptr`:
computed on 32 bits, passed as a 16-bit count. -/
def align_count (fptr : Nat) : Nat :=
  (512 + 2 ^ 32 - (fptr + DATA_START_OFFSET) % 2 ^ 32 % 512) % 2 ^ 32 % 2 ^ 16

/-- A canonical 44-byte header whose container tag is `RIFX`. -/
def rifxHeader : List Nat := tag "RIFX" ++ (wavHeader 9000 2000).drop 4

/-- The state after `n` invocations of the handler in a row. -/
def handler_runs : Nat → Player → Player
  | 0, p => p
  | n + 1, p => isr (handler_runs n p)

/-- What the bus and the driver's later decisions depend on: the state of the
card, the chip-select bit, the card family and the clock mode. The record of
past exchanges and the write counter are left out. -/
def bus {σ : Type} (d : Drive σ) : σ × Bool × Nat × Bool := (d.card, d.cs, d.cardType, d.fast)

/-- A card that plays back a fixed list of bytes over and over, one per
exchange; its state is the position in the list. -/
def cyclicDev (script : List Nat) : Dev Nat := fun i _ _ =>
  (script.getD i 0xFF, (i + 1) % script.length)

/-- A card that never leaves the idle state. While it has bytes to send it
sends them; otherwise a byte `01xxxxxx` received while selected starts a
command, answered after the five bytes that complete the frame and one idle
byte: the version check by `reply`, every other command by `0x01`. -/
def stuckDev (reply : List Nat) : Dev (List Nat) := fun s cs mosi =>
  match s with
  | b :: t => (b, t)
  | [] =>
    if !cs && mosi / 64 = 1 then
      (0xFF, List.replicate 6 0xFF ++ (if mosi = CHECK_V then reply else [0x01]))
    else (0xFF, [])

/-- Every tick of the schedule that runs the handler finds the counter `bcnt`
positive. -/
def ticksPositive : List Bool → Run → Bool
  | [], _ => true
  | true :: s, r => (!r.p.timer || decide (0 < r.p.bcnt)) && ticksPositive s (tick r)
  | false :: s, r => ticksPositive s (fg r)

/-- The supply invariant of a run of `playback` started on `p`, with `F` the
file position at which the priming reads start: either the call has not
started, or the counter is at most 256 and the bytes emitted since the start,
the counter and the bytes of a refill not yet counted together do not exceed
what the reads have supplied. -/
def withinSupply (p : Player) (F : Nat) (r : Run) : Prop :=
  r = Run.start p ∨
    (r.pc ≠ .entry ∧ r.p.bcnt ≤ 256 ∧ (r.pc = .setBcnt → r.br ≤ 128) ∧
      ∃ l, r.p.emitted = p.emitted ++ l ∧
        l.length + r.p.bcnt + (if r.pc = .setBcnt then r.br else 0) + F ≤ r.p.fs.fptr)

/-- The macro `SAMPLE_TIMER_SET_FREQ(f)`: the value it assigns to `OCR0A`,
`(uint8_t)(F_CPU/8UL/(uint32_t)(f)-1UL)`, computed on 32 bits. -/
def SAMPLE_TIMER_SET_FREQ (F_CPU f : Nat) : Nat := ((F_CPU / 8 / f + 2 ^ 32 - 1) % 2 ^ 32) % 256

/-- 940 sample bytes: with the 44-byte header the file has 984 bytes, 512 of
them from offset 472 on. -/
def tune4 : List Nat := (List.range 940).map (fun i => (5 * i + 2) % 256)

/-- The player after reset and `load_header` on the file made of a canonical
header and `tune4`. -/
def loaded4 : Player :=
  (load_header 16000000 (Player.reset (wavFile (wavHeader 9000 940) tune4))).2

/-- A schedule with refills that take time: after the entry and 129 ticks the
first refill is interrupted by one tick between the read and `bcnt = br`,
the second, 127 ticks later, by two ticks, the second of which finds the
counter at 0; 126 ticks later the third refill, the stop and the return run
without a tick in between. -/
def lateRefills : List Bool :=
  steps 1 ++ ticks 129 ++ steps 2 ++ ticks 1 ++ steps 2 ++ ticks 127 ++ steps 2 ++ ticks 2 ++
    steps 2 ++ ticks 126 ++ steps 6

/-- Every tick of the schedule that runs the handler finds a byte to play:
fewer bytes have been emitted since the start (`E0` were emitted before) than
the reads have supplied since the file position `F`. -/
def ticksSupplied (E0 F : Nat) : List Bool → Run → Bool
  | [], _ => true
  | true :: s, r =>
    (!r.p.timer || decide (r.p.emitted.length + F < E0 + r.p.fs.fptr)) &&
      ticksSupplied E0 F s (tick r)
  | false :: s, r => ticksSupplied E0 F s (fg r)

/-- The refill loop of `playback` is still to execute `bcnt = br`, or to test
`buffer_end` again. -/
def loopAlive (r : Run) : Bool :=
  match r.pc with
  | .loopTop | .doRead | .setBcnt => true
  | .loopCond => decide (r.br = BUFFER_SIZE)
  | _ => false

/-- No refill is pending or in progress: the handler has not asked for one
since the last one was completed, `bcnt = br` included. -/
def refillDone (r : Run) : Bool :=
  decide (r.p.buffer_end = 0) &&
    (match r.pc with
     | .doRead | .setBcnt => false
     | _ => true)

/-- A tick that does not outrun the foreground: if it swaps the buffers, no
refill is pending or in progress; if it finds the counter at 0, the refill
loop is still alive. -/
def timelyTick (r : Run) : Bool :=
  !r.p.timer ||
    ((decide (r.p.buffer_index ≠ BUFFER_SIZE) || refillDone r) &&
      (decide (r.p.bcnt ≠ 0) || loopAlive r))

/-- Every tick of the schedule is timely. -/
def timely : List Bool → Run → Bool
  | [], _ => true
  | true :: s, r => timelyTick r && timely s (tick r)
  | false :: s, r => timely s (fg r)

/-- The invariant of a run of `playback` with timely ticks, started on `p` with
both buffers filled from the file position `F`. While the refill loop is
alive the bytes emitted and the cursor account for the bytes supplied, two
buffers ahead when no refill is pending and one buffer ahead otherwise; once
the loop has ended the counter does not exceed what is left. -/
def streaming (p : Player) (F : Nat) (r : Run) : Prop :=
  r = Run.start p ∨
  ∃ l, r.p.emitted = p.emitted ++ l ∧ r.p.buffer_index ≤ BUFFER_SIZE ∧
    (((r.pc = .loopTop ∨ r.pc = .loopCond) ∧ r.br = BUFFER_SIZE ∧
        ((r.p.buffer_end = 0 ∧
            l.length + 2 * BUFFER_SIZE + F = r.p.fs.fptr + r.p.buffer_index) ∨
          (r.p.buffer_end ≠ 0 ∧
            l.length + BUFFER_SIZE + F = r.p.fs.fptr + r.p.buffer_index))) ∨
      (r.pc = .doRead ∧ r.p.buffer_end = 0 ∧
        l.length + BUFFER_SIZE + F = r.p.fs.fptr + r.p.buffer_index) ∨
      (r.pc = .setBcnt ∧ r.p.buffer_end = 0 ∧ r.br ≤ BUFFER_SIZE ∧
        l.length + BUFFER_SIZE + r.br + F = r.p.fs.fptr + r.p.buffer_index) ∨
      (((r.pc = .loopCond ∧ r.br ≠ BUFFER_SIZE) ∨ r.pc = .drain ∨ r.pc = .stop ∨
          r.pc = .done) ∧
        r.p.bcnt ≤ BUFFER_SIZE ∧ l.length + r.p.bcnt + F ≤ r.p.fs.fptr))

/-- The bytes the driver has read from MISO so far, in order. -/
def received {σ : Type} (d : Drive σ) : List Nat := d.log.map Xch.miso

/-- What the driver itself holds besides the card and the record of exchanges:
the chip-select bit, the card family and the clock mode. -/
def pins {σ : Type} (d : Drive σ) : Bool × Nat × Bool := (d.cs, d.cardType, d.fast)

/-- Two steps of the driver in sequence, the second depending on the value of
the first. -/
def andThen {σ α β : Type} (a : Drive σ → α × Drive σ) (k : α → Drive σ → β × Drive σ) :
    Drive σ → β × Drive σ :=
  fun d => k (a d).1 (a d).2

/-- The step `a` of the driver on the state `d` can be replayed by the step `b`
in front of a scripted card: `a` reads some bytes `m`, and `b`, on a script
that starts with `m`, yields the same value, consumes exactly `m` and leaves
the driver's own variables as `a` does. -/
def Replays {σ α : Type} (a : Drive σ → α × Drive σ)
    (b : Drive (List Nat) → α × Drive (List Nat)) (d : Drive σ) : Prop :=
  ∃ m, received (a d).2 = received d ++ m ∧
    ∀ (e : Drive (List Nat)) (t : List Nat), e.card = m ++ t → pins e = pins d →
      (b e).1 = (a d).1 ∧ (b e).2.card = t ∧ pins (b e).2 = pins (a d).2

/-! # Theorems -/

section DriverFacts

variable {σ : Type} (dev : Dev σ)

/-- Unfolding of `send_cmd` into its two frames. -/
theorem send_cmd_eq (cmd arg : Nat) (d : Drive σ) :
    send_cmd dev cmd arg d =
      if IS_ACMD (cmd % 256) then
        (if (send_cmd_frame dev ACMD_LEADING 0 d).1 > 1 then send_cmd_frame dev ACMD_LEADING 0 d
         else send_cmd_frame dev ((cmd % 256) &&& ACMD_MASK) (arg % 2 ^ 32)
                (send_cmd_frame dev ACMD_LEADING 0 d).2)
      else send_cmd_frame dev (cmd % 256) (arg % 2 ^ 32) d := by
  have hl : IS_ACMD (ACMD_LEADING % 256) = false := by decide
  have h55 : ACMD_LEADING % 256 = ACMD_LEADING := by decide
  unfold send_cmd
  by_cases h : IS_ACMD (cmd % 256) = true
  · have hl2 : IS_ACMD ACMD_LEADING = false := by decide
    simp only [send_cmd_fuel, h, if_true, hl, hl2, h55, Nat.zero_mod]
    by_cases h1 : (send_cmd_frame dev ACMD_LEADING 0 d).1 > 1 <;> simp [h1]
  · simp [send_cmd_fuel, h]

/-- Two nested calls of `send_cmd` always produce its result. -/
theorem send_cmd_fuel_two (cmd arg : Nat) (d : Drive σ) :
    send_cmd_fuel dev 2 cmd arg d = some (send_cmd dev cmd arg d) := by
  have hl : IS_ACMD (ACMD_LEADING % 256) = false := by decide
  have hl2 : IS_ACMD ACMD_LEADING = false := by decide
  have h55 : ACMD_LEADING % 256 = ACMD_LEADING := by decide
  by_cases h : IS_ACMD (cmd % 256) = true
  · simp only [send_cmd_eq, send_cmd_fuel, h, if_true, hl, hl2, h55, Nat.zero_mod]
    by_cases h1 : (send_cmd_frame dev ACMD_LEADING 0 d).1 > 1 <;> simp [h1]
  · simp [send_cmd_eq, send_cmd_fuel, h]

theorem spi_log_eq (data : Nat) (d : Drive σ) :
    ∃ x, (spi dev data d).2.log = d.log ++ [x] := ⟨_, rfl⟩

theorem send_cmd_poll_ext (i : Nat) (d : Drive σ) :
    ∃ l, (send_cmd_poll dev i d).2.log = d.log ++ l ∧ 1 ≤ l.length ∧ l.length ≤ i + 1 := by
  induction i generalizing d with
  | zero => exact ⟨_, rfl, by simp, by simp⟩
  | succ i ih =>
    simp only [send_cmd_poll]
    split
    · exact ⟨_, rfl, by simp, by simp⟩
    · obtain ⟨l, h1, h2, h3⟩ := ih (rx_spi dev d).2
      obtain ⟨x, hx⟩ := spi_log_eq dev 0xFF d
      refine ⟨x :: l, ?_, by simp, by simp; omega⟩
      rw [h1]
      simp only [rx_spi] at *
      rw [hx]
      simp

theorem send_cmd_frame_ext (cmd arg : Nat) (d : Drive σ) :
    ∃ l, (send_cmd_frame dev cmd arg d).2.log = d.log ++ l ∧ 9 ≤ l.length ∧
      l.length ≤ (if cmd = STOP_READ then 20 else 19) := by
  simp only [send_cmd_frame]
  split
  · obtain ⟨l, h1, h2, h3⟩ := send_cmd_poll_ext dev 10
      (rx_spi dev (tx_spi dev (if cmd = CHECK_V then CHECK_V_CRC else
        if cmd = GO_IDLE then GO_IDLE_CRC else 255) (tx_spi dev arg (tx_spi dev (arg >>> 8)
        (tx_spi dev (arg >>> 16) (tx_spi dev (arg >>> 24) (tx_spi dev cmd
        (rx_spi dev (SELECT (rx_spi dev (DESELECT d)).2)).2))))))).2
    rw [h1]
    simp only [rx_spi, tx_spi, spi, SELECT, DESELECT, List.append_assoc]
    exact ⟨_, rfl, by simp, by simp; omega⟩
  · obtain ⟨l, h1, h2, h3⟩ := send_cmd_poll_ext dev 10
      (tx_spi dev (if cmd = CHECK_V then CHECK_V_CRC else
        if cmd = GO_IDLE then GO_IDLE_CRC else 255) (tx_spi dev arg (tx_spi dev (arg >>> 8)
        (tx_spi dev (arg >>> 16) (tx_spi dev (arg >>> 24) (tx_spi dev cmd
        (rx_spi dev (SELECT (rx_spi dev (DESELECT d)).2)).2))))))
    rw [h1]
    simp only [rx_spi, tx_spi, spi, SELECT, DESELECT, List.append_assoc]
    exact ⟨_, rfl, by simp; omega, by simp; omega⟩

/-! The static variables of the driver are untouched by the transport and by `send_cmd`. -/

@[simp] theorem spi_cardType (x : Nat) (d : Drive σ) : (spi dev x d).2.cardType = d.cardType := rfl
@[simp] theorem spi_wcnt (x : Nat) (d : Drive σ) : (spi dev x d).2.wcnt = d.wcnt := rfl
@[simp] theorem spi_fast (x : Nat) (d : Drive σ) : (spi dev x d).2.fast = d.fast := rfl
@[simp] theorem spi_cs (x : Nat) (d : Drive σ) : (spi dev x d).2.cs = d.cs := rfl
@[simp] theorem rx_spi_cardType (d : Drive σ) : (rx_spi dev d).2.cardType = d.cardType := rfl
@[simp] theorem rx_spi_wcnt (d : Drive σ) : (rx_spi dev d).2.wcnt = d.wcnt := rfl
@[simp] theorem rx_spi_fast (d : Drive σ) : (rx_spi dev d).2.fast = d.fast := rfl
@[simp] theorem rx_spi_cs (d : Drive σ) : (rx_spi dev d).2.cs = d.cs := rfl
@[simp] theorem tx_spi_cardType (x : Nat) (d : Drive σ) : (tx_spi dev x d).cardType = d.cardType := rfl
@[simp] theorem tx_spi_wcnt (x : Nat) (d : Drive σ) : (tx_spi dev x d).wcnt = d.wcnt := rfl
@[simp] theorem tx_spi_fast (x : Nat) (d : Drive σ) : (tx_spi dev x d).fast = d.fast := rfl
@[simp] theorem tx_spi_cs (x : Nat) (d : Drive σ) : (tx_spi dev x d).cs = d.cs := rfl

theorem send_cmd_poll_static (i : Nat) (d : Drive σ) :
    (send_cmd_poll dev i d).2.cardType = d.cardType ∧ (send_cmd_poll dev i d).2.wcnt = d.wcnt ∧
    (send_cmd_poll dev i d).2.fast = d.fast ∧ (send_cmd_poll dev i d).2.cs = d.cs := by
  induction i generalizing d with
  | zero => simp [send_cmd_poll]
  | succ i ih =>
    simp only [send_cmd_poll]
    split
    · simp
    · simpa using ih (rx_spi dev d).2

theorem send_cmd_frame_static (cmd arg : Nat) (d : Drive σ) :
    (send_cmd_frame dev cmd arg d).2.cardType = d.cardType ∧
    (send_cmd_frame dev cmd arg d).2.wcnt = d.wcnt ∧
    (send_cmd_frame dev cmd arg d).2.fast = d.fast ∧
    (send_cmd_frame dev cmd arg d).2.cs = false := by
  simp only [send_cmd_frame]
  split
  · have h := send_cmd_poll_static dev 10
      (rx_spi dev (tx_spi dev (if cmd = CHECK_V then CHECK_V_CRC else
        if cmd = GO_IDLE then GO_IDLE_CRC else 255) (tx_spi dev arg (tx_spi dev (arg >>> 8)
        (tx_spi dev (arg >>> 16) (tx_spi dev (arg >>> 24) (tx_spi dev cmd
        (rx_spi dev (SELECT (rx_spi dev (DESELECT d)).2)).2))))))).2
    simpa [SELECT, DESELECT] using h
  · have h := send_cmd_poll_static dev 10
      (tx_spi dev (if cmd = CHECK_V then CHECK_V_CRC else
        if cmd = GO_IDLE then GO_IDLE_CRC else 255) (tx_spi dev arg (tx_spi dev (arg >>> 8)
        (tx_spi dev (arg >>> 16) (tx_spi dev (arg >>> 24) (tx_spi dev cmd
        (rx_spi dev (SELECT (rx_spi dev (DESELECT d)).2)).2))))))
    simpa [SELECT, DESELECT] using h

theorem send_cmd_static (cmd arg : Nat) (d : Drive σ) :
    (send_cmd dev cmd arg d).2.cardType = d.cardType ∧
    (send_cmd dev cmd arg d).2.wcnt = d.wcnt ∧
    (send_cmd dev cmd arg d).2.fast = d.fast ∧
    (send_cmd dev cmd arg d).2.cs = false := by
  have a := send_cmd_frame_static dev ACMD_LEADING 0 d
  have b := send_cmd_frame_static dev ((cmd % 256) &&& ACMD_MASK) (arg % 2 ^ 32)
    (send_cmd_frame dev ACMD_LEADING 0 d).2
  have c := send_cmd_frame_static dev (cmd % 256) (arg % 2 ^ 32) d
  rw [send_cmd_eq]
  split
  · split
    · exact a
    · exact ⟨b.1.trans a.1, b.2.1.trans a.2.1, b.2.2.1.trans a.2.2.1, b.2.2.2⟩
  · exact c

@[simp] theorem send_cmd_cardType (cmd arg : Nat) (d : Drive σ) :
    (send_cmd dev cmd arg d).2.cardType = d.cardType := (send_cmd_static dev cmd arg d).1

@[simp] theorem send_cmd_wcnt (cmd arg : Nat) (d : Drive σ) :
    (send_cmd dev cmd arg d).2.wcnt = d.wcnt := (send_cmd_static dev cmd arg d).2.1

@[simp] theorem send_cmd_fast (cmd arg : Nat) (d : Drive σ) :
    (send_cmd dev cmd arg d).2.fast = d.fast := (send_cmd_static dev cmd arg d).2.2.1

@[simp] theorem send_cmd_cs (cmd arg : Nat) (d : Drive σ) :
    (send_cmd dev cmd arg d).2.cs = false := (send_cmd_static dev cmd arg d).2.2.2

@[simp] theorem rx_n_cardType (n : Nat) (d : Drive σ) : (rx_n dev n d).2.cardType = d.cardType := by
  induction n generalizing d with
  | zero => rfl
  | succ n ih => simp [rx_n, ih]

end DriverFacts

section SendCmd

variable {σ : Type} (dev : Dev σ)

theorem send_cmd_ext (cmd arg : Nat) (d : Drive σ) :
    ∃ l, (send_cmd dev cmd arg d).2.log = d.log ++ l ∧ 9 ≤ l.length ∧ l.length ≤ 39 := by
  have h77 : ACMD_LEADING ≠ STOP_READ := by decide
  obtain ⟨l1, a1, a2, a3⟩ := send_cmd_frame_ext dev ACMD_LEADING 0 d
  rw [if_neg h77] at a3
  obtain ⟨l2, b1, b2, b3⟩ := send_cmd_frame_ext dev ((cmd % 256) &&& ACMD_MASK)
    (arg % 2 ^ 32) (send_cmd_frame dev ACMD_LEADING 0 d).2
  obtain ⟨l3, c1, c2, c3⟩ := send_cmd_frame_ext dev (cmd % 256) (arg % 2 ^ 32) d
  have b4 : l2.length ≤ 20 := by split at b3 <;> omega
  have c4 : l3.length ≤ 20 := by split at c3 <;> omega
  rw [send_cmd_eq]
  by_cases h : IS_ACMD (cmd % 256) = true
  · by_cases h1 : (send_cmd_frame dev ACMD_LEADING 0 d).1 > 1
    · rw [if_pos h, if_pos h1]
      exact ⟨l1, a1, a2, by omega⟩
    · rw [if_pos h, if_neg h1]
      refine ⟨l1 ++ l2, ?_, ?_, ?_⟩
      · rw [b1, a1, List.append_assoc]
      · rw [List.length_append]; omega
      · rw [List.length_append]; omega
  · rw [if_neg h]
    exact ⟨l3, c1, c2, by omega⟩

/-- C7: `send_cmd` always returns, after a number of byte exchanges bounded
independently of the bus. The leading command `0x40 + 55` is not an
application command, so two nested calls always produce the result; each
response loop makes at most 11 exchanges, and the whole call makes between 9
and 39, all appended to the record of exchanges. -/
theorem send_cmd_bounded (cmd arg : Nat) (d : Drive σ) :
    IS_ACMD ACMD_LEADING = false ∧
    (∀ i (e : Drive σ), ∃ l, (send_cmd_poll dev i e).2.log = e.log ++ l ∧ l.length ≤ i + 1) ∧
    ∃ r l, send_cmd_fuel dev 2 cmd arg d = some r ∧ send_cmd dev cmd arg d = r ∧
      r.2.log = d.log ++ l ∧ 9 ≤ l.length ∧ l.length ≤ 39 := by
  refine ⟨by decide, ?_, ?_⟩
  · intro i e
    obtain ⟨l, h1, _, h3⟩ := send_cmd_poll_ext dev i e
    exact ⟨l, h1, h3⟩
  · obtain ⟨l, h1, h2, h3⟩ := send_cmd_ext dev cmd arg d
    exact ⟨send_cmd dev cmd arg d, l, send_cmd_fuel_two dev cmd arg d, rfl, h1, h2, h3⟩

end SendCmd

section Initialize

variable {σ : Type} (dev : Dev σ)

/-- A waiting loop whose attempt number `k` (from 0) is the first to succeed,
with `k` below the ceiling, leaves the counter non-zero. -/
theorem retry_eq (attempt : Drive σ → Nat × Drive σ) (again : Nat → Bool) (n k : Nat)
    (d : Drive σ) (hk : k < n)
    (hfail : ∀ j < k, again (attempt (after_attempts attempt j d)).1 = true)
    (hok : again (attempt (after_attempts attempt k d)).1 = false) :
    retry attempt again n d = (n - k, (attempt (after_attempts attempt k d)).2) := by
  induction k generalizing n d with
  | zero =>
    obtain ⟨m, rfl⟩ : ∃ m, n = m + 1 := ⟨n - 1, by omega⟩
    simp only [after_attempts] at hok
    simp [retry, hok, after_attempts]
  | succ k ih =>
    obtain ⟨m, rfl⟩ : ∃ m, n = m + 1 := ⟨n - 1, by omega⟩
    have h0 := hfail 0 (by omega)
    simp only [after_attempts] at h0
    simp only [retry, h0, if_true, after_attempts]
    rw [ih m (attempt d).2 (by omega) (fun j hj => hfail (j + 1) (by omega)) hok]
    congr 1
    omega

/-- C2: card-family detection. (A) Idle-reset answered `0x01` at attempt
`k0 < 1000`, version-check answered by a byte other than `0x01`, application
init with argument 0 answered `0x00` at attempt `k1 < 10000`: `cardType` is
`CT_SDC1`, the block-addressing bit is clear and the status is 0. (B)
Idle-reset answered `0x01`, version-check answered `0x01` and followed by four
bytes ending in `0x01 0xAA`, application init with the HCS bit answered `0x00`
at attempt `k1 < 10000`, `READ_OCR` answered `0x00` and followed by four bytes
whose first has bit 6 set: `cardType` is `CT_SDC2 | CT_BLOCK` and the status
is 0. -/
theorem disk_initialize_detects (useWrite : Bool) (sta : Nat) (d : Drive σ) (k0 k1 : Nat) :
    let g := send_cmd dev GO_IDLE 0x00
    let d0 := init_prelude dev useWrite d
    let d1 := (g (after_attempts g k0 d0)).2
    let v := send_cmd dev CHECK_V 0x01AA d1
    (k0 < 1000 → (∀ j < k0, (g (after_attempts g j d0)).1 ≠ 0x01) →
      (g (after_attempts g k0 d0)).1 = 0x01 → v.1 ≠ 0x01 →
      let a := send_cmd dev APP_INIT 0x00
      k1 < 10000 → (∀ j < k1, (a (after_attempts a j v.2)).1 ≠ 0x00) →
      (a (after_attempts a k1 v.2)).1 = 0x00 →
      ( disk_initialize dev useWrite sta d).2.cardType = CT_SDC1 ∧
        CT_SDC1 &&& CT_BLOCK = 0 ∧ ( disk_initialize dev useWrite sta d).1 = 0) ∧
    (k0 < 1000 → (∀ j < k0, (g (after_attempts g j d0)).1 ≠ 0x01) →
      (g (after_attempts g k0 d0)).1 = 0x01 → v.1 = 0x01 →
      let e := rx_n dev 4 v.2
      e.1.getD 2 0 = 0x01 → e.1.getD 3 0 = 0xAA →
      let a := send_cmd dev APP_INIT HCS_SET
      k1 < 10000 → (∀ j < k1, (a (after_attempts a j e.2)).1 ≠ 0x00) →
      (a (after_attempts a k1 e.2)).1 = 0x00 →
      let o := send_cmd dev READ_OCR 0x00 (a (after_attempts a k1 e.2)).2
      o.1 = 0x00 → (rx_n dev 4 o.2).1.getD 0 0 &&& 0x40 ≠ 0 →
      ( disk_initialize dev useWrite sta d).2.cardType = CT_SDC2 ||| CT_BLOCK ∧
        (CT_SDC2 ||| CT_BLOCK) &&& CT_BLOCK ≠ 0 ∧
        ( disk_initialize dev useWrite sta d).1 = 0) := by
  intro g d0 d1 v
  constructor
  · intro hk0 hf0 hs0 hv a hk1 hf1 hs1
    have hg : retry g (fun r => r != IN_IDLE_STATE) 1000 d0 = (1000 - k0, d1) :=
      retry_eq g _ 1000 k0 d0 hk0 (by simpa [IN_IDLE_STATE] using hf0)
        (by simpa [IN_IDLE_STATE] using hs0)
    have ha : retry a (fun r => r != 0) 10000 v.2 = (10000 - k1, (a (after_attempts a k1 v.2)).2) :=
      retry_eq a _ 10000 k1 v.2 hk1 (by simpa using hf1) (by simpa using hs1)
    have e1 : 1000 - k0 ≠ 0 := by omega
    have e2 : 10000 - k1 ≠ 0 := by omega
    have hc : CT_SDC1 &&& CT_BLOCK = 0 := by decide
    have hu : CT_SDC1 ≠ CT_UNKNOWN := by decide
    simp only [ disk_initialize]
    simp only [g, d0, d1, v, a] at hf0 hs0 hv hf1 hs1 hg ha
    simp [hg, ha, e1, e2, hv, hc, hu, DESELECT, spi_set_rw_speed]
  · intro hk0 hf0 hs0 hv e he2 he3 a hk1 hf1 hs1 o ho hccs
    have hg : retry g (fun r => r != IN_IDLE_STATE) 1000 d0 = (1000 - k0, d1) :=
      retry_eq g _ 1000 k0 d0 hk0 (by simpa [IN_IDLE_STATE] using hf0)
        (by simpa [IN_IDLE_STATE] using hs0)
    have ha : retry a (fun r => r != 0) 10000 e.2 = (10000 - k1, (a (after_attempts a k1 e.2)).2) :=
      retry_eq a _ 10000 k1 e.2 hk1 (by simpa using hf1) (by simpa using hs1)
    have e1 : 1000 - k0 ≠ 0 := by omega
    have e2 : 10000 - k1 ≠ 0 := by omega
    have hc : (CT_SDC2 ||| CT_BLOCK) &&& CT_BLOCK ≠ 0 := by decide
    have hu : CT_SDC2 ||| CT_BLOCK ≠ CT_UNKNOWN := by decide
    simp only [ disk_initialize]
    simp only [g, d0, d1, v, a, e, o] at hf0 hs0 hv hf1 hs1 hg ha he2 he3 ho hccs
    simp only [List.getD_eq_getElem?_getD] at he2 he3 hccs
    simp [hg, ha, e1, e2, hv, hc, hu, he2, he3, ho, hccs, DESELECT, spi_set_rw_speed]

/-- Witness of C2 on the two scripted cards `scriptSD1` and `scriptSDHC`. -/
theorem disk_initialize_detects_witness :
    (( disk_initialize scriptDev true 1 (powerUp scriptSD1)).2.cardType = CT_SDC1 ∧
      CT_SDC1 &&& CT_BLOCK = 0 ∧ ( disk_initialize scriptDev true 1 (powerUp scriptSD1)).1 = 0) ∧
    (( disk_initialize scriptDev true 1 (powerUp scriptSDHC)).2.cardType = CT_SDC2 ||| CT_BLOCK ∧
      (CT_SDC2 ||| CT_BLOCK) &&& CT_BLOCK ≠ 0 ∧
      ( disk_initialize scriptDev true 1 (powerUp scriptSDHC)).1 = 0) :=
  ⟨(disk_initialize_detects scriptDev true 1 (powerUp scriptSD1) 1 1).1
      (by decide) (by decide) (by decide) (by decide) (by decide) (by decide) (by decide),
   (disk_initialize_detects scriptDev true 1 (powerUp scriptSDHC) 0 1).2
      (by decide) (by decide) (by decide) (by decide) (by decide) (by decide)
      (by decide) (by decide) (by decide) (by decide) (by decide)⟩

end Initialize

section ReadPartial

variable {σ : Type} (dev : Dev σ)

theorem rx_n_length (n : Nat) (d : Drive σ) : (rx_n dev n d).1.length = n := by
  induction n generalizing d with
  | zero => rfl
  | succ n ih => simp [rx_n, ih]

theorem rx_n_add (a b : Nat) (d : Drive σ) :
    rx_n dev (a + b) d =
      ((rx_n dev a d).1 ++ (rx_n dev b (rx_n dev a d).2).1, (rx_n dev b (rx_n dev a d).2).2) := by
  induction a generalizing d with
  | zero => simp [rx_n]
  | succ a ih =>
    rw [Nat.add_right_comm]
    simp [rx_n, ih]

theorem skip_data_eq (n : Nat) (d : Drive σ) : skip_data dev n d = (rx_n dev n d).2 := by
  induction n generalizing d with
  | zero => rfl
  | succ n ih => simp [skip_data, rx_n, ih]

theorem rd_rest_eq (n : Nat) (acc : List Nat) (d : Drive σ) :
    rd_rest dev n acc d = (acc ++ (rx_n dev n d).1, (rx_n dev n d).2) := by
  induction n generalizing acc d with
  | zero => simp [rd_rest, rx_n]
  | succ n ih => simp [rd_rest, rx_n, ih]

/-- With a count of at least one the filling loop stores `count` bytes. -/
theorem rd_fill_pos (ub count : Nat) (d : Drive σ) (h1 : 1 ≤ count) (h2 : count < 2 ^ ub) :
    rd_fill dev ub count d = rx_n dev count d := by
  obtain ⟨c, rfl⟩ : ∃ c, count = c + 1 := ⟨count - 1, by omega⟩
  have e : (c + 1 + 2 ^ ub - 1) % 2 ^ ub = c := by
    rw [show c + 1 + 2 ^ ub - 1 = c + 2 ^ ub by omega, Nat.add_mod_right]
    exact Nat.mod_eq_of_lt (by omega)
  simp only [rd_fill]
  rw [e]
  simp [rd_rest_eq, rx_n]

/-- With a count of zero the decrement wraps and the loop stores `2 ^ ub` bytes. -/
theorem rd_fill_zero (ub : Nat) (d : Drive σ) :
    (rd_fill dev ub 0 d).1.length = 2 ^ ub := by
  have hp : 0 < 2 ^ ub := Nat.two_pow_pos ub
  have e : (0 + 2 ^ ub - 1) % 2 ^ ub = 2 ^ ub - 1 := by
    rw [Nat.zero_add]
    exact Nat.mod_eq_of_lt (by omega)
  simp only [rd_fill, e, rd_rest_eq, List.length_append, rx_n_length, List.length_singleton]
  omega

/-- The parameter test of `disk_readp` on sums that fit the `UINT` type:
a sum above 512 is refused on an initialised card. -/
theorem disk_readp_rejects (ub : Nat) (buff : Bool) (sector offset count : Nat) (d : Drive σ)
    (hinit : d.cardType ≠ CT_UNKNOWN) (hfit : offset + count < 2 ^ ub)
    (hsum : 512 < offset + count) :
    disk_readp dev ub buff sector offset count d = (RES_PARERR, [], d) := by
  have ho : offset % 2 ^ ub = offset := Nat.mod_eq_of_lt (by omega)
  have hc : count % 2 ^ ub = count := Nat.mod_eq_of_lt (by omega)
  have hs : (offset + count) % 2 ^ ub = offset + count := Nat.mod_eq_of_lt hfit
  simp [disk_readp, hinit, ho, hc, hs, hsum]

/-- A call of `disk_readp` that passes the parameter test ends in `RES_OK` or
`RES_ERROR`. -/
theorem disk_readp_accepts (ub : Nat) (buff : Bool) (sector offset count : Nat) (d : Drive σ)
    (hsum : (offset % 2 ^ ub + count % 2 ^ ub) % 2 ^ ub ≤ 512) :
    (disk_readp dev ub buff sector offset count d).1 ≠ RES_PARERR := by
  have hn : ¬ (offset % 2 ^ ub + count % 2 ^ ub) % 2 ^ ub > 512 := by omega
  simp only [disk_readp]
  split_ifs <;> simp

/-- C3: the parameter test of `disk_readp` adds `offset` and `count` in the
`UINT` type. With 16-bit `UINT` the arguments `offset = 65535`, `count = 2`
have the sum 65537, above 512, and yet the call is not refused with
`RES_PARERR`, for every card, destination, sector and driver state; the same
happens with 32-bit `UINT` at `offset = 4294967295`, `count = 2`. -/
theorem disk_readp_sum_wraps (buff : Bool) (sector : Nat) (d : Drive σ) :
    512 < 65535 + 2 ∧ 65535 < 2 ^ 16 ∧ 2 < 2 ^ 16 ∧
    (disk_readp dev 16 buff sector 65535 2 d).1 ≠ RES_PARERR ∧
    (disk_readp dev 32 buff sector 4294967295 2 d).1 ≠ RES_PARERR :=
  ⟨by decide, by decide, by decide,
    disk_readp_accepts dev 16 buff sector 65535 2 d (by decide),
    disk_readp_accepts dev 32 buff sector 4294967295 2 d (by decide)⟩

/-- What `disk_readp` with a destination does once the command is answered
`0x00` and the token arrives at poll `k`: it skips `offset` bytes and runs the
filling loop, for any `count` that passes the parameter test. -/
theorem disk_readp_fill (ub sector offset count k : Nat) (d : Drive σ)
    (hub : 16 ≤ ub) (hinit : d.cardType ≠ CT_UNKNOWN) (hsum : offset + count ≤ 512)
    (hc : (send_cmd dev READ_SINGLE_BLOCK (if d.cardType &&& CT_BLOCK = 0 then
      (sector % 2 ^ 32) <<< 9 % 2 ^ 32 else sector % 2 ^ 32) d).1 = 0x00)
    (hk : k < 10000)
    (hf : ∀ j < k, (rx_spi dev (after_attempts (rx_spi dev) j
      (send_cmd dev READ_SINGLE_BLOCK (if d.cardType &&& CT_BLOCK = 0 then
        (sector % 2 ^ 32) <<< 9 % 2 ^ 32 else sector % 2 ^ 32) d).2)).1 ≠ D_TOK1)
    (hs : (rx_spi dev (after_attempts (rx_spi dev) k
      (send_cmd dev READ_SINGLE_BLOCK (if d.cardType &&& CT_BLOCK = 0 then
        (sector % 2 ^ 32) <<< 9 % 2 ^ 32 else sector % 2 ^ 32) d).2)).1 = D_TOK1) :
    (disk_readp dev ub true sector offset count d).1 = RES_OK ∧
    (disk_readp dev ub true sector offset count d).2.1 =
      (rd_fill dev ub count (rx_n dev offset (rx_spi dev (after_attempts (rx_spi dev) k
        (send_cmd dev READ_SINGLE_BLOCK (if d.cardType &&& CT_BLOCK = 0 then
          (sector % 2 ^ 32) <<< 9 % 2 ^ 32 else sector % 2 ^ 32) d).2)).2).2).1 := by
  have hP : 65536 ≤ 2 ^ ub := Nat.pow_le_pow_right (Nat.succ_pos 1) hub
  have ho : offset % 2 ^ ub = offset := Nat.mod_eq_of_lt (by omega)
  have hn : count % 2 ^ ub = count := Nat.mod_eq_of_lt (by omega)
  have hs2 : ¬ (offset + count) % 2 ^ ub > 512 := by
    rw [Nat.mod_eq_of_lt (by omega)]; omega
  have ho16 : offset % 2 ^ 16 = offset := Nat.mod_eq_of_lt (by omega)
  have ht := retry_eq (rx_spi dev) (fun r => r != D_TOK1) 10000 k _ hk
    (by simpa using hf) (by simpa using hs)
  have e1 : 10000 - k ≠ 0 := by omega
  simp only [disk_readp, if_neg hinit, ho, hn, if_neg hs2, ho16]
  simp only [Nat.reducePow] at hc ht
  simp [hc, ht, e1, skip_data_eq]

/-- Counterexample to C4 as stated: with `count = 0` (so `offset + count ≤ 512`)
on a card that answers the read and sends the data token, `disk_readp` with a
16-bit `UINT` returns `RES_OK` and has stored 65536 bytes, not 0. -/
theorem disk_readp_zero_count :
    (ready CT_SDC1 scriptRead).cardType ≠ CT_UNKNOWN ∧ 0 + 0 ≤ 512 ∧
    (send_cmd scriptDev READ_SINGLE_BLOCK 3584 (ready CT_SDC1 scriptRead)).1 = 0x00 ∧
    (disk_readp scriptDev 16 true 7 0 0 (ready CT_SDC1 scriptRead)).1 = RES_OK ∧
    (disk_readp scriptDev 16 true 7 0 0 (ready CT_SDC1 scriptRead)).2.1.length = 65536 := by
  have h := disk_readp_fill scriptDev 16 7 0 0 1 (ready CT_SDC1 scriptRead)
    (by decide) (by decide) (by decide) (by decide) (by decide) (by decide) (by decide)
  refine ⟨by decide, by decide, by decide, h.1, ?_⟩
  rw [h.2, rd_fill_zero]
  rfl

/-- C4 (amended): for an initialised card, `1 ≤ count` and `offset + count ≤ 512`,
if the read command is answered `0x00` and the data token arrives at poll
`k < 10000`, then `disk_readp` with a destination returns `RES_OK`, and the
bytes it stores are exactly `count` bytes: bytes `offset .. offset + count - 1`
of the 512 bytes that follow the token. `UINT` has at least 16 bits. -/
theorem disk_readp_copies (ub sector offset count k : Nat) (d : Drive σ)
    (hub : 16 ≤ ub) (hinit : d.cardType ≠ CT_UNKNOWN) (hcount : 1 ≤ count)
    (hsum : offset + count ≤ 512) :
    let addr := if d.cardType &&& CT_BLOCK = 0 then (sector % 2 ^ 32) <<< 9 % 2 ^ 32
      else sector % 2 ^ 32
    let c := send_cmd dev READ_SINGLE_BLOCK addr d
    c.1 = 0x00 → k < 10000 →
    (∀ j < k, (rx_spi dev (after_attempts (rx_spi dev) j c.2)).1 ≠ D_TOK1) →
    (rx_spi dev (after_attempts (rx_spi dev) k c.2)).1 = D_TOK1 →
    let t := (rx_spi dev (after_attempts (rx_spi dev) k c.2)).2
    (disk_readp dev ub true sector offset count d).1 = RES_OK ∧
    (disk_readp dev ub true sector offset count d).2.1
      = ((rx_n dev 512 t).1.drop offset).take count ∧
    (disk_readp dev ub true sector offset count d).2.1.length = count := by
  intro addr c hc hk hf hs t
  have hP : 65536 ≤ 2 ^ ub := Nat.pow_le_pow_right (Nat.succ_pos 1) hub
  have hfill := rd_fill_pos dev ub count (rx_n dev offset t).2 hcount (by omega)
  have key := disk_readp_fill dev ub sector offset count k d hub hinit hsum hc hk hf hs
  have hpay : (rx_n dev 512 t).1 = (rx_n dev offset t).1 ++
      ((rx_n dev count (rx_n dev offset t).2).1 ++
        (rx_n dev (512 - offset - count) (rx_n dev count (rx_n dev offset t).2).2).1) := by
    rw [show 512 = offset + (count + (512 - offset - count)) by omega, rx_n_add, rx_n_add]
    simp
  have k2 : (disk_readp dev ub true sector offset count d).2.1
      = (rx_n dev count (rx_n dev offset t).2).1 := by
    rw [key.2]
    exact congrArg Prod.fst hfill
  refine ⟨key.1, ?_, ?_⟩
  · rw [k2, hpay, List.drop_left' (rx_n_length dev offset t),
      List.take_left' (rx_n_length dev count _)]
  · rw [k2, rx_n_length]

/-- Witness of C4 (amended): `offset = 12`, `count = 500` on the scripted card. -/
theorem disk_readp_copies_witness :
    (disk_readp scriptDev 16 true 7 12 500 (ready CT_SDC1 scriptRead)).1 = RES_OK ∧
    (disk_readp scriptDev 16 true 7 12 500 (ready CT_SDC1 scriptRead)).2.1.length = 500 :=
  have h := disk_readp_copies scriptDev 16 7 12 500 1 (ready CT_SDC1 scriptRead)
    (by decide) (by decide) (by decide) (by decide) (by decide) (by decide) (by decide)
    (by decide)
  ⟨h.1, h.2.2⟩

end ReadPartial

section WritePartial

variable {σ : Type} (dev : Dev σ)

@[simp] theorem sent_spi (x : Nat) (d : Drive σ) : sent (spi dev x d).2 = sent d ++ [x % 256] := by
  simp [sent, spi]

@[simp] theorem sent_tx_spi (x : Nat) (d : Drive σ) : sent (tx_spi dev x d) = sent d ++ [x % 256] := by
  simp [sent, tx_spi, spi]

@[simp] theorem sent_rx_spi (d : Drive σ) : sent (rx_spi dev d).2 = sent d ++ [0xFF] := by
  simp [sent, rx_spi, spi]

@[simp] theorem sent_DESELECT (d : Drive σ) : sent (DESELECT d) = sent d := rfl

@[simp] theorem sent_SELECT (d : Drive σ) : sent (SELECT d) = sent d := rfl

theorem wr_data_spec (b : Nat → Nat) (n i : Nat) (d : Drive σ) :
    sent (wr_data dev b n i d)
      = sent d ++ (List.range (min n d.wcnt)).map (fun j => b (i + j) % 256) ∧
    (wr_data dev b n i d).wcnt = d.wcnt - min n d.wcnt := by
  induction n generalizing i d with
  | zero => simp [wr_data]
  | succ n ih =>
    simp only [wr_data]
    split
    · rename_i hw
      obtain ⟨w, hw2⟩ : ∃ w, d.wcnt = w + 1 := ⟨d.wcnt - 1, by omega⟩
      have h := ih (i + 1) { tx_spi dev (b i) d with wcnt := d.wcnt - 1 }
      have e : min (n + 1) d.wcnt = min n w + 1 := by rw [hw2]; omega
      have e2 : d.wcnt - 1 = w := by omega
      simp only [e2] at h ⊢
      rw [h.1, h.2, e, hw2]
      refine ⟨?_, by omega⟩
      rw [List.range_succ_eq_map]
      simp [sent, tx_spi, spi, Function.comp_def, Nat.add_assoc, Nat.add_comm 1]
    · rename_i hw
      have hw0 : d.wcnt = 0 := by omega
      simp [hw0]

theorem wr_fill_spec (n : Nat) (d : Drive σ) :
    sent (wr_fill dev n d) = sent d ++ List.replicate n 0 ∧ (wr_fill dev n d).wcnt = d.wcnt := by
  induction n generalizing d with
  | zero => simp [wr_fill]
  | succ n ih =>
    simp only [wr_fill]
    rw [(ih _).1, (ih _).2]
    simp [List.replicate_succ]

theorem wr_busy_spec (n : Nat) (d : Drive σ) :
    ∃ t, sent (wr_busy dev n d).2 = sent d ++ t ∧ t ≠ [] ∧ ∀ x ∈ t, x = 0xFF := by
  induction n generalizing d with
  | zero => exact ⟨[0xFF], by simp [wr_busy], by simp, by simp⟩
  | succ n ih =>
    simp only [wr_busy]
    split
    · obtain ⟨t, h1, _, h3⟩ := ih (rx_spi dev d).2
      refine ⟨0xFF :: t, by simp [h1], by simp, ?_⟩
      intro x hx
      rcases List.mem_cons.mp hx with h | h
      · exact h
      · exact h3 x h
    · exact ⟨[0xFF], by simp, by simp, by simp⟩

/-- A data call: `min n wcnt` bytes go out, the first ones of the buffer. -/
theorem disk_writep_data (b : Nat → Nat) (n : Nat) (d : Drive σ) :
    (disk_writep dev (some b) n d).1 = RES_OK ∧
    sent (disk_writep dev (some b) n d).2 = sent d ++ (chunk (b, n)).take d.wcnt ∧
    (disk_writep dev (some b) n d).2.wcnt = d.wcnt - min (n % 2 ^ 32) d.wcnt := by
  have h := wr_data_spec dev b (n % 2 ^ 32) 0 d
  simp only [disk_writep]
  refine ⟨trivial, ?_, h.2⟩
  rw [h.1, chunk, ← List.map_take, List.take_range, Nat.min_comm]
  simp

theorem write_calls_spec (cs : List ((Nat → Nat) × Nat)) (d : Drive σ) :
    sent (write_calls dev cs d) = sent d ++ (supplied cs).take d.wcnt ∧
    (write_calls dev cs d).wcnt = d.wcnt - min d.wcnt (supplied cs).length := by
  induction cs generalizing d with
  | nil => simp [write_calls, supplied]
  | cons c cs ih =>
    obtain ⟨_, h2, h3⟩ := disk_writep_data dev c.1 c.2 d
    have hl : (chunk c).length = c.2 % 2 ^ 32 := by simp [chunk]
    simp only [write_calls, supplied]
    rw [(ih _).1, (ih _).2, h2, h3, List.take_append_eq_append_take, hl, List.length_append, hl,
      List.append_assoc]
    have e : d.wcnt - min (c.2 % 2 ^ 32) d.wcnt = d.wcnt - c.2 % 2 ^ 32 := by omega
    rw [e]
    exact ⟨rfl, by omega⟩

/-- The closing call: `wcnt + 2` zero bytes, then only read exchanges. -/
theorem disk_writep_close (d : Drive σ) (hw : d.wcnt ≤ 512) :
    ∃ t, sent (disk_writep dev none 0 d).2 = sent d ++ List.replicate (d.wcnt + 2) 0 ++ t ∧
      t ≠ [] ∧ ∀ x ∈ t, x = 0xFF := by
  have e : (d.wcnt + 2) % 2 ^ 32 = d.wcnt + 2 := Nat.mod_eq_of_lt (by omega)
  simp only [disk_writep, Nat.zero_mod, ne_eq, not_true_eq_false, if_false, e]
  split
  · obtain ⟨t, h1, h2, h3⟩ := wr_busy_spec dev 10000 (rx_spi dev (wr_fill dev (d.wcnt + 2) d)).2
    refine ⟨0xFF :: (t ++ [0xFF]), ?_, by simp, ?_⟩
    · dsimp only
      rw [sent_rx_spi, sent_DESELECT, h1, sent_rx_spi, (wr_fill_spec dev _ d).1]
      simp
    · intro x hx
      simp only [List.mem_cons, List.mem_append, List.mem_singleton, List.not_mem_nil,
        or_false] at hx
      rcases hx with h | h | h
      · exact h
      · exact h3 x h
      · exact h
  · refine ⟨[0xFF, 0xFF], ?_, by simp, by simp⟩
    dsimp only
    rw [sent_rx_spi, sent_DESELECT, sent_rx_spi, (wr_fill_spec dev _ d).1]
    simp

/-- C8: the write-stream cursor. After an opening call `disk_writep(NULL, s)`
with `s ≠ 0` whose command is answered `0x00`, the call returns `RES_OK`, has
sent the token after an idle byte and the cursor `wcnt` is 512. Every data
call returns `RES_OK`, sends exactly the first `min n wcnt` bytes of its buffer
and lowers the cursor by that number. A closing call sends `wcnt + 2` zero
bytes and from then on only reads. Hence, whatever the data calls between the
open and the close, the bytes sent between the token and the first read of the
closing call are 514: the supplied data cut at 512 bytes, zeros up to 512, and
two zero bytes. -/
theorem disk_writep_stream (s : Nat) (cs : List ((Nat → Nat) × Nat)) (d : Drive σ) :
    let addr := if d.cardType &&& CT_BLOCK = 0 then (s % 2 ^ 32) <<< 9 % 2 ^ 32 else s % 2 ^ 32
    let c := send_cmd dev WRITE_SINGLE_BLOCK addr d
    let o := disk_writep dev none s d
    s % 2 ^ 32 ≠ 0 → c.1 = 0x00 →
    (o.1 = RES_OK ∧ o.2.wcnt = 512 ∧ sent o.2 = sent c.2 ++ [0xFF, D_TOK1]) ∧
    (∀ (b : Nat → Nat) (n : Nat) (e : Drive σ),
      (disk_writep dev (some b) n e).1 = RES_OK ∧
      sent (disk_writep dev (some b) n e).2
        = sent e ++ (chunk (b, n)).take (min (n % 2 ^ 32) e.wcnt) ∧
      ((chunk (b, n)).take (min (n % 2 ^ 32) e.wcnt)).length = min (n % 2 ^ 32) e.wcnt ∧
      (disk_writep dev (some b) n e).2.wcnt = e.wcnt - min (n % 2 ^ 32) e.wcnt) ∧
    (∀ e : Drive σ, e.wcnt ≤ 512 →
      ∃ t, sent (disk_writep dev none 0 e).2 = sent e ++ List.replicate (e.wcnt + 2) 0 ++ t ∧
        t ≠ [] ∧ ∀ x ∈ t, x = 0xFF) ∧
    (let w := write_calls dev cs o.2
     let data := (supplied cs).take 512
     let block := data ++ List.replicate (512 - data.length) 0 ++ [0, 0]
     block.length = 514 ∧
     ∃ t, sent (disk_writep dev none 0 w).2 = sent o.2 ++ block ++ t ∧
       t ≠ [] ∧ ∀ x ∈ t, x = 0xFF) := by
  intro addr c o hs hc
  have ho : o = (RES_OK, { tx_spi dev D_TOK1 (tx_spi dev 0xFF c.2) with wcnt := 512 }) := by
    simp only [o, disk_writep, ne_eq, hs, not_false_eq_true, if_true]
    simp only [c, addr] at hc
    rw [if_pos hc]
  have hw : o.2.wcnt = 512 := by rw [ho]
  refine ⟨⟨by rw [ho], hw, ?_⟩, ?_, fun e he => disk_writep_close dev e he, ?_⟩
  · rw [ho]
    simp [sent, tx_spi, spi, D_TOK1]
  · intro b n e
    obtain ⟨h1, h2, h3⟩ := disk_writep_data dev b n e
    have hl : (chunk (b, n)).length = n % 2 ^ 32 := by simp [chunk]
    have ht : (chunk (b, n)).take (min (n % 2 ^ 32) e.wcnt) = (chunk (b, n)).take e.wcnt := by
      rcases Nat.le_total (n % 2 ^ 32) e.wcnt with h | h
      · rw [Nat.min_eq_left h, List.take_of_length_le (by omega),
          List.take_of_length_le (by omega)]
      · rw [Nat.min_eq_right h]
    refine ⟨h1, by rw [h2, ht], ?_, h3⟩
    rw [List.length_take, hl]
    omega
  · intro w data block
    obtain ⟨h1, h2⟩ := write_calls_spec dev cs o.2
    rw [hw] at h1 h2
    have hd : data.length = min 512 (supplied cs).length := by
      simp only [data, List.length_take]
    have hw2 : w.wcnt = 512 - data.length := by rw [hd]; exact h2
    obtain ⟨t, t1, t2, t3⟩ := disk_writep_close dev w (by omega)
    refine ⟨?_, t, ?_, t2, t3⟩
    · simp only [block, List.length_append, List.length_replicate, List.length_cons,
        List.length_nil]
      omega
    · rw [t1, hw2]
      have e1 : sent w = sent o.2 ++ data := h1
      rw [e1, show 512 - data.length + 2 = (512 - data.length) + 2 from rfl,
        List.replicate_add]
      simp [block, List.replicate]

/-- Witness of C8: an open on a scripted card that accepts the write command,
followed by two data calls of 300 bytes each. -/
theorem disk_writep_stream_witness :
    (disk_writep scriptDev none 3 (ready CT_SDC1 (answer [0x00]))).1 = RES_OK ∧
    (disk_writep scriptDev none 3 (ready CT_SDC1 (answer [0x00]))).2.wcnt = 512 :=
  have h := disk_writep_stream scriptDev 3 [(fun i => i, 300), (fun i => i + 1, 300)]
    (ready CT_SDC1 (answer [0x00])) (by decide) (by decide)
  ⟨h.1.1, h.1.2.1⟩

end WritePartial

section RoundTrip

/-- An idle simulated card accepts the write command: status `0x00`, and it
then waits for the data token. -/
theorem sim_cmd_write (arg : Nat) (d : Drive SimCard) (mem : List Nat → List Nat)
    (hcard : d.card = ⟨mem, .idle⟩) :
    (send_cmd simCard WRITE_SINGLE_BLOCK arg d).1 = 0 ∧
    (send_cmd simCard WRITE_SINGLE_BLOCK arg d).2.card
      = ⟨mem, .wtoken (addrBytes (arg % 2 ^ 32))⟩ := by
  have h1 : IS_ACMD (WRITE_SINGLE_BLOCK % 256) = false := by decide
  rw [send_cmd_eq, h1]
  simp [send_cmd_frame, send_cmd_poll, rx_spi, tx_spi, spi, simCard, simStep, DESELECT, SELECT,
    hcard, WRITE_SINGLE_BLOCK, READ_SINGLE_BLOCK, STOP_READ, GO_IDLE, CHECK_V, IS_R1_RESP,
    addrBytes]

/-- An idle simulated card answers the read command with `0x00`; the data
token, the block and the checksum follow. -/
theorem sim_cmd_read (arg : Nat) (d : Drive SimCard) (mem : List Nat → List Nat)
    (hcard : d.card = ⟨mem, .idle⟩) :
    (send_cmd simCard READ_SINGLE_BLOCK arg d).1 = 0 ∧
    (send_cmd simCard READ_SINGLE_BLOCK arg d).2.card
      = ⟨mem, .reply (D_TOK1 :: (mem (addrBytes (arg % 2 ^ 32)) ++ [0x00, 0x00])) none⟩ := by
  have h1 : IS_ACMD (READ_SINGLE_BLOCK % 256) = false := by decide
  rw [send_cmd_eq, h1]
  simp [send_cmd_frame, send_cmd_poll, rx_spi, tx_spi, spi, simCard, simStep, DESELECT, SELECT,
    hcard, READ_SINGLE_BLOCK, STOP_READ, GO_IDLE, CHECK_V, IS_R1_RESP, addrBytes, D_TOK1]

/-- Data bytes sent to a simulated card that is receiving a block are
appended to what it has received. -/
theorem sim_wr_data (b : Nat → Nat) (n i : Nat) (d : Drive SimCard)
    (mem : List Nat → List Nat) (a acc : List Nat)
    (hcard : d.card = ⟨mem, .wdata a acc⟩) (hcs : d.cs = false) (hn : n ≤ d.wcnt)
    (hlen : acc.length + n ≤ 513) :
    (wr_data simCard b n i d).card
      = ⟨mem, .wdata a (acc ++ (List.range n).map (fun j => b (i + j) % 256))⟩ ∧
    (wr_data simCard b n i d).cs = false ∧
    (wr_data simCard b n i d).wcnt = d.wcnt - n ∧
    (wr_data simCard b n i d).cardType = d.cardType := by
  induction n generalizing i d acc with
  | zero => simp [wr_data, hcard, hcs]
  | succ n ih =>
    have hw : d.wcnt ≠ 0 := by omega
    have hl : acc.length < 513 := by omega
    simp only [wr_data, hw, ne_eq, not_false_eq_true, if_true]
    have h := ih (i + 1) { tx_spi simCard (b i) d with wcnt := d.wcnt - 1 } (acc ++ [b i % 256])
      (by simp [tx_spi, spi, simCard, simStep, hcard, hcs, hl]) (by simp [hcs])
      (by simp; omega) (by simp; omega)
    refine ⟨?_, h.2.1, ?_, ?_⟩
    · rw [h.1, List.range_succ_eq_map]
      simp [Function.comp_def, Nat.add_assoc, Nat.add_comm 1]
    · rw [h.2.2.1]; simp; omega
    · rw [h.2.2.2]; simp

/-- The bytes of a list, offered as a buffer of its length, are the list. -/
theorem chunk_of_list (c : List Nat) (hb : ∀ x ∈ c, x < 256) (hl : c.length < 2 ^ 32) :
    chunk (fun i => c.getD i 0, c.length) = c := by
  simp only [chunk, Nat.mod_eq_of_lt hl]
  apply List.ext_getElem
  · simp
  · intro j h1 h2
    simp only [List.getElem_map, List.getElem_range]
    rw [List.getD_eq_getElem _ _ h2]
    exact Nat.mod_eq_of_lt (hb _ (List.getElem_mem h2))

/-- A sequence of data calls that fits the block being received. -/
theorem sim_write_calls (chunks : List (List Nat)) (d : Drive SimCard)
    (mem : List Nat → List Nat) (a acc : List Nat)
    (hcard : d.card = ⟨mem, .wdata a acc⟩) (hcs : d.cs = false)
    (hb : ∀ x ∈ chunks.flatten, x < 256) (hfit : chunks.flatten.length ≤ d.wcnt)
    (hlen : acc.length + chunks.flatten.length ≤ 513) :
    (write_calls simCard (chunks.map asCall) d).card
      = ⟨mem, .wdata a (acc ++ chunks.flatten)⟩ ∧
    (write_calls simCard (chunks.map asCall) d).cs = false ∧
    (write_calls simCard (chunks.map asCall) d).wcnt = d.wcnt - chunks.flatten.length ∧
    (write_calls simCard (chunks.map asCall) d).cardType = d.cardType := by
  induction chunks generalizing d acc with
  | nil => simp [write_calls, hcard, hcs]
  | cons c cs ih =>
    simp only [List.flatten_cons, List.length_append, List.mem_append] at hb hfit hlen
    have hc32 : c.length % 2 ^ 32 = c.length := Nat.mod_eq_of_lt (by omega)
    have hch := chunk_of_list c (fun x hx => hb x (Or.inl hx)) (by omega)
    simp only [chunk, hc32] at hch
    have h := sim_wr_data (fun i => c.getD i 0) c.length 0 d mem a acc hcard hcs (by omega)
      (by omega)
    simp only [Nat.zero_add, hch] at h
    have e : (disk_writep simCard (some (asCall c).1) (asCall c).2 d).2
        = wr_data simCard (fun i => c.getD i 0) c.length 0 d := by
      have hc32b : c.length % 4294967296 = c.length := hc32
      simp [disk_writep, asCall, hc32b]
    simp only [List.map_cons, write_calls, e, List.flatten_cons]
    have h2 := ih (wr_data simCard (fun i => c.getD i 0) c.length 0 d) (acc ++ c) h.1 h.2.1
      (fun x hx => hb x (Or.inr hx)) (by rw [h.2.2.1]; omega)
      (by rw [List.length_append]; omega)
    refine ⟨by rw [h2.1, List.append_assoc], h2.2.1, ?_, ?_⟩
    · rw [h2.2.2.1, h.2.2.1, List.length_append]; omega
    · rw [h2.2.2.2, h.2.2.2]

/-- Closing a write whose 512 bytes are all in: the simulated card stores the
block, accepts it, is busy once, and the call returns `RES_OK`. -/
theorem sim_close (d : Drive SimCard) (mem : List Nat → List Nat) (a acc : List Nat)
    (hcard : d.card = ⟨mem, .wdata a acc⟩) (hcs : d.cs = false) (hw : d.wcnt = 0)
    (hlen : acc.length = 512) :
    (disk_writep simCard none 0 d).1 = RES_OK ∧
    (disk_writep simCard none 0 d).2.card
      = ⟨fun k => if k = a then acc else mem k, .idle⟩ ∧
    (disk_writep simCard none 0 d).2.cardType = d.cardType := by
  have e : (10000 : Nat) = 9998 + 1 + 1 := rfl
  have hm : (229 : Nat) &&& 15 = 5 := by decide
  simp [disk_writep, hw, wr_fill, e, wr_busy, rx_spi, tx_spi, spi, simCard, simStep, hcard, hcs,
    hlen, DESELECT, DATA_RESP_MASK, DATA_ACCEPTED, hm]

/-- Reading from a simulated card that is sending `l` and then more. -/
theorem sim_rx_reply (l rest : List Nat) (d : Drive SimCard) (mem : List Nat → List Nat)
    (hcard : d.card = ⟨mem, .reply (l ++ rest) none⟩) (hcs : d.cs = false)
    (hrest : rest ≠ []) (hb : ∀ x ∈ l, x < 256) :
    (rx_n simCard l.length d).1 = l ∧
    (rx_n simCard l.length d).2.card = ⟨mem, .reply rest none⟩ ∧
    (rx_n simCard l.length d).2.cs = false := by
  induction l generalizing d with
  | nil => simp [rx_n, hcard, hcs]
  | cons x l ih =>
    have hx : x % 256 = x := Nat.mod_eq_of_lt (hb x (List.mem_cons_self _ _))
    have hne : (l ++ rest).isEmpty = false := by
      cases l with
      | nil => cases rest with
        | nil => exact absurd rfl hrest
        | cons _ _ => rfl
      | cons _ _ => rfl
    have h := ih (rx_spi simCard d).2
      (by simp [rx_spi, spi, simCard, simStep, hcard, hcs, hne]) (by simp [hcs])
      (fun y hy => hb y (List.mem_cons_of_mem _ hy))
    simp only [List.length_cons, rx_n]
    refine ⟨?_, h.2.1, h.2.2⟩
    rw [h.1]
    simp [rx_spi, spi, simCard, simStep, hcard, hcs, hx]

/-- C9: write/read round trip against the simulated card. For every non-zero
sector `s`, every initialised card family and every split `chunks` of 512
bytes into consecutive data calls, the opening call, every data call and the
closing call return `RES_OK`, and `disk_readp(dest, s, 0, 512)` afterwards
returns `RES_OK` with the 512 bytes in `dest`. -/
theorem write_read_round_trip (ub s : Nat) (chunks : List (List Nat)) (d : Drive SimCard)
    (mem : List Nat → List Nat) (hub : 16 ≤ ub) (hs : s % 2 ^ 32 ≠ 0)
    (hinit : d.cardType ≠ CT_UNKNOWN) (hcard : d.card = ⟨mem, .idle⟩)
    (hlen : chunks.flatten.length = 512) (hb : ∀ x ∈ chunks.flatten, x < 256) :
    let o := disk_writep simCard none s d
    let w := write_calls simCard (chunks.map asCall) o.2
    let z := disk_writep simCard none 0 w
    let r := disk_readp simCard ub true s 0 512 z.2
    o.1 = RES_OK ∧
    (∀ c ∈ chunks, ∀ e : Drive SimCard,
      (disk_writep simCard (some (asCall c).1) (asCall c).2 e).1 = RES_OK) ∧
    z.1 = RES_OK ∧ r.1 = RES_OK ∧ r.2.1 = chunks.flatten := by
  intro o w z r
  -- the opening call
  obtain ⟨a1, a2⟩ := sim_cmd_write
    (if d.cardType &&& CT_BLOCK = 0 then (s % 4294967296) <<< 9 % 4294967296 else s % 4294967296) d mem hcard
  simp only [Nat.reducePow] at a1 a2 hs
  generalize hkey : addrBytes ((if d.cardType &&& CT_BLOCK = 0 then (s % 4294967296) <<< 9 % 4294967296
    else s % 4294967296) % 4294967296) = key at a2
  have ho : o = (RES_OK, { tx_spi simCard D_TOK1 (tx_spi simCard 0xFF (send_cmd simCard
      WRITE_SINGLE_BLOCK (if d.cardType &&& CT_BLOCK = 0 then (s % 4294967296) <<< 9 % 4294967296
        else s % 4294967296) d).2) with wcnt := 512 }) := by
    simp only [o, disk_writep, Nat.reducePow, ne_eq, hs, not_false_eq_true, if_true]
    rw [if_pos a1]
  have o1 : o.2.card = ⟨mem, .wdata key []⟩ := by
    rw [ho]
    simp [tx_spi, spi, simCard, simStep, a2, D_TOK1]
  have o2 : o.2.cs = false := by rw [ho]; simp
  have o3 : o.2.wcnt = 512 := by rw [ho]
  have o4 : o.2.cardType = d.cardType := by rw [ho]; simp
  -- the data calls
  obtain ⟨w1, w2, w3, w4⟩ := sim_write_calls chunks o.2 mem key [] o1 o2 hb (by omega)
    (by simp [hlen])
  rw [List.nil_append] at w1
  -- the closing call
  obtain ⟨z1, z2, z3⟩ := sim_close w mem key chunks.flatten w1 w2 (by rw [w3, o3, hlen]) hlen
  have hz : z.2.cardType = d.cardType := by rw [z3, w4, o4]
  have hz0 : z.2.cardType ≠ CT_UNKNOWN := by rw [hz]; exact hinit
  -- the read
  obtain ⟨c1, c2⟩ := sim_cmd_read
    (if z.2.cardType &&& CT_BLOCK = 0 then (s % 4294967296) <<< 9 % 4294967296 else s % 4294967296) z.2 _ z2
  simp only [Nat.reducePow] at c1 c2
  rw [hz, hkey] at c2
  rw [hz] at c1
  simp only [if_true] at c2
  have ccs := send_cmd_cs simCard READ_SINGLE_BLOCK
    (if d.cardType &&& CT_BLOCK = 0 then (s % 4294967296) <<< 9 % 4294967296 else s % 4294967296) z.2
  have htok : (rx_spi simCard (send_cmd simCard READ_SINGLE_BLOCK
      (if d.cardType &&& CT_BLOCK = 0 then (s % 4294967296) <<< 9 % 4294967296 else s % 4294967296) z.2).2).1
      = D_TOK1 := by
    simp [rx_spi, spi, simCard, simStep, c2, ccs, D_TOK1]
  have ht : (rx_spi simCard (send_cmd simCard READ_SINGLE_BLOCK
      (if d.cardType &&& CT_BLOCK = 0 then (s % 4294967296) <<< 9 % 4294967296 else s % 4294967296) z.2).2).2.card
      = ⟨fun k => if k = key then chunks.flatten else mem k,
          .reply (chunks.flatten ++ [0x00, 0x00]) none⟩ := by
    simp [rx_spi, spi, simCard, simStep, c2, ccs]
  obtain ⟨p1, _, _⟩ := sim_rx_reply chunks.flatten [0x00, 0x00] _ _ ht (by simp [ccs])
    (by simp) hb
  rw [hlen] at p1
  have hrd := disk_readp_copies simCard ub s 0 512 0 z.2 hub hz0 (by decide) (by decide)
  simp only [hz, after_attempts, Nat.reducePow] at hrd
  obtain ⟨r1, r2, _⟩ := hrd c1 (by decide) (fun j hj => absurd hj (Nat.not_lt_zero j)) htok
  refine ⟨by rw [ho], fun c _ e => rfl, z1, r1, ?_⟩
  rw [r2, p1, List.drop_zero, List.take_of_length_le (by omega)]

/-- Witness of C9: sector 5 of a byte-addressed card, written in three data
calls of 200, 300 and 12 bytes. -/
theorem write_read_round_trip_witness :
    (disk_readp simCard 16 true 5 0 512
      (disk_writep simCard none 0
        (write_calls simCard (sampleChunks.map asCall)
          (disk_writep simCard none 5 (ready CT_SDC1 blankCard)).2)).2).2.1
      = sampleChunks.flatten :=
  (write_read_round_trip 16 5 sampleChunks (ready CT_SDC1 blankCard) blankCard.mem
    (by decide) (by decide) (by decide) rfl (by
      simp only [sampleChunks, List.flatten_cons, List.flatten_nil, List.length_append,
        List.length_replicate, List.length_map, List.length_range, List.length_nil]) (by
      intro x hx
      simp only [sampleChunks, List.flatten_cons, List.flatten_nil, List.mem_append,
        List.mem_replicate, List.mem_map, List.mem_range, List.append_nil] at hx
      rcases hx with h | ⟨i, _, h⟩ | h
      · omega
      · omega
      · omega)).2.2.2.2

end RoundTrip

section Header

theorem pf_read_length (fs : Fs) (btr : Nat) : (pf_read fs btr).2.1.length ≤ btr := by
  simp only [pf_read]
  split
  · simp only [List.length_map, List.length_take]
    omega
  · simp

theorem byteAt_store (buf h : List Nat) (i : Nat) (hi : i < h.length) :
    byteAt (store buf h) i = byteAt h i := by
  simp [byteAt, store, List.getD_eq_getElem?_getD, List.getElem?_append_left hi]

theorem LD_WORD_store (buf h : List Nat) (off : Nat) (hi : off + 1 < h.length) :
    LD_WORD (store buf h) off = LD_WORD h off := by
  simp only [LD_WORD, byteAt_store buf h (off + 1) hi, byteAt_store buf h off (by omega)]

theorem LD_DWORD_store (buf h : List Nat) (off : Nat) (hi : off + 3 < h.length) :
    LD_DWORD (store buf h) off = LD_DWORD h off := by
  simp only [LD_DWORD, byteAt_store buf h (off + 3) hi, byteAt_store buf h (off + 2) (by omega),
    byteAt_store buf h (off + 1) (by omega), byteAt_store buf h off (by omega)]

/-- C6: when the read of the header succeeds, `load_header` returns 0 as soon
as one check fails on the bytes `h` that were read: fewer than 40 bytes, bytes
8-11 not `WAVE`, bytes 12-15 not `fmt `, format-chunk size below 16, coding
type not 1, channel count not 1, bits per sample not 8, sample rate below 8000
or above 10000. -/
theorem load_header_rejects (F_CPU : Nat) (p : Player) :
    let h := (pf_read p.fs WAVEFILE_HEADER_SIZE).2.1
    (pf_read p.fs WAVEFILE_HEADER_SIZE).1 = FR_OK →
    (h.length < 40 ∨ LD_DWORD h FILE_FORMAT ≠ FCC 'W' 'A' 'V' 'E' ∨
      LD_DWORD h FORMAT_BLOCK_ID ≠ FCC 'f' 'm' 't' ' ' ∨ LD_DWORD h FORMAT_BLOCK_SIZE < 16 ∨
      LD_WORD h SAMPLE_FORMAT ≠ 1 ∨ LD_WORD h NUM_CHANNELS ≠ 1 ∨
      LD_WORD h BITS_PER_SAMPLE ≠ 8 ∨ LD_DWORD h SAMPLE_FREQUENCY < 8000 ∨
      LD_DWORD h SAMPLE_FREQUENCY > 10000) →
    (load_header F_CPU p).1 = 0 := by
  intro h hok hbad
  have hle : h.length ≤ 40 := pf_read_length p.fs WAVEFILE_HEADER_SIZE
  unfold load_header
  simp only [h] at hok hbad hle
  generalize pf_read p.fs WAVEFILE_HEADER_SIZE = r at hok hbad hle ⊢
  obtain ⟨res, hd, fs2⟩ := r
  simp only at hok hbad hle ⊢
  subst hok
  by_cases hlen : hd.length = 40
  · have e1 := LD_DWORD_store p.buffer0 hd FILE_FORMAT (by rw [hlen]; decide)
    have e2 := LD_DWORD_store p.buffer0 hd FORMAT_BLOCK_ID (by rw [hlen]; decide)
    have e3 := LD_DWORD_store p.buffer0 hd FORMAT_BLOCK_SIZE (by rw [hlen]; decide)
    have e4 := LD_WORD_store p.buffer0 hd SAMPLE_FORMAT (by rw [hlen]; decide)
    have e5 := LD_WORD_store p.buffer0 hd NUM_CHANNELS (by rw [hlen]; decide)
    have e6 := LD_WORD_store p.buffer0 hd BITS_PER_SAMPLE (by rw [hlen]; decide)
    have e7 := LD_DWORD_store p.buffer0 hd SAMPLE_FREQUENCY (by rw [hlen]; decide)
    rw [e1, e2, e3, e4, e5, e6, e7]
    simp only [FR_OK, ne_eq, not_true_eq_false, if_false, SAMPLE_FREQ_MIN, SAMPLE_FREQ_MAX]
    generalize LD_DWORD hd FILE_FORMAT = v1 at hbad ⊢
    generalize LD_DWORD hd FORMAT_BLOCK_ID = v2 at hbad ⊢
    generalize LD_DWORD hd FORMAT_BLOCK_SIZE = v3 at hbad ⊢
    generalize LD_WORD hd SAMPLE_FORMAT = v4 at hbad ⊢
    generalize LD_WORD hd NUM_CHANNELS = v5 at hbad ⊢
    generalize LD_WORD hd BITS_PER_SAMPLE = v6 at hbad ⊢
    generalize LD_DWORD hd SAMPLE_FREQUENCY = v7 at hbad ⊢
    generalize FCC 'W' 'A' 'V' 'E' = t1 at hbad ⊢
    generalize FCC 'f' 'm' 't' ' ' = t2 at hbad ⊢
    generalize FCC 'd' 'a' 't' 'a' = t3
    generalize LD_DWORD (store p.buffer0 hd) DATA_BLOCK_ID = v8
    generalize LD_DWORD (store p.buffer0 hd) DATA_BLOCK_SIZE = v9
    clear e1 e2 e3 e4 e5 e6 e7 hle
    simp only [apply_ite Prod.fst, WAVEFILE_HEADER_SIZE]
    split_ifs
    all_goals first | rfl | (exfalso; omega)
  · have hne : hd.length ≠ WAVEFILE_HEADER_SIZE := hlen
    simp [FR_OK, hne]

/-- Witness of C6: a header that announces 16 bits per sample. -/
theorem load_header_rejects_witness :
    (load_header 16000000
      (Player.reset (wavFile (wavFormat 1 9000 16 2000 ++ tag "data" ++ le32 2000) []))).1 = 0 :=
  load_header_rejects 16000000
    (Player.reset (wavFile (wavFormat 1 9000 16 2000 ++ tag "data" ++ le32 2000) []))
    (by decide) (by decide)

/-- The 40 bytes `load_header` reads from a canonical wave file end with the
tag `data`: the size of the data chunk, at bytes 40-43, is not among them. -/
theorem take_header (rate size : Nat) (samples : List Nat) :
    ((wavHeader rate size ++ samples).take 40).map (fun b => b % 256)
      = (wavFormat 1 rate 8 size ++ tag "data").map (fun b => b % 256) := by
  have hl : (wavFormat 1 rate 8 size ++ tag "data").length = 40 := by
    simp [wavFormat, tag, le32, le16]
  rw [wavHeader, List.append_assoc, List.take_left' hl]

/-- When the header read succeeds with 40 bytes and every check passes on
`buffer0`, `load_header` returns the double word it finds at offset
`DATA_BLOCK_SIZE` of `buffer0`, or 0 if that is below 1024. -/
theorem load_header_accepts (F_CPU : Nat) (p : Player) (B : List Nat)
    (hB : B = store p.buffer0 (pf_read p.fs WAVEFILE_HEADER_SIZE).2.1)
    (hok : (pf_read p.fs WAVEFILE_HEADER_SIZE).1 = 0)
    (hlen : (pf_read p.fs WAVEFILE_HEADER_SIZE).2.1.length = WAVEFILE_HEADER_SIZE)
    (c1 : LD_DWORD B FILE_FORMAT = FCC 'W' 'A' 'V' 'E')
    (c2 : LD_DWORD B FORMAT_BLOCK_ID = FCC 'f' 'm' 't' ' ')
    (c3 : 16 ≤ LD_DWORD B FORMAT_BLOCK_SIZE) (c4 : LD_WORD B SAMPLE_FORMAT = 1)
    (c5 : LD_WORD B NUM_CHANNELS = 1) (c6 : LD_WORD B BITS_PER_SAMPLE = 8)
    (c7 : SAMPLE_FREQ_MIN ≤ LD_DWORD B SAMPLE_FREQUENCY)
    (c8 : LD_DWORD B SAMPLE_FREQUENCY ≤ SAMPLE_FREQ_MAX)
    (c9 : LD_DWORD B DATA_BLOCK_ID = FCC 'd' 'a' 't' 'a') :
    (load_header F_CPU p).1
      = if LD_DWORD B DATA_BLOCK_SIZE < 1024 then 0 else LD_DWORD B DATA_BLOCK_SIZE := by
  unfold load_header
  generalize pf_read p.fs WAVEFILE_HEADER_SIZE = r at hB hok hlen ⊢
  obtain ⟨res, hd, fs2⟩ := r
  simp only at hB hok hlen ⊢
  subst hok
  rw [← hB, c1, c2, c4, c5, c6, c9]
  generalize LD_DWORD B FORMAT_BLOCK_SIZE = v3 at c3 ⊢
  generalize LD_DWORD B SAMPLE_FREQUENCY = v7 at c7 c8 ⊢
  generalize LD_DWORD B DATA_BLOCK_SIZE = v9
  generalize FCC 'W' 'A' 'V' 'E' = t1
  generalize FCC 'f' 'm' 't' ' ' = t2
  generalize FCC 'd' 'a' 't' 'a' = t3
  have n3 : ¬ v3 < 16 := by omega
  have n7 : ¬ (v7 < SAMPLE_FREQ_MIN ∨ v7 > SAMPLE_FREQ_MAX) := by omega
  simp only [apply_ite Prod.fst, hlen, ne_eq, not_true_eq_false, or_self, if_false, n3, n7,
    if_true]

/-- C5: on a canonical wave file that passes every check (8-bit mono PCM at
9000 Hz), whatever size `size` the file stores at bytes 40-43 and whatever
samples follow, `load_header` called after reset returns 24948: the bytes
`t`, `a` of the tag `data` followed by bytes 40 and 41 of its buffer, which
the 40-byte read does not fill. With `size = 2000` the file does store 2000
at bytes 40-43. -/
theorem load_header_ignores_size (F_CPU size : Nat) (samples : List Nat) :
    (load_header F_CPU (Player.reset (wavFile (wavHeader 9000 size) samples))).1 = 24948 ∧
    LD_DWORD (wavHeader 9000 2000) 40 = 2000 := by
  refine ⟨?_, by decide⟩
  have h1 : (pf_read (Player.reset (wavFile (wavHeader 9000 size) samples)).fs
      WAVEFILE_HEADER_SIZE).1 = 0 := rfl
  have h2 : (pf_read (Player.reset (wavFile (wavHeader 9000 size) samples)).fs
      WAVEFILE_HEADER_SIZE).2.1
      = [0x52, 0x49, 0x46, 0x46, (36 + size) % 256 % 256, (36 + size) / 256 % 256 % 256,
          (36 + size) / 65536 % 256 % 256, (36 + size) / 16777216 % 256 % 256] ++
        ((tag "WAVE" ++ tag "fmt " ++ le32 16 ++ le16 1 ++ le16 1 ++ le32 9000 ++
          le32 (9000 * 1 * 8 / 8) ++ le16 (1 * 8 / 8) ++ le16 8 ++ tag "data").map
            (fun b => b % 256)) :=
    (take_header 9000 size samples).trans (by simp [wavFormat, tag, le32])
  have hb : (Player.reset (wavFile (wavHeader 9000 size) samples)).buffer0
      = List.replicate 128 0 := rfl
  obtain ⟨B, hB⟩ : ∃ B, B = store (Player.reset (wavFile (wavHeader 9000 size) samples)).buffer0
    (pf_read (Player.reset (wavFile (wavHeader 9000 size) samples)).fs
      WAVEFILE_HEADER_SIZE).2.1 := ⟨_, rfl⟩
  have hl : (pf_read (Player.reset (wavFile (wavHeader 9000 size) samples)).fs
      WAVEFILE_HEADER_SIZE).2.1.length = WAVEFILE_HEADER_SIZE := by rw [h2]; rfl
  have hB2 := hB
  rw [hb, h2] at hB2
  generalize (36 + size) % 256 % 256 = s0 at hB2
  generalize (36 + size) / 256 % 256 % 256 = s1 at hB2
  generalize (36 + size) / 65536 % 256 % 256 = s2 at hB2
  generalize (36 + size) / 16777216 % 256 % 256 = s3 at hB2
  have hB3 : B = [0x52, 0x49, 0x46, 0x46, s0, s1, s2, s3] ++ wavTail := hB2
  have kb : ∀ i, byteAt B (8 + i) = byteAt wavTail i := by
    intro i
    rw [hB3]
    unfold byteAt
    rw [List.getD_eq_getElem?_getD, List.getD_eq_getElem?_getD,
      List.getElem?_append_right (by simp)]
    simp
  have kd : ∀ off, LD_DWORD B (8 + off) = LD_DWORD wavTail off := by
    intro off
    simp only [LD_DWORD, Nat.add_assoc, kb]
  have kw : ∀ off, LD_WORD B (8 + off) = LD_WORD wavTail off := by
    intro off
    simp only [LD_WORD, Nat.add_assoc, kb]
  rw [load_header_accepts F_CPU _ B hB h1 hl ((kd 0).trans (by decide))
    ((kd 4).trans (by decide)) (le_of_eq ((kd 8).trans (by decide)).symm)
    ((kw 12).trans (by decide)) ((kw 14).trans (by decide)) ((kw 26).trans (by decide))
    (by rw [show SAMPLE_FREQUENCY = 8 + 16 from rfl, kd 16]; decide)
    (by rw [show SAMPLE_FREQUENCY = 8 + 16 from rfl, kd 16]; decide)
    ((kd 28).trans (by decide)), show DATA_BLOCK_SIZE = 8 + 30 from rfl, kd 30]
  decide

end Header

section Playback

set_option maxRecDepth 100000 in
/-- C1: on a file that gives two full priming reads (128 bytes each, from
offset 472) and one short refill (3 bytes), under the schedule `earlyRefill`
(the refill completes right after the swap, long before the handler exhausts
the active buffer), `playback` returns 0 with the timer stopped after the
handler has emitted 132 bytes, the first 132 of the 259 bytes the reads
supplied: the remaining 127 bytes are never emitted. -/
theorem playback_drops_tail :
    (load_header 16000000 (Player.reset (wavFile (wavHeader 9000 687) tune))).1 = 24948 ∧
    (loaded []).fs.fptr = 40 ∧
    (run earlyRefill (Run.start (loaded []))).ret = some 0 ∧
    (run earlyRefill (Run.start (loaded []))).p.timer = false ∧
    (run earlyRefill (Run.start (loaded []))).p.fs.fptr = 731 ∧
    (run earlyRefill (Run.start (loaded []))).p.emitted = (fileFrom 472).take 132 ∧
    (fileFrom 472).length = 259 := by
  decide

set_option maxRecDepth 100000 in
/-- C10: `playback` returns 0 although reads failed. With the alignment read
succeeding and both priming reads failing (result code 1), the foreground
alone runs to the end and returns 0; with the first refill failing, under the
schedule of 129 ticks followed by foreground steps, it returns 0 as well. Only
a failing alignment read makes it return 1. -/
theorem playback_ignores_errors :
    (run (steps 5) (Run.start (loaded [0, 1, 1]))).ret = some 0 ∧
    (run (steps 1 ++ ticks 129 ++ steps 6) (Run.start (loaded [0, 0, 0, 1]))).ret = some 0 ∧
    (run (steps 1 ++ ticks 129 ++ steps 2) (Run.start (loaded [0, 0, 0, 1]))).res = 1 ∧
    (run (steps 1) (Run.start (loaded [1]))).ret = some 1 := by
  decide

end Playback

section Frame

variable {σ : Type} (dev : Dev σ)

/-- C13: on a bus that never answers, the response loop of `send_cmd` makes 11
read exchanges, not 10: the whole call makes 19 exchanges, 8 of them up to the
trailer. A status byte that comes as the 11th byte read after the trailer is
still taken as the response. -/
theorem send_cmd_polls_eleven :
    (send_cmd_poll scriptDev 10 (powerUp silent)).2.log.length = 11 ∧
    (send_cmd scriptDev GO_IDLE 0 (powerUp silent)).2.log.length = 8 + 11 ∧
    ((send_cmd scriptDev GO_IDLE 0 (powerUp silent)).2.log.drop 7).map Xch.mosi
      = GO_IDLE_CRC :: List.replicate 11 0xFF ∧
    (send_cmd scriptDev GO_IDLE 0 (powerUp silent)).1 = 0xFF ∧
    (send_cmd scriptDev GO_IDLE 0
      (powerUp (List.replicate 8 0xFF ++ List.replicate 10 0xFF ++ [0x01]))).1 = 0x01 := by
  decide

theorem sent_send_cmd_poll (i : Nat) (d : Drive σ) :
    ∃ k, 1 ≤ k ∧ k ≤ i + 1 ∧ sent (send_cmd_poll dev i d).2 = sent d ++ List.replicate k 0xFF := by
  induction i generalizing d with
  | zero => exact ⟨1, by omega, by omega, by simp [send_cmd_poll]⟩
  | succ i ih =>
    simp only [send_cmd_poll]
    split
    · exact ⟨1, by omega, by omega, by simp⟩
    · obtain ⟨k, h1, h2, h3⟩ := ih (rx_spi dev d).2
      refine ⟨k + 1, by omega, by omega, ?_⟩
      rw [h3, sent_rx_spi, List.replicate_succ]
      simp

/-- The bytes of one command frame on MOSI. -/
theorem sent_send_cmd_frame (cmd arg : Nat) (d : Drive σ) :
    ∃ k, 1 ≤ k ∧ k ≤ 12 ∧
      sent (send_cmd_frame dev cmd arg d).2 = sent d ++ [0xFF, 0xFF] ++
        [cmd % 256, (arg >>> 24) % 256, (arg >>> 16) % 256, (arg >>> 8) % 256, arg % 256,
          if cmd = CHECK_V then CHECK_V_CRC else if cmd = GO_IDLE then GO_IDLE_CRC else 0xFF] ++
        List.replicate k 0xFF := by
  have hcrc : (if cmd = CHECK_V then CHECK_V_CRC else if cmd = GO_IDLE then GO_IDLE_CRC else 255)
      % 256 = if cmd = CHECK_V then CHECK_V_CRC else if cmd = GO_IDLE then GO_IDLE_CRC
        else 255 := by
    split
    · decide
    · split <;> decide
  simp only [send_cmd_frame]
  split
  · obtain ⟨k, h1, h2, h3⟩ := sent_send_cmd_poll dev 10
      (rx_spi dev (tx_spi dev (if cmd = CHECK_V then CHECK_V_CRC else
        if cmd = GO_IDLE then GO_IDLE_CRC else 255) (tx_spi dev arg (tx_spi dev (arg >>> 8)
        (tx_spi dev (arg >>> 16) (tx_spi dev (arg >>> 24) (tx_spi dev cmd
        (rx_spi dev (SELECT (rx_spi dev (DESELECT d)).2)).2))))))).2
    refine ⟨k + 1, by omega, by omega, ?_⟩
    rw [h3]
    simp only [sent_rx_spi, sent_tx_spi, sent_SELECT, sent_DESELECT, hcrc, List.replicate_succ]
    simp
  · obtain ⟨k, h1, h2, h3⟩ := sent_send_cmd_poll dev 10
      (tx_spi dev (if cmd = CHECK_V then CHECK_V_CRC else
        if cmd = GO_IDLE then GO_IDLE_CRC else 255) (tx_spi dev arg (tx_spi dev (arg >>> 8)
        (tx_spi dev (arg >>> 16) (tx_spi dev (arg >>> 24) (tx_spi dev cmd
        (rx_spi dev (SELECT (rx_spi dev (DESELECT d)).2)).2))))))
    refine ⟨k, by omega, by omega, ?_⟩
    rw [h3]
    simp only [sent_rx_spi, sent_tx_spi, sent_SELECT, sent_DESELECT, hcrc]
    simp

/-- C17: command frame encoding. After the preamble of two flush exchanges,
every frame of `send_cmd` puts on MOSI the command byte, the argument as four
bytes, most significant first, and the trailer (`0x87` for the version check,
`0x95` for the idle reset, `0xFF` otherwise), followed only by reads. A plain
command constant is sent as it is, and it is `0x40` or-ed with its 6-bit
index; the application init constant `0xC0 + 41` is sent as `0x69` in a frame
of its own, after the frame of the leading command, unless that one reports
an error. -/
theorem send_cmd_encoding (cmd arg : Nat) (d : Drive σ) :
    (∃ k, 1 ≤ k ∧ k ≤ 12 ∧
      sent (send_cmd_frame dev cmd arg d).2 = sent d ++ [0xFF, 0xFF] ++
        [cmd % 256, (arg >>> 24) % 256, (arg >>> 16) % 256, (arg >>> 8) % 256, arg % 256,
          if cmd = CHECK_V then 0x87 else if cmd = GO_IDLE then 0x95 else 0xFF] ++
        List.replicate k 0xFF) ∧
    (send_cmd dev cmd arg d =
      if IS_ACMD (cmd % 256) then
        (if (send_cmd_frame dev ACMD_LEADING 0 d).1 > 1 then send_cmd_frame dev ACMD_LEADING 0 d
         else send_cmd_frame dev ((cmd % 256) &&& ACMD_MASK) (arg % 2 ^ 32)
                (send_cmd_frame dev ACMD_LEADING 0 d).2)
      else send_cmd_frame dev (cmd % 256) (arg % 2 ^ 32) d) ∧
    ([GO_IDLE, INIT, CHECK_V, STOP_READ, SET_BLOCKLEN, READ_SINGLE_BLOCK, READ_MULTI_BLOCK,
      WRITE_SINGLE_BLOCK, WRITE_MULTI_BLOCK, ACMD_LEADING, READ_OCR].all
        (fun c => !IS_ACMD (c % 256) && c % 256 == 0x40 ||| (c &&& 0x3F))) = true ∧
    IS_ACMD (APP_INIT % 256) = true ∧ (APP_INIT % 256) &&& ACMD_MASK = 0x69 ∧
    0x69 = 0x40 ||| 41 ∧ GO_IDLE = 0x40 ||| 0 ∧ CHECK_V = 0x40 ||| 8 :=
  ⟨sent_send_cmd_frame dev cmd arg d, send_cmd_eq dev cmd arg d, by decide, by decide, by decide,
    by decide, by decide, by decide⟩

end Frame

section Stream

variable {σ : Type} (dev : Dev σ)

@[simp] theorem rx_n_cs (n : Nat) (d : Drive σ) : (rx_n dev n d).2.cs = d.cs := by
  induction n generalizing d with
  | zero => rfl
  | succ n ih => simp [rx_n, ih]

theorem sent_rx_n (n : Nat) (d : Drive σ) :
    sent (rx_n dev n d).2 = sent d ++ List.replicate n 0xFF := by
  induction n generalizing d with
  | zero => simp [rx_n]
  | succ n ih => simp [rx_n, ih, List.replicate_succ]

/-- The exchanges of `n` reads in a row: the select line does not move and the
byte sent is `0xFF`. -/
theorem log_rx_n (n : Nat) (d : Drive σ) :
    ∃ l, (rx_n dev n d).2.log = d.log ++ l ∧ l.length = n ∧
      ∀ e ∈ l, e.cs = d.cs ∧ e.mosi = 0xFF := by
  induction n generalizing d with
  | zero => exact ⟨[], by simp [rx_n], rfl, by simp⟩
  | succ n ih =>
    obtain ⟨l, h1, h2, h3⟩ := ih (rx_spi dev d).2
    refine ⟨⟨d.cs, 0xFF, (rx_spi dev d).1⟩ :: l, ?_, by simp [h2], ?_⟩
    · simp only [rx_n]
      rw [h1]
      simp [rx_spi, spi]
    · intro e he
      rcases List.mem_cons.mp he with h | h
      · subst h; exact ⟨rfl, rfl⟩
      · simpa using h3 e h

theorem rx_n_add_state (a b : Nat) (d : Drive σ) :
    (rx_n dev (a + b) d).2 = (rx_n dev b (rx_n dev a d).2).2 := by
  rw [rx_n_add]

theorem after_attempts_rx_cs (k : Nat) (d : Drive σ) :
    (after_attempts (rx_spi dev) k d).cs = d.cs := by
  induction k generalizing d with
  | zero => rfl
  | succ k ih => simp [after_attempts, ih]

theorem sent_retry_rx (again : Nat → Bool) (n : Nat) (d : Drive σ) :
    ∃ m, sent (retry (rx_spi dev) again n d).2 = sent d ++ List.replicate m 0xFF := by
  induction n generalizing d with
  | zero => exact ⟨0, by simp [retry]⟩
  | succ n ih =>
    simp only [retry]
    split
    · obtain ⟨m, hm⟩ := ih (rx_spi dev d).2
      exact ⟨m + 1, by rw [hm, sent_rx_spi, List.replicate_succ]; simp⟩
    · exact ⟨1, by simp⟩

/-- The state in which `disk_readp` returns once the command is answered
`0x00` and the token arrives at poll `k`, with or without a destination. -/
theorem disk_readp_state (ub sector offset count k : Nat) (buff : Bool) (d : Drive σ)
    (hub : 16 ≤ ub) (hinit : d.cardType ≠ CT_UNKNOWN) (hsum : offset + count ≤ 512)
    (hc : (send_cmd dev READ_SINGLE_BLOCK (if d.cardType &&& CT_BLOCK = 0 then
      (sector % 2 ^ 32) <<< 9 % 2 ^ 32 else sector % 2 ^ 32) d).1 = 0x00)
    (hk : k < 10000)
    (hf : ∀ j < k, (rx_spi dev (after_attempts (rx_spi dev) j
      (send_cmd dev READ_SINGLE_BLOCK (if d.cardType &&& CT_BLOCK = 0 then
        (sector % 2 ^ 32) <<< 9 % 2 ^ 32 else sector % 2 ^ 32) d).2)).1 ≠ D_TOK1)
    (hs : (rx_spi dev (after_attempts (rx_spi dev) k
      (send_cmd dev READ_SINGLE_BLOCK (if d.cardType &&& CT_BLOCK = 0 then
        (sector % 2 ^ 32) <<< 9 % 2 ^ 32 else sector % 2 ^ 32) d).2)).1 = D_TOK1) :
    (disk_readp dev ub buff sector offset count d).2.2 =
      (rx_spi dev (DESELECT (skip_data dev (514 - offset - count)
        (rd_fill dev ub count (skip_data dev offset (rx_spi dev (after_attempts (rx_spi dev) k
          (send_cmd dev READ_SINGLE_BLOCK (if d.cardType &&& CT_BLOCK = 0 then
            (sector % 2 ^ 32) <<< 9 % 2 ^ 32 else sector % 2 ^ 32) d).2)).2)).2))).2 := by
  have hP : 65536 ≤ 2 ^ ub := Nat.pow_le_pow_right (Nat.succ_pos 1) hub
  have ho : offset % 2 ^ ub = offset := Nat.mod_eq_of_lt (by omega)
  have hn : count % 2 ^ ub = count := Nat.mod_eq_of_lt (by omega)
  have hs2 : ¬ (offset + count) % 2 ^ ub > 512 := by
    rw [Nat.mod_eq_of_lt (by omega)]; omega
  have ho16 : offset % 2 ^ 16 = offset := Nat.mod_eq_of_lt (by omega)
  have hbc : (512 + 2 + 2 * 2 ^ ub - offset - count) % 2 ^ ub % 2 ^ 16
      = 514 - offset - count := by
    rw [show 512 + 2 + 2 * 2 ^ ub - offset - count = (514 - offset - count) + 2 ^ ub * 2 by omega,
      Nat.add_mul_mod_self_left, @Nat.mod_eq_of_lt (514 - offset - count) (2 ^ ub) (by omega),
      Nat.mod_eq_of_lt (by omega)]
  have ht := retry_eq (rx_spi dev) (fun r => r != D_TOK1) 10000 k _ hk
    (by simpa using hf) (by simpa using hs)
  have e1 : 10000 - k ≠ 0 := by omega
  simp only [disk_readp, if_neg hinit, ho, hn, if_neg hs2, ho16, hbc]
  simp only [Nat.reducePow] at hc ht
  simp [hc, ht, e1]

/-- C18: stream alignment of a partial read. For an initialised card,
`1 ≤ count` and `offset + count ≤ 512`, once the command is answered `0x00` and
the token has arrived (state `t`), `disk_readp` makes exactly 514 read
exchanges with the card selected (`offset` skipped, `count` copied or
dropped, `514 - offset - count` trailing), then deselects and makes exactly
one more exchange; the final state is the same with and without a
destination. `UINT` has at least 16 bits. -/
theorem disk_readp_alignment (ub sector offset count k : Nat) (buff : Bool) (d : Drive σ)
    (hub : 16 ≤ ub) (hinit : d.cardType ≠ CT_UNKNOWN) (hcount : 1 ≤ count)
    (hsum : offset + count ≤ 512) :
    let addr := if d.cardType &&& CT_BLOCK = 0 then (sector % 2 ^ 32) <<< 9 % 2 ^ 32
      else sector % 2 ^ 32
    let c := send_cmd dev READ_SINGLE_BLOCK addr d
    c.1 = 0x00 → k < 10000 →
    (∀ j < k, (rx_spi dev (after_attempts (rx_spi dev) j c.2)).1 ≠ D_TOK1) →
    (rx_spi dev (after_attempts (rx_spi dev) k c.2)).1 = D_TOK1 →
    let t := (rx_spi dev (after_attempts (rx_spi dev) k c.2)).2
    (disk_readp dev ub buff sector offset count d).2.2
      = (rx_spi dev (DESELECT (rx_n dev 514 t).2)).2 ∧
    (rx_n dev 514 t).2
      = skip_data dev (514 - offset - count) (rx_n dev count (skip_data dev offset t)).2 ∧
    (disk_readp dev ub true sector offset count d).2.2
      = (disk_readp dev ub false sector offset count d).2.2 ∧
    ∃ l x, (disk_readp dev ub buff sector offset count d).2.2.log = t.log ++ l ++ [x] ∧
      l.length = 514 ∧ (∀ e ∈ l, e.cs = false ∧ e.mosi = 0xFF) ∧
      x.cs = true ∧ x.mosi = 0xFF := by
  intro addr c hc hk hf hs t
  have hP : 65536 ≤ 2 ^ ub := Nat.pow_le_pow_right (Nat.succ_pos 1) hub
  have hfill := rd_fill_pos dev ub count (skip_data dev offset t) hcount (by omega)
  have hsplit : (rx_n dev 514 t).2
      = skip_data dev (514 - offset - count) (rx_n dev count (skip_data dev offset t)).2 := by
    rw [show 514 = offset + (count + (514 - offset - count)) by omega, rx_n_add_state,
      rx_n_add_state, skip_data_eq, skip_data_eq]
    rw [show offset + (count + (514 - offset - count)) - offset - count
      = 514 - offset - count by omega]
  have key : ∀ b : Bool, (disk_readp dev ub b sector offset count d).2.2
      = (rx_spi dev (DESELECT (rx_n dev 514 t).2)).2 := by
    intro b
    rw [disk_readp_state dev ub sector offset count k b d hub hinit hsum hc hk hf hs, hsplit]
    exact congrArg (fun z => (rx_spi dev (DESELECT (skip_data dev (514 - offset - count) z.2))).2)
      hfill
  have htcs : t.cs = false := by
    simp only [t, rx_spi_cs, after_attempts_rx_cs, c, send_cmd_cs]
  obtain ⟨l, l1, l2, l3⟩ := log_rx_n dev 514 t
  refine ⟨key buff, hsplit, (key true).trans (key false).symm, l,
    ⟨true, 0xFF, (rx_spi dev (DESELECT (rx_n dev 514 t).2)).1⟩, ?_, l2, ?_, rfl, rfl⟩
  · rw [key buff]
    simp only [rx_spi, spi, DESELECT]
    rw [l1]
  · intro e he
    have := l3 e he
    rw [htcs] at this
    exact this

/-- Witness of C18: `offset = 12`, `count = 500` on the scripted card. -/
theorem disk_readp_alignment_witness :
    (disk_readp scriptDev 16 true 7 12 500 (ready CT_SDC1 scriptRead)).2.2
      = (disk_readp scriptDev 16 false 7 12 500 (ready CT_SDC1 scriptRead)).2.2 :=
  (disk_readp_alignment scriptDev 16 7 12 500 1 true (ready CT_SDC1 scriptRead)
    (by decide) (by decide) (by decide) (by decide) (by decide) (by decide) (by decide)
    (by decide)).2.2.1

end Stream

section Address

variable {σ : Type} (dev : Dev σ)

theorem sent_rd_fill (ub count : Nat) (d : Drive σ) :
    ∃ t, sent (rd_fill dev ub count d).2 = sent d ++ t := by
  simp only [rd_fill, rd_rest_eq, sent_rx_n, sent_rx_spi, List.append_assoc]
  exact ⟨_, rfl⟩

/-- Everything `disk_readp` sends once the parameters are accepted comes after
its read command. -/
theorem disk_readp_sent (ub sector offset count : Nat) (buff : Bool) (d : Drive σ)
    (hinit : d.cardType ≠ CT_UNKNOWN)
    (hpar : ¬ (offset % 2 ^ ub + count % 2 ^ ub) % 2 ^ ub > 512) :
    ∃ t, sent (disk_readp dev ub buff sector offset count d).2.2
      = sent (send_cmd dev READ_SINGLE_BLOCK (if d.cardType &&& CT_BLOCK = 0 then
          (sector % 2 ^ 32) <<< 9 % 2 ^ 32 else sector % 2 ^ 32) d).2 ++ t := by
  simp only [disk_readp, if_neg hinit, if_neg hpar]
  generalize (if d.cardType &&& CT_BLOCK = 0 then (sector % 2 ^ 32) <<< 9 % 2 ^ 32
    else sector % 2 ^ 32) = a
  by_cases hc : (send_cmd dev READ_SINGLE_BLOCK a d).1 = 0
  · simp only [hc, if_true]
    obtain ⟨m, hm⟩ := sent_retry_rx dev (fun r => r != D_TOK1) 10000
      (send_cmd dev READ_SINGLE_BLOCK a d).2
    by_cases ht : (retry (rx_spi dev) (fun r => r != D_TOK1) 10000
        (send_cmd dev READ_SINGLE_BLOCK a d).2).1 = 0
    · simp only [ht, ne_eq, not_true_eq_false, if_false, sent_rx_spi, sent_DESELECT, hm,
        List.append_assoc]
      exact ⟨_, rfl⟩
    · obtain ⟨t, ht2⟩ := sent_rd_fill dev ub (count % 2 ^ ub)
        (skip_data dev (offset % 2 ^ ub % 2 ^ 16)
          (retry (rx_spi dev) (fun r => r != D_TOK1) 10000
            (send_cmd dev READ_SINGLE_BLOCK a d).2).2)
      simp only [ht, ne_eq, not_false_eq_true, if_true, sent_rx_spi, sent_DESELECT]
      rw [skip_data_eq, sent_rx_n, ht2, skip_data_eq, sent_rx_n, hm]
      simp only [List.append_assoc]
      exact ⟨_, rfl⟩
  · simp only [hc, if_false, sent_rx_spi, sent_DESELECT, List.append_assoc]
    exact ⟨_, rfl⟩

/-- Everything the opening call of `disk_writep` sends comes after its write
command. -/
theorem disk_writep_open_sent (s : Nat) (d : Drive σ) (hs : s % 2 ^ 32 ≠ 0) :
    ∃ t, sent (disk_writep dev none s d).2
      = sent (send_cmd dev WRITE_SINGLE_BLOCK (if d.cardType &&& CT_BLOCK = 0 then
          (s % 2 ^ 32) <<< 9 % 2 ^ 32 else s % 2 ^ 32) d).2 ++ t := by
  simp only [disk_writep, ne_eq, hs, not_false_eq_true, if_true]
  generalize (if d.cardType &&& CT_BLOCK = 0 then (s % 2 ^ 32) <<< 9 % 2 ^ 32
    else s % 2 ^ 32) = a
  by_cases hc : (send_cmd dev WRITE_SINGLE_BLOCK a d).1 = 0
  · simp only [hc, if_true]
    exact ⟨[0xFF, D_TOK1], by simp [sent, tx_spi, spi, D_TOK1]⟩
  · simp only [hc, if_false]
    exact ⟨[], by simp⟩

/-- C19: address conversion. For a 32-bit sector number `s`, the read command
of `disk_readp` (on an initialised card, with accepted parameters) and the
write command of the opening call of `disk_writep` (`s ≠ 0`) are sent with the
argument `s` when the card is block-addressed and `s * 512 mod 2 ^ 32`
otherwise: the frame on MOSI is the command byte, the four bytes of that
argument, most significant first, and the trailer. These four bytes determine
the argument, and it is `s * 512` whenever `s < 2 ^ 23`. -/
theorem block_address (ub s offset count : Nat) (buff : Bool) (d : Drive σ)
    (hs : s < 2 ^ 32) (hinit : d.cardType ≠ CT_UNKNOWN) (hsum : offset + count ≤ 512) :
    let A := if d.cardType &&& CT_BLOCK ≠ 0 then s else s * 512 % 2 ^ 32
    (∃ t, sent (disk_readp dev ub buff s offset count d).2.2
      = sent d ++ [0xFF, 0xFF] ++ (READ_SINGLE_BLOCK :: addrBytes A ++ [0xFF]) ++ t) ∧
    (s ≠ 0 → ∃ t, sent (disk_writep dev none s d).2
      = sent d ++ [0xFF, 0xFF] ++ (WRITE_SINGLE_BLOCK :: addrBytes A ++ [0xFF]) ++ t) ∧
    (A >>> 24 % 256) * 2 ^ 24 + (A >>> 16 % 256) * 2 ^ 16 + (A >>> 8 % 256) * 2 ^ 8 + A % 256 = A ∧
    (s < 2 ^ 23 → s * 512 % 2 ^ 32 = s * 512) := by
  intro A
  have hs32 : s % 2 ^ 32 = s := Nat.mod_eq_of_lt hs
  have hA : (if d.cardType &&& CT_BLOCK = 0 then (s % 2 ^ 32) <<< 9 % 2 ^ 32 else s % 2 ^ 32) = A := by
    simp only [A, hs32, Nat.shiftLeft_eq]
    by_cases h : d.cardType &&& CT_BLOCK = 0
    · simp [h]
    · simp [h]
  have hAlt : A < 2 ^ 32 := by
    simp only [A]
    split
    · exact hs
    · exact Nat.mod_lt _ (by decide)
  have hA32 : A % 2 ^ 32 = A := Nat.mod_eq_of_lt hAlt
  have hpar : ¬ (offset % 2 ^ ub + count % 2 ^ ub) % 2 ^ ub > 512 := by
    have h1 := Nat.mod_le offset (2 ^ ub)
    have h2 := Nat.mod_le count (2 ^ ub)
    have h3 := Nat.mod_le (offset % 2 ^ ub + count % 2 ^ ub) (2 ^ ub)
    omega
  have hr : IS_ACMD (READ_SINGLE_BLOCK % 256) = false := by decide
  have hw : IS_ACMD (WRITE_SINGLE_BLOCK % 256) = false := by decide
  refine ⟨?_, ?_, ?_, ?_⟩
  · obtain ⟨t, ht⟩ := disk_readp_sent dev ub s offset count buff d hinit hpar
    obtain ⟨k, _, _, hk⟩ := sent_send_cmd_frame dev (READ_SINGLE_BLOCK % 256) (A % 2 ^ 32) d
    rw [hA, send_cmd_eq, hr] at ht
    simp only [Bool.false_eq_true, if_false] at ht
    rw [ht, hk, hA32]
    exact ⟨List.replicate k 0xFF ++ t, by simp [addrBytes, READ_SINGLE_BLOCK, CHECK_V, GO_IDLE]⟩
  · intro hs0
    obtain ⟨t, ht⟩ := disk_writep_open_sent dev s d (by rw [hs32]; exact hs0)
    obtain ⟨k, _, _, hk⟩ := sent_send_cmd_frame dev (WRITE_SINGLE_BLOCK % 256) (A % 2 ^ 32) d
    rw [hA, send_cmd_eq, hw] at ht
    simp only [Bool.false_eq_true, if_false] at ht
    rw [ht, hk, hA32]
    exact ⟨List.replicate k 0xFF ++ t, by simp [addrBytes, WRITE_SINGLE_BLOCK, CHECK_V, GO_IDLE]⟩
  · simp only [Nat.shiftRight_eq_div_pow]
    omega
  · intro h23
    exact Nat.mod_eq_of_lt (by omega)

/-- Witness of C19: sector 7 of a byte-addressed card, address `0x00000E00`. -/
theorem block_address_witness :
    ∃ t, sent (disk_readp scriptDev 16 true 7 12 500 (ready CT_SDC1 scriptRead)).2.2
      = [0xFF, 0xFF, 0x51, 0x00, 0x00, 0x0E, 0x00, 0xFF] ++ t :=
  (block_address scriptDev 16 7 12 500 true (ready CT_SDC1 scriptRead)
    (by decide) (by decide) (by decide)).1

end Address

section Align

set_option maxRecDepth 100000 in
/-- C14: the first read of `playback` does not leave the stream on a sector
boundary. Whatever the file position `p` at entry, `p` plus the byte count of
that read is 472 modulo 512; it is `p + 40` plus the count that is a multiple
of 512. The entry step of `playback` leaves the file where that read and two
reads of 128 bytes leave it. After `load_header` the position is 40, the count is 432, the read
ends at 472, and the first priming read fills `buffer0` with the 128 bytes of
the file from offset 472 on. -/
theorem playback_misaligned :
    (∀ p, (p + align_count p) % 512 = 472) ∧
    (∀ p, (p + DATA_START_OFFSET + align_count p) % 512 = 0) ∧
    (∀ p : Player, (fg (Run.start p)).p.fs =
      if (pf_read p.fs (align_count p.fs.fptr)).1 ≠ FR_OK then
        (pf_read p.fs (align_count p.fs.fptr)).2.2
      else (pf_read (pf_read (pf_read p.fs (align_count p.fs.fptr)).2.2 BUFFER_SIZE).2.2
        BUFFER_SIZE).2.2) ∧
    (loaded []).fs.fptr = 40 ∧ align_count 40 = 432 ∧
    (pf_read (loaded []).fs (align_count (loaded []).fs.fptr)).2.2.fptr = 472 ∧
    (fg (Run.start (loaded []))).p.buffer0 = (fileFrom 472).take 128 ∧
    (fg (Run.start (loaded []))).pc = .loopTop := by
  refine ⟨?_, ?_, ?_, by decide, by decide, by decide, by decide, by decide⟩
  · intro p
    simp only [align_count, DATA_START_OFFSET]
    omega
  · intro p
    simp only [align_count, DATA_START_OFFSET]
    omega
  · intro p
    simp only [fg, Run.start, align_count]
    split <;> simp [Player.setBuffer]

end Align

section Tag

theorem LD_WORD_congr (A B : List Nat) (off : Nat)
    (h : ∀ i, 4 ≤ i → byteAt A i = byteAt B i) (ho : 4 ≤ off) :
    LD_WORD A off = LD_WORD B off := by
  simp only [LD_WORD, h (off + 1) (by omega), h off ho]

theorem LD_DWORD_congr (A B : List Nat) (off : Nat)
    (h : ∀ i, 4 ≤ i → byteAt A i = byteAt B i) (ho : 4 ≤ off) :
    LD_DWORD A off = LD_DWORD B off := by
  simp only [LD_DWORD, h (off + 3) (by omega), h (off + 2) (by omega), h (off + 1) (by omega),
    h off ho]

/-- The value `load_header` returns is determined by the result of the header
read, the number of bytes read and the bytes of `buffer0` from offset 4 on. -/
theorem load_header_congr (F_CPU : Nat) (p q : Player)
    (h1 : (pf_read p.fs WAVEFILE_HEADER_SIZE).1 = (pf_read q.fs WAVEFILE_HEADER_SIZE).1)
    (h2 : (pf_read p.fs WAVEFILE_HEADER_SIZE).2.1.length
      = (pf_read q.fs WAVEFILE_HEADER_SIZE).2.1.length)
    (h3 : ∀ i, 4 ≤ i → byteAt (store p.buffer0 (pf_read p.fs WAVEFILE_HEADER_SIZE).2.1) i
      = byteAt (store q.buffer0 (pf_read q.fs WAVEFILE_HEADER_SIZE).2.1) i) :
    (load_header F_CPU p).1 = (load_header F_CPU q).1 := by
  unfold load_header
  generalize pf_read p.fs WAVEFILE_HEADER_SIZE = r at h1 h2 h3 ⊢
  generalize pf_read q.fs WAVEFILE_HEADER_SIZE = t at h1 h2 h3 ⊢
  obtain ⟨res, hd, fs2⟩ := r
  obtain ⟨res2, hd2, fs3⟩ := t
  simp only at h1 h2 h3 ⊢
  subst h1
  rw [LD_DWORD_congr _ _ FILE_FORMAT h3 (by decide),
    LD_DWORD_congr _ _ FORMAT_BLOCK_ID h3 (by decide),
    LD_DWORD_congr _ _ FORMAT_BLOCK_SIZE h3 (by decide),
    LD_WORD_congr _ _ SAMPLE_FORMAT h3 (by decide),
    LD_WORD_congr _ _ NUM_CHANNELS h3 (by decide),
    LD_WORD_congr _ _ BITS_PER_SAMPLE h3 (by decide),
    LD_DWORD_congr _ _ SAMPLE_FREQUENCY h3 (by decide),
    LD_DWORD_congr _ _ DATA_BLOCK_ID h3 (by decide),
    LD_DWORD_congr _ _ DATA_BLOCK_SIZE h3 (by decide), h2]
  simp only [apply_ite Prod.fst]

/-- C15 as amended: `load_header` does not look at the container tag. Two
files that differ only in their first four bytes, read from the start with
the same result codes into the same program state, give the same return
value. -/
theorem load_header_ignores_tag (F_CPU : Nat) (p : Player) (a b rest errs : List Nat)
    (ha : a.length = 4) (hb : b.length = 4) :
    (load_header F_CPU { p with fs := { data := a ++ rest, fptr := 0, errs := errs } }).1
      = (load_header F_CPU { p with fs := { data := b ++ rest, fptr := 0, errs := errs } }).1 := by
  have key : ∀ x : List Nat, x.length = 4 →
      store p.buffer0 (((x ++ rest).take WAVEFILE_HEADER_SIZE).map (fun b => b % 256))
        = x.map (fun b => b % 256) ++ ((rest.take 36).map (fun b => b % 256)
            ++ p.buffer0.drop (4 + min 36 rest.length)) := by
    intro x hx
    rw [show WAVEFILE_HEADER_SIZE = x.length + 36 by rw [hx]; rfl, List.take_append]
    simp only [store, List.map_append, List.length_append, List.length_map, List.length_take,
      hx, List.append_assoc]
  apply load_header_congr
  · simp only [pf_read]
    split <;> rfl
  · simp only [pf_read]
    split
    · simp [ha, hb]
    · rfl
  · intro i hi
    simp only [pf_read]
    split
    · simp only [List.drop_zero, key a ha, key b hb, byteAt, List.getD_eq_getElem?_getD]
      have g : ∀ x y T : List Nat, x.length = y.length → x.length ≤ i →
          (x ++ T)[i]?.getD 0 = (y ++ T)[i]?.getD 0 := by
        intro x y T hxy hx
        rw [List.getElem?_append_right hx, List.getElem?_append_right (hxy ▸ hx), hxy]
      rw [g (a.map (fun b => b % 256)) (b.map (fun b => b % 256)) _ (by simp [ha, hb])
        (by simpa [ha] using hi)]
    · rfl

set_option maxRecDepth 100000 in
/-- Witness of C15 as amended: the tags `RIFF` and `RIFX` before the same 40
bytes and the same samples. -/
theorem load_header_ignores_tag_witness :
    (load_header 16000000 (Player.reset (wavFile (wavHeader 9000 2000) tune))).1
      = (load_header 16000000 (Player.reset (wavFile rifxHeader tune))).1 :=
  load_header_ignores_tag 16000000 (Player.reset (wavFile [] [])) (tag "RIFF") (tag "RIFX")
    ((wavHeader 9000 2000).drop 4 ++ tune) [] (by decide) (by decide)

set_option maxRecDepth 100000 in
/-- C15 does not hold as stated: a header whose first four bytes are `RIFX`,
canonical otherwise, is accepted; `load_header` returns a non-zero value. -/
theorem rifx_accepted :
    rifxHeader.take 4 ≠ tag "RIFF" ∧
    (load_header 16000000 (Player.reset (wavFile rifxHeader tune))).1 ≠ 0 := by
  decide

end Tag

section Handler

theorem bit_flip (a : Nat) (h : a = 0 ∨ a = 1) : (a ^^^ 1) % 256 = 1 - a := by
  rcases h with h | h <;> subst h <;> decide

/-- An invocation of the handler with the cursor at the end of the buffer. -/
theorem isr_swap (q : Player) (h : q.buffer_index = BUFFER_SIZE) :
    (isr q).active_buffer = (q.active_buffer ^^^ 1) % 256 ∧
    (isr q).alt_buffer = (q.alt_buffer ^^^ 1) % 256 ∧
    (isr q).buffer_index = 1 ∧ (isr q).buffer_end = 1 ∧
    (isr q).buffer0 = q.buffer0 ∧ (isr q).buffer1 = q.buffer1 ∧
    (isr q).OCR2B = byteAt (q.buffers ((q.active_buffer ^^^ 1) % 256)) 0 ∧
    (isr q).emitted = q.emitted ++ [byteAt (q.buffers ((q.active_buffer ^^^ 1) % 256)) 0] := by
  simp [isr, h, Player.buffers]

/-- An invocation of the handler with the cursor inside the buffer. -/
theorem isr_keep (q : Player) (h : q.buffer_index ≠ BUFFER_SIZE) :
    (isr q).active_buffer = q.active_buffer ∧ (isr q).alt_buffer = q.alt_buffer ∧
    (isr q).buffer_index = (q.buffer_index + 1) % 2 ^ 16 ∧
    (isr q).buffer_end = q.buffer_end ∧
    (isr q).buffer0 = q.buffer0 ∧ (isr q).buffer1 = q.buffer1 ∧
    (isr q).OCR2B = byteAt (q.buffers q.active_buffer) q.buffer_index ∧
    (isr q).emitted = q.emitted ++ [byteAt (q.buffers q.active_buffer) q.buffer_index] := by
  simp [isr, h, Player.buffers]

/-- The state before and after invocation `k` of the handler, counted from 0. -/
theorem handler_runs_spec (p : Player) (k : Nat) (ha : p.active_buffer = 0)
    (hb : p.alt_buffer = 1) (hi : p.buffer_index = 0) :
    ((handler_runs k p).buffer_index = BUFFER_SIZE ↔ 0 < k ∧ k % 128 = 0) ∧
    (handler_runs k p).buffer0 = p.buffer0 ∧ (handler_runs k p).buffer1 = p.buffer1 ∧
    (isr (handler_runs k p)).active_buffer = k / 128 % 2 ∧
    (isr (handler_runs k p)).alt_buffer = 1 - k / 128 % 2 ∧
    (isr (handler_runs k p)).buffer_index = k % 128 + 1 ∧
    (isr (handler_runs k p)).buffer_end
      = (if 0 < k ∧ k % 128 = 0 then 1 else (handler_runs k p).buffer_end) ∧
    (isr (handler_runs k p)).OCR2B
      = byteAt ((handler_runs k p).buffers (k / 128 % 2)) (k % 128) ∧
    (isr (handler_runs k p)).emitted = (handler_runs k p).emitted ++
      [byteAt ((handler_runs k p).buffers (k / 128 % 2)) (k % 128)] := by
  induction k with
  | zero =>
    have h : (handler_runs 0 p).buffer_index ≠ BUFFER_SIZE := by
      simp [handler_runs, hi, BUFFER_SIZE]
    obtain ⟨k1, k2, k3, k4, k5, k6, k7, k8⟩ := isr_keep (handler_runs 0 p) h
    simp only [handler_runs] at *
    simp [k1, k2, k3, k4, k7, k8, ha, hb, hi, BUFFER_SIZE]
  | succ n ih =>
    obtain ⟨_, b0, b1, h1, h2, h3, _, _, _⟩ := ih
    have e : handler_runs (n + 1) p = isr (handler_runs n p) := rfl
    rw [← e] at h1 h2 h3
    have hb0 : (handler_runs (n + 1) p).buffer0 = p.buffer0 := by
      rw [e]; by_cases h : (handler_runs n p).buffer_index = BUFFER_SIZE
      · rw [(isr_swap _ h).2.2.2.2.1, b0]
      · rw [(isr_keep _ h).2.2.2.2.1, b0]
    have hb1 : (handler_runs (n + 1) p).buffer1 = p.buffer1 := by
      rw [e]; by_cases h : (handler_runs n p).buffer_index = BUFFER_SIZE
      · rw [(isr_swap _ h).2.2.2.2.2.1, b1]
      · rw [(isr_keep _ h).2.2.2.2.2.1, b1]
    have hiff : (handler_runs (n + 1) p).buffer_index = BUFFER_SIZE ↔
        0 < n + 1 ∧ (n + 1) % 128 = 0 := by
      rw [h3]; simp only [BUFFER_SIZE]; omega
    refine ⟨hiff, hb0, hb1, ?_⟩
    by_cases hs : (handler_runs (n + 1) p).buffer_index = BUFFER_SIZE
    · obtain ⟨k1, k2, k3, k4, k5, k6, k7, k8⟩ := isr_swap _ hs
      have hm := hiff.mp hs
      have f1 : ((handler_runs (n + 1) p).active_buffer ^^^ 1) % 256 = (n + 1) / 128 % 2 := by
        rw [bit_flip _ (by omega)]; omega
      have f2 : ((handler_runs (n + 1) p).alt_buffer ^^^ 1) % 256 = 1 - (n + 1) / 128 % 2 := by
        rw [bit_flip _ (by omega)]; omega
      rw [f1] at k1 k7 k8
      rw [f2] at k2
      rw [k1, k2, k3, k4, k7, k8, if_pos hm, hm.2]
      exact ⟨rfl, rfl, rfl, rfl, rfl, rfl⟩
    · obtain ⟨k1, k2, k3, k4, k5, k6, k7, k8⟩ := isr_keep _ hs
      have hm : ¬ (0 < n + 1 ∧ (n + 1) % 128 = 0) := fun h => hs (hiff.mpr h)
      have f1 : (handler_runs (n + 1) p).active_buffer = (n + 1) / 128 % 2 := by
        rw [h1]; omega
      have f2 : (handler_runs (n + 1) p).alt_buffer = 1 - (n + 1) / 128 % 2 := by
        rw [h2]; omega
      have f3 : (handler_runs (n + 1) p).buffer_index = (n + 1) % 128 := by
        rw [h3]; omega
      rw [f1, f3] at k7 k8
      rw [f3] at k3
      rw [k1, k2, k3, k4, k7, k8, if_neg hm, f1, f2]
      refine ⟨rfl, rfl, ?_, rfl, rfl, rfl⟩
      omega

/-- C20: handler state invariant. From `active_buffer = 0`, `alt_buffer = 1`,
`buffer_index = 0`, let `q` be the state after `k` invocations of the handler
and `r` the state after one more, invocation `k` counted from 0. Then in `r`
the two buffer indices are `(k / 128) mod 2` and its complement, hence in
`{0, 1}` and different; the cursor is `k mod 128 + 1`, between 1 and 128; the
byte emitted by invocation `k` is byte `k mod 128 < 128` of
`buffers[(k / 128) mod 2]`; the invocation swaps the buffers, and sets
`buffer_end`, exactly when `k > 0` and `k mod 128 = 0`, and leaves
`buffer_end` as it was otherwise; the handler never writes to the buffers. -/
theorem handler_invariant (p : Player) (k : Nat) (ha : p.active_buffer = 0)
    (hb : p.alt_buffer = 1) (hi : p.buffer_index = 0) :
    let q := handler_runs k p
    let r := isr q
    r.active_buffer = k / 128 % 2 ∧ r.alt_buffer = 1 - k / 128 % 2 ∧
    r.active_buffer < 2 ∧ r.alt_buffer < 2 ∧ r.active_buffer ≠ r.alt_buffer ∧
    r.buffer_index = k % 128 + 1 ∧ 1 ≤ r.buffer_index ∧ r.buffer_index ≤ BUFFER_SIZE ∧
    k % 128 < BUFFER_SIZE ∧
    r.OCR2B = byteAt (q.buffers (k / 128 % 2)) (k % 128) ∧
    r.emitted = q.emitted ++ [byteAt (q.buffers (k / 128 % 2)) (k % 128)] ∧
    (q.buffer_index = BUFFER_SIZE ↔ 0 < k ∧ k % 128 = 0) ∧
    r.buffer_end = (if 0 < k ∧ k % 128 = 0 then 1 else q.buffer_end) ∧
    r.buffer0 = p.buffer0 ∧ r.buffer1 = p.buffer1 := by
  intro q r
  obtain ⟨g1, g2, g3, h1, h2, h3, h4, h5, h6⟩ := handler_runs_spec p k ha hb hi
  have hq0 : r.buffer0 = p.buffer0 := by
    by_cases h : q.buffer_index = BUFFER_SIZE
    · exact (isr_swap q h).2.2.2.2.1.trans g2
    · exact (isr_keep q h).2.2.2.2.1.trans g2
  have hq1 : r.buffer1 = p.buffer1 := by
    by_cases h : q.buffer_index = BUFFER_SIZE
    · exact (isr_swap q h).2.2.2.2.2.1.trans g3
    · exact (isr_keep q h).2.2.2.2.2.1.trans g3
  have e1 : r.active_buffer = k / 128 % 2 := h1
  have e2 : r.alt_buffer = 1 - k / 128 % 2 := h2
  have e3 : r.buffer_index = k % 128 + 1 := h3
  refine ⟨h1, h2, by omega, by omega, by omega, h3, by omega, ?_, ?_, h5, h6, g1, h4, hq0, hq1⟩
  · rw [e3]; simp only [BUFFER_SIZE]; omega
  · simp only [BUFFER_SIZE]; omega

set_option maxRecDepth 100000 in
/-- Witness of C20: the state in which `playback` starts the timer, and
invocation 128, the first one that swaps the buffers. -/
theorem handler_invariant_witness :
    (isr (handler_runs 128 (fg (Run.start (loaded []))).p)).active_buffer = 1 ∧
    (isr (handler_runs 128 (fg (Run.start (loaded []))).p)).buffer_index = 1 ∧
    (isr (handler_runs 128 (fg (Run.start (loaded []))).p)).buffer_end = 1 :=
  have h := handler_invariant (fg (Run.start (loaded []))).p 128 (by decide) (by decide)
    (by decide)
  ⟨h.1, h.2.2.2.2.2.1, h.2.2.2.2.2.2.2.2.2.2.2.2.1⟩

end Handler

section Replay

variable {σ : Type} (dev : Dev σ)

theorem bus_eq {d e : Drive σ} :
    bus d = bus e ↔ d.card = e.card ∧ d.cs = e.cs ∧ d.cardType = e.cardType ∧ d.fast = e.fast := by
  simp [bus]

theorem spi_bus (x : Nat) (d e : Drive σ) (h : bus d = bus e) :
    (spi dev x d).1 = (spi dev x e).1 ∧ bus (spi dev x d).2 = bus (spi dev x e).2 := by
  rw [bus_eq] at h ⊢
  obtain ⟨h1, h2, h3, h4⟩ := h
  simp [spi, h1, h2, h3, h4]

theorem rx_spi_bus (d e : Drive σ) (h : bus d = bus e) :
    (rx_spi dev d).1 = (rx_spi dev e).1 ∧ bus (rx_spi dev d).2 = bus (rx_spi dev e).2 :=
  spi_bus dev 0xFF d e h

theorem tx_spi_bus (x : Nat) (d e : Drive σ) (h : bus d = bus e) :
    bus (tx_spi dev x d) = bus (tx_spi dev x e) := (spi_bus dev x d e h).2

theorem DESELECT_bus (d e : Drive σ) (h : bus d = bus e) : bus (DESELECT d) = bus (DESELECT e) := by
  rw [bus_eq] at h ⊢
  obtain ⟨h1, h2, h3, h4⟩ := h
  simp [DESELECT, h1, h3, h4]

theorem SELECT_bus (d e : Drive σ) (h : bus d = bus e) : bus (SELECT d) = bus (SELECT e) := by
  rw [bus_eq] at h ⊢
  obtain ⟨h1, h2, h3, h4⟩ := h
  simp [SELECT, h1, h3, h4]

theorem send_cmd_poll_bus (i : Nat) (d e : Drive σ) (h : bus d = bus e) :
    (send_cmd_poll dev i d).1 = (send_cmd_poll dev i e).1 ∧
      bus (send_cmd_poll dev i d).2 = bus (send_cmd_poll dev i e).2 := by
  induction i generalizing d e with
  | zero => exact rx_spi_bus dev d e h
  | succ i ih =>
    obtain ⟨h1, h2⟩ := rx_spi_bus dev d e h
    simp only [send_cmd_poll, h1]
    split
    · exact ⟨h1, h2⟩
    · exact ih _ _ h2

theorem send_cmd_frame_bus (cmd arg : Nat) (d e : Drive σ) (h : bus d = bus e) :
    (send_cmd_frame dev cmd arg d).1 = (send_cmd_frame dev cmd arg e).1 ∧
      bus (send_cmd_frame dev cmd arg d).2 = bus (send_cmd_frame dev cmd arg e).2 := by
  have h1 := (rx_spi_bus dev _ _ (DESELECT_bus d e h)).2
  have h2 := (rx_spi_bus dev _ _ (SELECT_bus _ _ h1)).2
  have h3 := tx_spi_bus dev cmd _ _ h2
  have h4 := tx_spi_bus dev (arg >>> 24) _ _ h3
  have h5 := tx_spi_bus dev (arg >>> 16) _ _ h4
  have h6 := tx_spi_bus dev (arg >>> 8) _ _ h5
  have h7 := tx_spi_bus dev arg _ _ h6
  have h8 := tx_spi_bus dev (if cmd = CHECK_V then CHECK_V_CRC else
    if cmd = GO_IDLE then GO_IDLE_CRC else 255) _ _ h7
  simp only [send_cmd_frame]
  split
  · exact send_cmd_poll_bus dev 10 _ _ (rx_spi_bus dev _ _ h8).2
  · exact send_cmd_poll_bus dev 10 _ _ h8

theorem send_cmd_bus (cmd arg : Nat) (d e : Drive σ) (h : bus d = bus e) :
    (send_cmd dev cmd arg d).1 = (send_cmd dev cmd arg e).1 ∧
      bus (send_cmd dev cmd arg d).2 = bus (send_cmd dev cmd arg e).2 := by
  obtain ⟨a1, a2⟩ := send_cmd_frame_bus dev ACMD_LEADING 0 d e h
  rw [send_cmd_eq, send_cmd_eq]
  split
  · rw [a1]
    split
    · exact ⟨a1, a2⟩
    · exact send_cmd_frame_bus dev _ _ _ _ a2
  · exact send_cmd_frame_bus dev _ _ d e h

theorem retry_bus (attempt : Drive σ → Nat × Drive σ) (again : Nat → Bool)
    (hatt : ∀ d e, bus d = bus e →
      (attempt d).1 = (attempt e).1 ∧ bus (attempt d).2 = bus (attempt e).2)
    (n : Nat) (d e : Drive σ) (h : bus d = bus e) :
    (retry attempt again n d).1 = (retry attempt again n e).1 ∧
      bus (retry attempt again n d).2 = bus (retry attempt again n e).2 := by
  induction n generalizing d e with
  | zero => exact ⟨rfl, h⟩
  | succ n ih =>
    obtain ⟨h1, h2⟩ := hatt d e h
    simp only [retry, h1]
    split
    · exact ih _ _ h2
    · exact ⟨rfl, h2⟩

theorem after_attempts_bus (attempt : Drive σ → Nat × Drive σ)
    (hatt : ∀ d e, bus d = bus e →
      (attempt d).1 = (attempt e).1 ∧ bus (attempt d).2 = bus (attempt e).2)
    (n : Nat) (d e : Drive σ) (h : bus d = bus e) :
    bus (after_attempts attempt n d) = bus (after_attempts attempt n e) := by
  induction n generalizing d e with
  | zero => exact h
  | succ n ih => exact ih _ _ (hatt d e h).2

theorem rx_n_bus (n : Nat) (d e : Drive σ) (h : bus d = bus e) :
    (rx_n dev n d).1 = (rx_n dev n e).1 ∧ bus (rx_n dev n d).2 = bus (rx_n dev n e).2 := by
  induction n generalizing d e with
  | zero => exact ⟨rfl, h⟩
  | succ n ih =>
    obtain ⟨h1, h2⟩ := rx_spi_bus dev d e h
    obtain ⟨h3, h4⟩ := ih _ _ h2
    simp only [rx_n, h1, h3]
    exact ⟨trivial, h4⟩

end Replay

section Timeout

variable {σ : Type} (dev : Dev σ)

/-- A waiting loop none of whose attempts succeeds runs to its ceiling and
leaves the counter at zero. -/
theorem retry_exhausted (attempt : Drive σ → Nat × Drive σ) (again : Nat → Bool) (n : Nat)
    (d : Drive σ) (hfail : ∀ j < n, again (attempt (after_attempts attempt j d)).1 = true) :
    retry attempt again n d = (0, after_attempts attempt n d) := by
  induction n generalizing d with
  | zero => rfl
  | succ n ih =>
    have h0 := hfail 0 (by omega)
    simp only [after_attempts] at h0
    simp only [retry, h0, if_true, after_attempts]
    exact ih (attempt d).2 (fun j hj => hfail (j + 1) (by omega))

@[simp] theorem rx_n_fast (n : Nat) (d : Drive σ) : (rx_n dev n d).2.fast = d.fast := by
  induction n generalizing d with
  | zero => rfl
  | succ n ih => simp [rx_n, ih]

theorem after_attempts_static (cmd arg n : Nat) (d : Drive σ) :
    (after_attempts (send_cmd dev cmd arg) n d).cardType = d.cardType ∧
    (after_attempts (send_cmd dev cmd arg) n d).fast = d.fast := by
  induction n generalizing d with
  | zero => exact ⟨rfl, rfl⟩
  | succ n ih =>
    obtain ⟨h1, h2⟩ := ih (send_cmd dev cmd arg d).2
    simp only [after_attempts]
    exact ⟨by rw [h1, send_cmd_cardType], by rw [h2, send_cmd_fast]⟩

/-- The state in which the handshake starts: family unknown, slow clock, card
deselected. -/
theorem init_prelude_static (useWrite : Bool) (d : Drive σ) :
    (init_prelude dev useWrite d).cardType = CT_UNKNOWN ∧
    (init_prelude dev useWrite d).fast = false ∧ (init_prelude dev useWrite d).cs = true := by
  simp [init_prelude, DESELECT, init_spi]

/-- C12: handshake timeouts collapse to not-ready. (i) If none of the 1000
idle-resets is answered `0x01`; (ii) or idle-reset is answered at attempt
`k0`, the version check is answered `0x01` with the echo `01 AA`, and none of
the 10000 application inits (HCS set) is answered `0x00`; (iii) or the version
check is answered otherwise and none of the 10000 application inits and none
of the 10000 legacy inits is answered `0x00`: then `disk_initialize` makes no
exchange after the last attempt of the exhausted loop (no `SET_BLOCKLEN`),
ends with `cardType = CT_UNKNOWN` and the slow clock, and returns
`STA_NOINIT`. (iv) In every run the value returned is `STA_NOINIT` when
`cardType` is `CT_UNKNOWN` on exit and 0 otherwise. -/
theorem disk_initialize_timeout (useWrite : Bool) (sta : Nat) (d : Drive σ) (k0 : Nat) :
    let g := send_cmd dev GO_IDLE 0x00
    let d0 := init_prelude dev useWrite d
    let r := disk_initialize dev useWrite sta d
    ((∀ j < 1000, (g (after_attempts g j d0)).1 ≠ 0x01) →
      r.2.log = (after_attempts g 1000 d0).log ∧
      r.2.cardType = CT_UNKNOWN ∧ r.2.fast = false ∧ r.1 = sta) ∧
    (k0 < 1000 → (∀ j < k0, (g (after_attempts g j d0)).1 ≠ 0x01) →
      (g (after_attempts g k0 d0)).1 = 0x01 →
      let v := send_cmd dev CHECK_V 0x01AA (g (after_attempts g k0 d0)).2
      let e := rx_n dev 4 v.2
      let a := send_cmd dev APP_INIT HCS_SET
      v.1 = 0x01 → e.1.getD 2 0 = 0x01 → e.1.getD 3 0 = 0xAA →
      (∀ j < 10000, (a (after_attempts a j e.2)).1 ≠ 0x00) →
      r.2.log = (after_attempts a 10000 e.2).log ∧
      r.2.cardType = CT_UNKNOWN ∧ r.2.fast = false ∧ r.1 = sta) ∧
    (k0 < 1000 → (∀ j < k0, (g (after_attempts g j d0)).1 ≠ 0x01) →
      (g (after_attempts g k0 d0)).1 = 0x01 →
      let v := send_cmd dev CHECK_V 0x01AA (g (after_attempts g k0 d0)).2
      let a := send_cmd dev APP_INIT 0x00
      let m := send_cmd dev INIT 0x00
      v.1 ≠ 0x01 → (∀ j < 10000, (a (after_attempts a j v.2)).1 ≠ 0x00) →
      (∀ j < 10000, (m (after_attempts m j (after_attempts a 10000 v.2))).1 ≠ 0x00) →
      r.2.log = (after_attempts m 10000 (after_attempts a 10000 v.2)).log ∧
      r.2.cardType = CT_UNKNOWN ∧ r.2.fast = false ∧ r.1 = sta) ∧
    r.1 = (if r.2.cardType = CT_UNKNOWN then sta else 0) ∧
    (sta ≠ 0 → (r.1 = sta ↔ r.2.cardType = CT_UNKNOWN)) := by
  intro g d0 r
  obtain ⟨p1, p2, p3⟩ := init_prelude_static dev useWrite d
  have hret : r.1 = (if r.2.cardType = CT_UNKNOWN then sta else 0) := rfl
  have hu : (0 : Nat) &&& CT_BLOCK = 0 := by decide
  refine ⟨?_, ?_, ?_, hret, ?_⟩
  · intro hf
    have hg : retry g (fun r => r != IN_IDLE_STATE) 1000 d0 = (0, after_attempts g 1000 d0) :=
      retry_exhausted g _ 1000 d0 (by simpa [IN_IDLE_STATE] using hf)
    obtain ⟨s1, s2⟩ := after_attempts_static dev GO_IDLE 0x00 1000 d0
    rw [p1] at s1
    rw [p2] at s2
    simp only [g, d0] at hg s1 s2
    simp only [r, disk_initialize]
    simp only [CT_UNKNOWN] at s1 ⊢
    simp [hg, s1, s2, DESELECT, hu]
  · intro hk0 hf0 hs0 v e a hv he2 he3 hfa
    have hg : retry g (fun r => r != IN_IDLE_STATE) 1000 d0
        = (1000 - k0, (g (after_attempts g k0 d0)).2) :=
      retry_eq g _ 1000 k0 d0 hk0 (by simpa [IN_IDLE_STATE] using hf0)
        (by simpa [IN_IDLE_STATE] using hs0)
    have ha : retry a (fun r => r != 0) 10000 e.2 = (0, after_attempts a 10000 e.2) :=
      retry_exhausted a _ 10000 e.2 (by simpa using hfa)
    obtain ⟨s1, s2⟩ := after_attempts_static dev APP_INIT HCS_SET 10000 e.2
    obtain ⟨t1, t2⟩ := after_attempts_static dev GO_IDLE 0x00 k0 d0
    have e1 : 1000 - k0 ≠ 0 := by omega
    have c1 : (after_attempts a 10000 e.2).cardType = 0 := by
      rw [s1]; simp only [e, v, g, rx_n_cardType, send_cmd_cardType, t1]; exact p1
    have c2 : (after_attempts a 10000 e.2).fast = false := by
      rw [s2]; simp only [e, v, g, rx_n_fast, send_cmd_fast, t2]; exact p2
    simp only [g, d0, v, e, a] at hg ha c1 c2 hv he2 he3
    simp only [List.getD_eq_getElem?_getD] at he2 he3
    simp only [r, disk_initialize]
    simp only [CT_UNKNOWN]
    simp [hg, ha, e1, hv, he2, he3, c1, c2, DESELECT, hu]
  · intro hk0 hf0 hs0 v a m hv hfa hfm
    have hg : retry g (fun r => r != IN_IDLE_STATE) 1000 d0
        = (1000 - k0, (g (after_attempts g k0 d0)).2) :=
      retry_eq g _ 1000 k0 d0 hk0 (by simpa [IN_IDLE_STATE] using hf0)
        (by simpa [IN_IDLE_STATE] using hs0)
    have ha : retry a (fun r => r != 0) 10000 v.2 = (0, after_attempts a 10000 v.2) :=
      retry_exhausted a _ 10000 v.2 (by simpa using hfa)
    have hm : retry m (fun r => r != 0) 10000 (after_attempts a 10000 v.2)
        = (0, after_attempts m 10000 (after_attempts a 10000 v.2)) :=
      retry_exhausted m _ 10000 _ (by simpa using hfm)
    obtain ⟨s1, s2⟩ := after_attempts_static dev INIT 0x00 10000 (after_attempts a 10000 v.2)
    obtain ⟨u1, u2⟩ := after_attempts_static dev APP_INIT 0x00 10000 v.2
    obtain ⟨t1, t2⟩ := after_attempts_static dev GO_IDLE 0x00 k0 d0
    have e1 : 1000 - k0 ≠ 0 := by omega
    have c2 : (after_attempts m 10000 (after_attempts a 10000 v.2)).fast = false := by
      rw [s2, u2]; simp only [v, g, send_cmd_fast, t2]; exact p2
    simp only [g, d0, v, a, m] at hg ha hm c2 hv
    simp only [r, disk_initialize]
    simp only [CT_UNKNOWN]
    simp [hg, ha, hm, e1, hv, c2, DESELECT, hu]
  · intro hsta
    rw [hret]
    split
    · simp [*]
    · simp [*]
      exact fun h => hsta h.symm

theorem after_attempts_succ (attempt : Drive σ → Nat × Drive σ) (n : Nat) (d : Drive σ) :
    after_attempts attempt (n + 1) d = (attempt (after_attempts attempt n d)).2 := by
  induction n generalizing d with
  | zero => rfl
  | succ n ih => exact ih (attempt d).2

/-- A card that answers an attempt `x` from the state `h0` and from the state
`h` it is left in, and is left in `h` again, answers `x` at every attempt. -/
theorem attempts_fixed (attempt : Drive σ → Nat × Drive σ)
    (hatt : ∀ d e, bus d = bus e →
      (attempt d).1 = (attempt e).1 ∧ bus (attempt d).2 = bus (attempt e).2)
    (x : Nat) (h0 h d : Drive σ) (r0 : (attempt h0).1 = x) (e1 : bus (attempt h0).2 = bus h)
    (r1 : (attempt h).1 = x) (e2 : bus (attempt h).2 = bus h) (hd : bus d = bus h0) (n : Nat) :
    (attempt (after_attempts attempt n d)).1 = x ∧
      bus (after_attempts attempt (n + 1) d) = bus h := by
  induction n with
  | zero =>
    obtain ⟨a1, a2⟩ := hatt d h0 hd
    exact ⟨a1.trans r0, a2.trans e1⟩
  | succ n ih =>
    obtain ⟨a1, a2⟩ := hatt _ h ih.2
    rw [after_attempts_succ attempt (n + 1)]
    exact ⟨a1.trans r1, a2.trans e2⟩

/-- Witness of C12: a bus on which no card answers, and cards that answer the
idle-reset and then never leave the idle state, one echoing the version check
and one rejecting it. -/
theorem disk_initialize_timeout_witness :
    (( disk_initialize scriptDev true 1 (powerUp silent)).2.cardType = CT_UNKNOWN ∧
      ( disk_initialize scriptDev true 1 (powerUp silent)).1 = 1) ∧
    (( disk_initialize (stuckDev [0x01, 0x00, 0x00, 0x01, 0xAA]) true 1 (powerUp [])).2.fast
        = false ∧
      ( disk_initialize (stuckDev [0x01, 0x00, 0x00, 0x01, 0xAA]) true 1 (powerUp [])).1 = 1) ∧
    (( disk_initialize (stuckDev [0x05]) true 1 (powerUp [])).2.cardType = CT_UNKNOWN ∧
      ( disk_initialize (stuckDev [0x05]) true 1 (powerUp [])).1 = 1) ∧
    (( disk_initialize scriptDev true 1 (powerUp scriptSD1)).1 = 1 ↔
      ( disk_initialize scriptDev true 1 (powerUp scriptSD1)).2.cardType = CT_UNKNOWN) :=
  have w1 := (disk_initialize_timeout scriptDev true 1 (powerUp silent) 0).1
    (fun j _ => ne_of_eq_of_ne
      ((attempts_fixed (send_cmd scriptDev GO_IDLE 0x00) (send_cmd_bus scriptDev GO_IDLE 0x00)
        0xFF (init_prelude scriptDev true (powerUp silent))
        (send_cmd scriptDev GO_IDLE 0x00 (init_prelude scriptDev true (powerUp silent))).2
        (init_prelude scriptDev true (powerUp silent))
        (by decide) rfl (by decide) (by decide) rfl j).1) (by decide))
  have w2 := (disk_initialize_timeout (stuckDev [0x01, 0x00, 0x00, 0x01, 0xAA]) true 1
    (powerUp []) 0).2.1 (by decide) (by decide) (by decide) (by decide) (by decide) (by decide)
    (fun j _ => ne_of_eq_of_ne
      ((attempts_fixed (send_cmd (stuckDev [0x01, 0x00, 0x00, 0x01, 0xAA]) APP_INIT HCS_SET)
        (send_cmd_bus _ APP_INIT HCS_SET) 0x01
        (rx_n (stuckDev [0x01, 0x00, 0x00, 0x01, 0xAA]) 4
          (send_cmd (stuckDev [0x01, 0x00, 0x00, 0x01, 0xAA]) CHECK_V 0x01AA
            (send_cmd (stuckDev [0x01, 0x00, 0x00, 0x01, 0xAA]) GO_IDLE 0x00
              (init_prelude (stuckDev [0x01, 0x00, 0x00, 0x01, 0xAA]) true (powerUp []))).2).2).2
        (send_cmd (stuckDev [0x01, 0x00, 0x00, 0x01, 0xAA]) APP_INIT HCS_SET (powerUp [])).2
        _ (by decide) (by decide) (by decide) (by decide) rfl j).1) (by decide))
  have w3 := (disk_initialize_timeout (stuckDev [0x05]) true 1 (powerUp []) 0).2.2.1
    (by decide) (by decide) (by decide) (by decide)
    (fun j _ => ne_of_eq_of_ne
      ((attempts_fixed (send_cmd (stuckDev [0x05]) APP_INIT 0x00)
        (send_cmd_bus _ APP_INIT 0x00) 0x01
        (send_cmd (stuckDev [0x05]) CHECK_V 0x01AA
          (send_cmd (stuckDev [0x05]) GO_IDLE 0x00
            (init_prelude (stuckDev [0x05]) true (powerUp []))).2).2
        (powerUp []) _ (by decide) (by decide) (by decide) (by decide) rfl j).1) (by decide))
    (fun j _ => ne_of_eq_of_ne
      ((attempts_fixed (send_cmd (stuckDev [0x05]) INIT 0x00)
        (send_cmd_bus _ INIT 0x00) 0x01 (powerUp []) (powerUp []) _
        (by decide) (by decide) (by decide) (by decide)
        ((attempts_fixed (send_cmd (stuckDev [0x05]) APP_INIT 0x00)
          (send_cmd_bus _ APP_INIT 0x00) 0x01
          (send_cmd (stuckDev [0x05]) CHECK_V 0x01AA
            (send_cmd (stuckDev [0x05]) GO_IDLE 0x00
              (init_prelude (stuckDev [0x05]) true (powerUp []))).2).2
          (powerUp []) _ (by decide) (by decide) (by decide) (by decide) rfl 9999).2) j).1) (by decide))
  ⟨⟨w1.2.1, w1.2.2.2⟩, ⟨w2.2.2.1, w2.2.2.2⟩, ⟨w3.2.1, w3.2.2.2⟩,
    (disk_initialize_timeout scriptDev true 1 (powerUp scriptSD1) 0).2.2.2.2 (by decide)⟩

end Timeout

section Idempotence

variable {σ : Type} (dev : Dev σ)

theorem bus_cardType (c : Nat) (M N : Drive σ) (h : bus M = bus N) :
    bus { M with cardType := c } = bus { N with cardType := c } := by
  rw [bus_eq] at h ⊢
  exact ⟨h.1, h.2.1, rfl, h.2.2.2⟩

/-- Past its opening, `disk_initialize` is the handshake `H` followed by the
closing steps `F`, and both give the same results on two states that agree up
to the record of exchanges. -/
theorem disk_initialize_factors (useWrite : Bool) (sta : Nat) :
    ∃ (H : Drive σ → Drive σ) (F : Drive σ → Nat × Drive σ),
      (∀ d, disk_initialize dev useWrite sta d = F (H (init_prelude dev useWrite d))) ∧
      (∀ M N, bus M = bus N → bus (H M) = bus (H N)) ∧
      (∀ M N, bus M = bus N → (F M).1 = (F N).1 ∧ bus (F M).2 = bus (F N).2) ∧
      (∀ M, (F M).2.cs = true) := by
  refine ⟨fun d =>
      let g := retry (send_cmd dev GO_IDLE 0x00) (fun r => r != IN_IDLE_STATE) 1000 d
      if g.1 ≠ 0 then
        let v := send_cmd dev CHECK_V 0x01AA g.2
        if v.1 = 0x01 then
          let ocr := rx_n dev 4 v.2
          if ocr.1.getD 2 0 = 0x01 ∧ ocr.1.getD 3 0 = 0xAA then
            let a := retry (send_cmd dev APP_INIT HCS_SET) (fun r => r != 0) 10000 ocr.2
            if a.1 ≠ 0 then
              let o := send_cmd dev READ_OCR 0x00 a.2
              if o.1 = 0x00 then
                let ocr := rx_n dev 4 o.2
                { ocr.2 with
                  cardType := if ocr.1.getD 0 0 &&& 0x40 ≠ 0 then CT_SDC2 ||| CT_BLOCK else CT_SDC2 }
              else o.2
            else a.2
          else ocr.2
        else
          let a := retry (send_cmd dev APP_INIT 0x00) (fun r => r != 0) 10000 v.2
          if a.1 ≠ 0 then { a.2 with cardType := CT_SDC1 }
          else
            let m := retry (send_cmd dev INIT 0x00) (fun r => r != 0) 10000 a.2
            { m.2 with cardType := if m.1 ≠ 0 then CT_MMC3 else CT_UNKNOWN }
      else g.2,
    fun d =>
      let d :=
        if d.cardType &&& CT_BLOCK = 0 ∧ d.cardType ≠ CT_UNKNOWN then
          (send_cmd dev SET_BLOCKLEN 0x0200 d).2
        else d
      let d := DESELECT d
      let d := if d.cardType ≠ CT_UNKNOWN then spi_set_rw_speed d else d
      (if d.cardType = CT_UNKNOWN then sta else 0, d),
    fun d => rfl, ?_, ?_, ?_⟩
  · intro M N h
    obtain ⟨g1, g2⟩ := retry_bus (send_cmd dev GO_IDLE 0x00) (fun r => r != IN_IDLE_STATE)
      (send_cmd_bus dev GO_IDLE 0x00) 1000 M N h
    simp only []
    generalize retry (send_cmd dev GO_IDLE 0x00) (fun r => r != IN_IDLE_STATE) 1000 M = G
      at g1 g2 ⊢
    generalize retry (send_cmd dev GO_IDLE 0x00) (fun r => r != IN_IDLE_STATE) 1000 N = G2
      at g1 g2 ⊢
    rw [g1]
    by_cases c1 : G2.1 ≠ 0
    · rw [if_pos c1, if_pos c1]
      obtain ⟨v1, v2⟩ := send_cmd_bus dev CHECK_V 0x01AA G.2 G2.2 g2
      generalize send_cmd dev CHECK_V 0x01AA G.2 = V at v1 v2 ⊢
      generalize send_cmd dev CHECK_V 0x01AA G2.2 = V2 at v1 v2 ⊢
      rw [v1]
      by_cases c2 : V2.1 = 1
      · rw [if_pos c2, if_pos c2]
        obtain ⟨o1, o2⟩ := rx_n_bus dev 4 V.2 V2.2 v2
        generalize rx_n dev 4 V.2 = O at o1 o2 ⊢
        generalize rx_n dev 4 V2.2 = O2 at o1 o2 ⊢
        rw [o1]
        by_cases c3 : O2.1.getD 2 0 = 1 ∧ O2.1.getD 3 0 = 170
        · rw [if_pos c3, if_pos c3]
          obtain ⟨a1, a2⟩ := retry_bus (send_cmd dev APP_INIT HCS_SET) (fun r => r != 0)
            (send_cmd_bus dev APP_INIT HCS_SET) 10000 O.2 O2.2 o2
          generalize retry (send_cmd dev APP_INIT HCS_SET) (fun r => r != 0) 10000 O.2 = A
            at a1 a2 ⊢
          generalize retry (send_cmd dev APP_INIT HCS_SET) (fun r => r != 0) 10000 O2.2 = A2
            at a1 a2 ⊢
          rw [a1]
          by_cases c4 : A2.1 ≠ 0
          · rw [if_pos c4, if_pos c4]
            obtain ⟨q1, q2⟩ := send_cmd_bus dev READ_OCR 0x00 A.2 A2.2 a2
            generalize send_cmd dev READ_OCR 0x00 A.2 = Q at q1 q2 ⊢
            generalize send_cmd dev READ_OCR 0x00 A2.2 = Q2 at q1 q2 ⊢
            rw [q1]
            by_cases c5 : Q2.1 = 0
            · rw [if_pos c5, if_pos c5]
              obtain ⟨r1, r2⟩ := rx_n_bus dev 4 Q.2 Q2.2 q2
              rw [r1]
              exact bus_cardType _ _ _ r2
            · rw [if_neg c5, if_neg c5]
              exact q2
          · rw [if_neg c4, if_neg c4]
            exact a2
        · rw [if_neg c3, if_neg c3]
          exact o2
      · rw [if_neg c2, if_neg c2]
        obtain ⟨a1, a2⟩ := retry_bus (send_cmd dev APP_INIT 0x00) (fun r => r != 0)
          (send_cmd_bus dev APP_INIT 0x00) 10000 V.2 V2.2 v2
        generalize retry (send_cmd dev APP_INIT 0x00) (fun r => r != 0) 10000 V.2 = A
          at a1 a2 ⊢
        generalize retry (send_cmd dev APP_INIT 0x00) (fun r => r != 0) 10000 V2.2 = A2
          at a1 a2 ⊢
        rw [a1]
        by_cases c4 : A2.1 ≠ 0
        · rw [if_pos c4, if_pos c4]
          exact bus_cardType _ _ _ a2
        · rw [if_neg c4, if_neg c4]
          obtain ⟨m1, m2⟩ := retry_bus (send_cmd dev INIT 0x00) (fun r => r != 0)
            (send_cmd_bus dev INIT 0x00) 10000 A.2 A2.2 a2
          rw [m1]
          exact bus_cardType _ _ _ m2
    · rw [if_neg c1, if_neg c1]
      exact g2
  · intro M N h
    have hct : M.cardType = N.cardType := (bus_eq.mp h).2.2.1
    obtain ⟨s1, s2⟩ := send_cmd_bus dev SET_BLOCKLEN 0x0200 M N h
    have hs : (send_cmd dev SET_BLOCKLEN 0x0200 M).2.cardType = N.cardType := by
      rw [send_cmd_cardType, hct]
    have hs2 : (send_cmd dev SET_BLOCKLEN 0x0200 N).2.cardType = N.cardType :=
      send_cmd_cardType dev _ _ _
    simp only [hct]
    have s3 := bus_eq.mp s2
    have s4 := bus_eq.mp h
    by_cases c1 : N.cardType &&& CT_BLOCK = 0 ∧ N.cardType ≠ CT_UNKNOWN
    · rw [if_pos c1, if_pos c1]
      simp only [DESELECT, hs, hs2, if_pos c1.2, if_neg c1.2, bus_eq, spi_set_rw_speed,
        s3.1, and_self]
    · rw [if_neg c1, if_neg c1]
      by_cases c2 : N.cardType = CT_UNKNOWN
      · simp only [DESELECT, hct, c2, ne_eq, not_true_eq_false, if_false, if_true, bus_eq,
          s4.1, s4.2.2.2, and_self]
      · simp only [DESELECT, hct, c2, ne_eq, not_false_eq_true, if_false, if_true, bus_eq,
          spi_set_rw_speed, s4.1, and_self]

  · intro M
    simp only [DESELECT, spi_set_rw_speed]
    split <;> split <;> rfl

/-- With the chip-select pin high at entry, the handshake starts in a state
that depends on the card only. -/
theorem init_prelude_bus (useWrite : Bool) (d e : Drive σ) (hd : d.cs = true)
    (he : e.cs = true) (hcard : e.card = d.card) :
    bus (init_prelude dev useWrite e) = bus (init_prelude dev useWrite d) := by
  simp only [init_prelude, IS_SELECTED, hd, he, Bool.not_true, Bool.and_false, Bool.false_eq_true,
    if_false]
  exact (rx_n_bus dev 10 _ _ (by simp [bus_eq, DESELECT, init_spi, hcard])).2

theorem disk_initialize_cs (useWrite : Bool) (sta : Nat) (d : Drive σ) :
    ( disk_initialize dev useWrite sta d).2.cs = true := by
  obtain ⟨H, F, h1, _, _, h4⟩ := disk_initialize_factors dev useWrite sta
  rw [h1]
  exact h4 _

end Idempotence

section Supply

theorem pf_read_fptr (fs : Fs) (btr : Nat) :
    (pf_read fs btr).2.2.fptr = fs.fptr + (pf_read fs btr).2.1.length := by
  simp only [pf_read]
  split <;> simp

@[simp] theorem setBuffer_bcnt (p : Player) (i : Nat) (b : List Nat) :
    (p.setBuffer i b).bcnt = p.bcnt := by
  unfold Player.setBuffer; split <;> rfl

@[simp] theorem setBuffer_emitted (p : Player) (i : Nat) (b : List Nat) :
    (p.setBuffer i b).emitted = p.emitted := by
  unfold Player.setBuffer; split <;> rfl

@[simp] theorem setBuffer_fs (p : Player) (i : Nat) (b : List Nat) :
    (p.setBuffer i b).fs = p.fs := by
  unfold Player.setBuffer; split <;> rfl

theorem isr_bcnt (q : Player) : (isr q).bcnt = (q.bcnt + 2 ^ 16 - 1) % 2 ^ 16 := by
  simp only [isr]
  split <;> rfl

theorem isr_emitted (q : Player) : (isr q).emitted = q.emitted ++ [(isr q).OCR2B] := by
  simp only [isr]
  split <;> rfl

theorem isr_fs (q : Player) : (isr q).fs = q.fs := by
  simp only [isr]
  split <;> rfl

theorem fg_within (p : Player) (h0 : p.bcnt = 0) (r : Run)
    (h : withinSupply p (pf_read p.fs (align_count p.fs.fptr)).2.2.fptr r) :
    withinSupply p (pf_read p.fs (align_count p.fs.fptr)).2.2.fptr (fg r) := by
  rcases h with rfl | ⟨hpc, hb, hbr, l, hl, hle⟩
  · right
    have la := pf_read_length (pf_read p.fs (align_count p.fs.fptr)).2.2 BUFFER_SIZE
    have lb := pf_read_length (pf_read (pf_read p.fs (align_count p.fs.fptr)).2.2
      BUFFER_SIZE).2.2 BUFFER_SIZE
    have fa := pf_read_fptr (pf_read p.fs (align_count p.fs.fptr)).2.2 BUFFER_SIZE
    have fb := pf_read_fptr (pf_read (pf_read p.fs (align_count p.fs.fptr)).2.2
      BUFFER_SIZE).2.2 BUFFER_SIZE
    simp only [BUFFER_SIZE] at la lb fa fb
    simp only [fg, Run.start, ← align_count.eq_1]
    split
    · exact ⟨by simp, by simp [h0], by simp, [], by simp, by simp [h0]⟩
    · refine ⟨by simp, ?_, by simp, [], by simp, ?_⟩
      · simp only [setBuffer_bcnt, setBuffer_fs, h0, BUFFER_SIZE]
        omega
      · simp only [setBuffer_bcnt, setBuffer_fs, h0, BUFFER_SIZE, List.length_nil]
        simp only [reduceCtorEq, if_false]
        omega
  · right
    have lr := pf_read_length r.p.fs BUFFER_SIZE
    have fr := pf_read_fptr r.p.fs BUFFER_SIZE
    simp only [BUFFER_SIZE] at lr fr
    obtain ⟨q, pc, br, res, ret⟩ := r
    simp only at hpc hb hbr hl hle lr fr
    cases pc with
    | entry => exact absurd rfl hpc
    | loopTop =>
      simp only [fg]
      split
      · exact ⟨by simp, hb, by simp, l, hl, by simpa using hle⟩
      · exact ⟨by simp, hb, by simp, l, hl, by simpa using hle⟩
    | doRead =>
      simp only [fg]
      refine ⟨by simp, ?_, ?_, l, ?_, ?_⟩
      · simp only [setBuffer_bcnt]; exact hb
      · intro _; simp only [BUFFER_SIZE]; exact lr
      · simp only [setBuffer_emitted]; exact hl
      simp only [setBuffer_bcnt, setBuffer_fs, BUFFER_SIZE, if_true]
      simp only [reduceCtorEq, if_false] at hle
      omega
    | setBcnt =>
      simp only [fg]
      have := hbr rfl
      refine ⟨by simp, (by show br ≤ 256; omega), by simp, l, hl, ?_⟩
      simp only [if_true] at hle
      simp only [reduceCtorEq, if_false]
      omega
    | loopCond =>
      simp only [fg]
      split
      · exact ⟨by simp, hb, by simp, l, hl, by simpa using hle⟩
      · exact ⟨by simp, hb, by simp, l, hl, by simpa using hle⟩
    | drain =>
      simp only [fg]
      split
      · exact ⟨by simp, hb, by simp, l, hl, by simpa using hle⟩
      · exact ⟨by simp, hb, by simp, l, hl, by simpa using hle⟩
    | stop =>
      simp only [fg]
      exact ⟨by simp, hb, by simp, l, hl, by simpa using hle⟩
    | done =>
      simp only [fg]
      exact ⟨by simp, hb, by simp, l, hl, by simpa using hle⟩

theorem tick_within (p : Player) (h0 : p.bcnt = 0) (F : Nat) (r : Run)
    (h : withinSupply p F r) (hpos : (!r.p.timer || decide (0 < r.p.bcnt)) = true) :
    withinSupply p F (tick r) := by
  by_cases ht : r.p.timer = true
  · have hb0 : 0 < r.p.bcnt := by simpa [ht] using hpos
    rcases h with rfl | ⟨hpc, hb, hbr, l, hl, hle⟩
    · simp only [Run.start, h0] at hb0
      omega
    · right
      have e : (r.p.bcnt + 2 ^ 16 - 1) % 2 ^ 16 = r.p.bcnt - 1 := by
        rw [show r.p.bcnt + 2 ^ 16 - 1 = (r.p.bcnt - 1) + 2 ^ 16 by omega, Nat.add_mod_right]
        exact Nat.mod_eq_of_lt (by omega)
      simp only [tick, ht, if_true]
      refine ⟨hpc, ?_, hbr, l ++ [(isr r.p).OCR2B], ?_, ?_⟩
      · simp only [isr_bcnt, e]; omega
      · simp only [isr_emitted, hl, List.append_assoc]
      · simp only [isr_bcnt, isr_fs, e, List.length_append, List.length_singleton]
        omega
  · simp only [tick, ht]
    exact h

theorem run_within (p : Player) (h0 : p.bcnt = 0) (s : List Bool) (r : Run)
    (h : withinSupply p (pf_read p.fs (align_count p.fs.fptr)).2.2.fptr r)
    (hs : ticksPositive s r = true) :
    withinSupply p (pf_read p.fs (align_count p.fs.fptr)).2.2.fptr (run s r) := by
  induction s generalizing r with
  | nil => exact h
  | cons b s ih =>
    cases b with
    | true =>
      simp only [ticksPositive, Bool.and_eq_true] at hs
      exact ih _ (tick_within p h0 _ r h hs.1) hs.2
    | false =>
      simp only [ticksPositive] at hs
      exact ih _ (fg_within p h0 r h) hs

set_option maxRecDepth 100000 in
/-- C11 does not hold as stated: when the foreground does not run for 257
ticks after the timer is started, tick 257 finds the counter at 0 with the
timer running; it emits a byte all the same and the counter wraps to 65535.
The handler has then written 257 bytes, the reads have supplied 256. -/
theorem playback_underrun :
    (run (steps 1 ++ ticks 256) (Run.start (loaded []))).p.bcnt = 0 ∧
    (run (steps 1 ++ ticks 256) (Run.start (loaded []))).p.timer = true ∧
    (run (steps 1 ++ ticks 256) (Run.start (loaded []))).p.emitted.length = 256 ∧
    (run (steps 1 ++ ticks 257) (Run.start (loaded []))).p.emitted.length = 257 ∧
    (run (steps 1 ++ ticks 257) (Run.start (loaded []))).p.bcnt = 65535 ∧
    (run (steps 1 ++ ticks 257) (Run.start (loaded []))).p.fs.fptr
      - (pf_read (loaded []).fs (align_count (loaded []).fs.fptr)).2.2.fptr = 256 := by
  decide

end Supply

section Abort

variable {σ : Type} (dev : Dev σ)

/-- The value the response loop returns is the last byte read. -/
theorem send_cmd_poll_last (i : Nat) (d : Drive σ) :
    (send_cmd_poll dev i d).2.log.getLast?.map Xch.miso = some (send_cmd_poll dev i d).1 := by
  induction i generalizing d with
  | zero => simp [send_cmd_poll, rx_spi, spi]
  | succ i ih =>
    simp only [send_cmd_poll]
    split
    · simp [rx_spi, spi]
    · exact ih _

theorem send_cmd_frame_last (cmd arg : Nat) (d : Drive σ) :
    (send_cmd_frame dev cmd arg d).2.log.getLast?.map Xch.miso
      = some (send_cmd_frame dev cmd arg d).1 := by
  simp only [send_cmd_frame]
  split <;> exact send_cmd_poll_last dev 10 _

theorem send_cmd_poll_lt (i : Nat) (d : Drive σ) : (send_cmd_poll dev i d).1 < 256 := by
  induction i generalizing d with
  | zero => exact Nat.mod_lt _ (by decide)
  | succ i ih =>
    simp only [send_cmd_poll]
    split
    · exact Nat.mod_lt _ (by decide)
    · exact ih _

theorem send_cmd_frame_lt (cmd arg : Nat) (d : Drive σ) :
    (send_cmd_frame dev cmd arg d).1 < 256 := by
  simp only [send_cmd_frame]
  split <;> exact send_cmd_poll_lt dev 10 _

/-- C21: application-command abort. For a command byte with the high bit set,
let `L` be the call `send_cmd(ACMD_LEADING, 0)`, a single frame. If its
response is above 1, `send_cmd` returns it in the state `L` leaves: nothing
is exchanged after the leading command. If it is 0 or 1, `send_cmd` goes on
with one frame for the command with the high bit cleared: after the two
flush bytes, that byte, the four argument bytes and the trailer, then only
reads; the value returned is the last byte read in that frame. A response is
a byte, and `0xFF`, the value left by an exhausted response loop, is above
1. -/
theorem send_cmd_acmd_abort (cmd arg : Nat) (d : Drive σ) (h : IS_ACMD (cmd % 256) = true) :
    let L := send_cmd dev ACMD_LEADING 0 d
    L = send_cmd_frame dev ACMD_LEADING 0 d ∧ L.1 < 256 ∧ 1 < 0xFF ∧
    (1 < L.1 → send_cmd dev cmd arg d = L) ∧
    (L.1 ≤ 1 →
      send_cmd dev cmd arg d
        = send_cmd_frame dev ((cmd % 256) &&& ACMD_MASK) (arg % 2 ^ 32) L.2 ∧
      (∃ k, 1 ≤ k ∧ k ≤ 12 ∧
        sent (send_cmd dev cmd arg d).2 = sent L.2 ++ [0xFF, 0xFF] ++
          [(cmd % 256) &&& ACMD_MASK, (arg % 2 ^ 32) >>> 24 % 256, (arg % 2 ^ 32) >>> 16 % 256,
            (arg % 2 ^ 32) >>> 8 % 256, arg % 2 ^ 32 % 256,
            if (cmd % 256) &&& ACMD_MASK = CHECK_V then CHECK_V_CRC
            else if (cmd % 256) &&& ACMD_MASK = GO_IDLE then GO_IDLE_CRC else 0xFF] ++
          List.replicate k 0xFF) ∧
      (send_cmd dev cmd arg d).2.log.getLast?.map Xch.miso = some (send_cmd dev cmd arg d).1) := by
  intro L
  have hl : IS_ACMD (ACMD_LEADING % 256) = false := by decide
  have hL : L = send_cmd_frame dev ACMD_LEADING 0 d := by
    simp only [L]
    rw [send_cmd_eq, hl]
    simp only [Bool.false_eq_true, if_false]
    rfl
  have hlt : L.1 < 256 := by
    rw [hL]
    exact send_cmd_frame_lt dev _ _ _
  have hm : ((cmd % 256) &&& ACMD_MASK) % 256 = (cmd % 256) &&& ACMD_MASK :=
    Nat.mod_eq_of_lt (lt_of_le_of_lt Nat.and_le_right (by decide))
  refine ⟨hL, hlt, by decide, ?_, ?_⟩
  · intro h1
    rw [send_cmd_eq, if_pos h, ← hL, if_pos h1]
  · intro h1
    have e : send_cmd dev cmd arg d
        = send_cmd_frame dev ((cmd % 256) &&& ACMD_MASK) (arg % 2 ^ 32) L.2 := by
      rw [send_cmd_eq, if_pos h, ← hL, if_neg (by omega)]
    refine ⟨e, ?_, ?_⟩
    · obtain ⟨k, k1, k2, k3⟩ := sent_send_cmd_frame dev ((cmd % 256) &&& ACMD_MASK)
        (arg % 2 ^ 32) L.2
      rw [hm] at k3
      exact ⟨k, k1, k2, by rw [e]; exact k3⟩
    · rw [e]
      exact send_cmd_frame_last dev _ _ _

set_option maxRecDepth 100000 in
/-- Witness of C21: the application init on a bus that never answers, where
the leading command returns `0xFF` and nothing follows, and on a card in the
idle state, where the leading command returns `0x01` and the command is sent
as `0x69`. -/
theorem send_cmd_acmd_abort_witness :
    send_cmd scriptDev APP_INIT HCS_SET (powerUp silent)
      = send_cmd scriptDev ACMD_LEADING 0 (powerUp silent) ∧
    (send_cmd scriptDev APP_INIT HCS_SET (powerUp silent)).1 = 0xFF ∧
    send_cmd (stuckDev [0x05]) APP_INIT HCS_SET (powerUp [])
      = send_cmd_frame (stuckDev [0x05]) 0x69 HCS_SET
          (send_cmd (stuckDev [0x05]) ACMD_LEADING 0 (powerUp [])).2 :=
  ⟨(send_cmd_acmd_abort scriptDev APP_INIT HCS_SET (powerUp silent) (by decide)).2.2.2.1
      (by decide),
    by decide,
    ((send_cmd_acmd_abort (stuckDev [0x05]) APP_INIT HCS_SET (powerUp []) (by decide)).2.2.2.2
      (by decide)).1⟩

end Abort

section Divisor

/-- The divisor for a rate between 8000 and 10000 at 16 MHz. -/
theorem divisor_range (f : Nat) (h1 : 8000 ≤ f) (h2 : f ≤ 10000) :
    SAMPLE_TIMER_SET_FREQ 16000000 f = 2000000 / f - 1 ∧
    200 ≤ 2000000 / f ∧ 2000000 / f ≤ 250 := by
  have h200 : 200 ≤ 2000000 / f := (Nat.le_div_iff_mul_le (by omega)).2 (by omega)
  have h250 : 2000000 / f ≤ 250 := Nat.div_le_of_le_mul (by omega)
  refine ⟨?_, h200, h250⟩
  simp only [SAMPLE_TIMER_SET_FREQ, show 16000000 / 8 = 2000000 by decide]
  generalize 2000000 / f = x at h200 h250
  omega

/-- A call of `load_header` that returns more than 1 has passed the test of
the sample rate and programmed the compare value from the rate in `buffer0`. -/
theorem load_header_programs (F_CPU : Nat) (p : Player) (h : 1 < (load_header F_CPU p).1) :
    SAMPLE_FREQ_MIN ≤ LD_DWORD (load_header F_CPU p).2.buffer0 SAMPLE_FREQUENCY ∧
    LD_DWORD (load_header F_CPU p).2.buffer0 SAMPLE_FREQUENCY ≤ SAMPLE_FREQ_MAX ∧
    (load_header F_CPU p).2.OCR0A
      = SAMPLE_TIMER_SET_FREQ F_CPU (LD_DWORD (load_header F_CPU p).2.buffer0 SAMPLE_FREQUENCY) := by
  unfold load_header at h ⊢
  generalize pf_read p.fs WAVEFILE_HEADER_SIZE = r at h ⊢
  simp only at h ⊢
  generalize store p.buffer0 r.2.1 = B at h ⊢
  by_cases c0 : r.1 ≠ 0
  · rw [if_pos c0] at h
    exact absurd h (by simp)
  rw [if_neg c0] at h ⊢
  by_cases c1 : r.2.1.length ≠ WAVEFILE_HEADER_SIZE ∨ LD_DWORD B FILE_FORMAT ≠ FCC 'W' 'A' 'V' 'E'
  · rw [if_pos c1] at h
    exact absurd h (by simp)
  rw [if_neg c1] at h ⊢
  by_cases c2 : LD_DWORD B FORMAT_BLOCK_ID ≠ FCC 'f' 'm' 't' ' '
  · rw [if_pos c2] at h
    exact absurd h (by simp)
  rw [if_neg c2] at h ⊢
  by_cases c3 : LD_DWORD B FORMAT_BLOCK_SIZE < 16
  · rw [if_pos c3] at h
    exact absurd h (by simp)
  rw [if_neg c3] at h ⊢
  by_cases c4 : LD_WORD B SAMPLE_FORMAT ≠ 1
  · rw [if_pos c4] at h
    exact absurd h (by simp)
  rw [if_neg c4] at h ⊢
  by_cases c5 : LD_WORD B NUM_CHANNELS ≠ 1
  · rw [if_pos c5] at h
    exact absurd h (by simp)
  rw [if_neg c5] at h ⊢
  by_cases c6 : LD_WORD B BITS_PER_SAMPLE ≠ 8
  · rw [if_pos c6] at h
    exact absurd h (by simp)
  rw [if_neg c6] at h ⊢
  by_cases c7 : LD_DWORD B SAMPLE_FREQUENCY < SAMPLE_FREQ_MIN ∨ LD_DWORD B SAMPLE_FREQUENCY > SAMPLE_FREQ_MAX
  · rw [if_pos c7] at h
    exact absurd h (by simp)
  rw [if_neg c7] at h ⊢
  have hf : SAMPLE_FREQ_MIN ≤ LD_DWORD B SAMPLE_FREQUENCY ∧
      LD_DWORD B SAMPLE_FREQUENCY ≤ SAMPLE_FREQ_MAX := by omega
  by_cases c8 : LD_DWORD B DATA_BLOCK_ID = FCC 'd' 'a' 't' 'a'
  · rw [if_pos c8] at h ⊢
    by_cases c9 : LD_DWORD B DATA_BLOCK_SIZE < 1024
    · rw [if_pos c9] at h
      exact absurd h (by simp)
    · rw [if_neg c9]
      exact ⟨hf.1, hf.2, rfl⟩
  · rw [if_neg c8] at h
    exact absurd h (by simp)

/-- C22: sample-timer divisor at 16 MHz. For every rate `f` between
`SAMPLE_FREQ_MIN = 8000` and `SAMPLE_FREQ_MAX = 10000`, `2000000 / f - 1` lies
between 199 and 249, the value `SAMPLE_TIMER_SET_FREQ` assigns to `OCR0A`
after the 8-bit cast is `F_CPU / 8 / f - 1` itself, and it does not grow with
the rate; it is 249 at 8000 and 199 at 10000. A call of `load_header` that
accepts the file has found such a rate in the header and has programmed
`OCR0A` with that value. -/
theorem sample_timer_divisor (f g : Nat) (h1 : SAMPLE_FREQ_MIN ≤ f) (h2 : f ≤ g)
    (h3 : g ≤ SAMPLE_FREQ_MAX) :
    199 ≤ 2000000 / f - 1 ∧ 2000000 / f - 1 ≤ 249 ∧
    SAMPLE_TIMER_SET_FREQ 16000000 f = 16000000 / 8 / f - 1 ∧
    SAMPLE_TIMER_SET_FREQ 16000000 f = 2000000 / f - 1 ∧
    SAMPLE_TIMER_SET_FREQ 16000000 g ≤ SAMPLE_TIMER_SET_FREQ 16000000 f ∧
    SAMPLE_TIMER_SET_FREQ 16000000 SAMPLE_FREQ_MIN = 249 ∧
    SAMPLE_TIMER_SET_FREQ 16000000 SAMPLE_FREQ_MAX = 199 ∧
    (∀ p : Player, 1 < (load_header 16000000 p).1 →
      SAMPLE_FREQ_MIN ≤ LD_DWORD (load_header 16000000 p).2.buffer0 SAMPLE_FREQUENCY ∧
      LD_DWORD (load_header 16000000 p).2.buffer0 SAMPLE_FREQUENCY ≤ SAMPLE_FREQ_MAX ∧
      (load_header 16000000 p).2.OCR0A = SAMPLE_TIMER_SET_FREQ 16000000
        (LD_DWORD (load_header 16000000 p).2.buffer0 SAMPLE_FREQUENCY)) := by
  simp only [SAMPLE_FREQ_MIN, SAMPLE_FREQ_MAX] at h1 h3
  obtain ⟨a1, a2, a3⟩ := divisor_range f h1 (by omega)
  obtain ⟨b1, b2, b3⟩ := divisor_range g (by omega) h3
  have hm : 2000000 / g ≤ 2000000 / f := Nat.div_le_div_left h2 (by omega)
  refine ⟨by omega, by omega, a1, a1, ?_, by decide, by decide,
    fun p hp => load_header_programs 16000000 p hp⟩
  rw [a1, b1]
  omega

set_option maxRecDepth 100000 in
/-- Witness of C22: the rates 9000 and 10000, and the sample file, whose
header gives 9000 Hz: `load_header` programs 221. -/
theorem sample_timer_divisor_witness :
    SAMPLE_TIMER_SET_FREQ 16000000 9000 = 2000000 / 9000 - 1 ∧
    SAMPLE_TIMER_SET_FREQ 16000000 10000 ≤ SAMPLE_TIMER_SET_FREQ 16000000 9000 ∧
    (load_header 16000000 (Player.reset (wavFile (wavHeader 9000 687) tune))).2.OCR0A
      = SAMPLE_TIMER_SET_FREQ 16000000
          (LD_DWORD (load_header 16000000
            (Player.reset (wavFile (wavHeader 9000 687) tune))).2.buffer0 SAMPLE_FREQUENCY) ∧
    (load_header 16000000 (Player.reset (wavFile (wavHeader 9000 687) tune))).2.OCR0A = 221 :=
  have h := sample_timer_divisor 9000 10000 (by decide) (by decide) (by decide)
  ⟨h.2.2.2.1, h.2.2.2.2.1,
    (h.2.2.2.2.2.2.2 (Player.reset (wavFile (wavHeader 9000 687) tune)) (by decide)).2.2,
    by decide⟩

end Divisor

section Timely

@[simp] theorem setBuffer_index (p : Player) (i : Nat) (b : List Nat) :
    (p.setBuffer i b).buffer_index = p.buffer_index := by
  unfold Player.setBuffer; split <;> rfl

@[simp] theorem setBuffer_end (p : Player) (i : Nat) (b : List Nat) :
    (p.setBuffer i b).buffer_end = p.buffer_end := by
  unfold Player.setBuffer; split <;> rfl

/-- The foreground never emits, and never moves the file backwards. -/
theorem fg_monotone (r : Run) :
    (fg r).p.emitted = r.p.emitted ∧ r.p.fs.fptr ≤ (fg r).p.fs.fptr := by
  have f1 := pf_read_fptr r.p.fs BUFFER_SIZE
  obtain ⟨q, pc, br, res, ret⟩ := r
  cases pc with
  | entry =>
    have fk := pf_read_fptr q.fs (align_count q.fs.fptr)
    have fa := pf_read_fptr (pf_read q.fs (align_count q.fs.fptr)).2.2 BUFFER_SIZE
    have fb := pf_read_fptr (pf_read (pf_read q.fs (align_count q.fs.fptr)).2.2
      BUFFER_SIZE).2.2 BUFFER_SIZE
    simp only [fg, ← align_count.eq_1]
    split
    · exact ⟨rfl, by simp only; omega⟩
    · refine ⟨by simp, ?_⟩
      simp only [setBuffer_fs]
      omega
  | loopTop => simp only [fg]; split <;> exact ⟨rfl, le_refl _⟩
  | doRead =>
    simp only [fg]
    refine ⟨by simp, ?_⟩
    simp only [setBuffer_fs] at f1 ⊢
    omega
  | setBcnt => exact ⟨rfl, le_refl _⟩
  | loopCond => simp only [fg]; split <;> exact ⟨rfl, le_refl _⟩
  | drain => simp only [fg]; split <;> exact ⟨rfl, le_refl _⟩
  | stop => exact ⟨rfl, le_refl _⟩
  | done => exact ⟨rfl, le_refl _⟩

/-- Along a schedule whose ticks all find a byte to play, the bytes emitted
since the start never exceed the bytes supplied. -/
theorem run_supplied (p : Player) (F : Nat) (s : List Bool) (r : Run)
    (h : ∃ l, r.p.emitted = p.emitted ++ l ∧ l.length ≤ r.p.fs.fptr - F)
    (hs : ticksSupplied p.emitted.length F s r = true) :
    ∃ l, (run s r).p.emitted = p.emitted ++ l ∧ l.length ≤ (run s r).p.fs.fptr - F := by
  induction s generalizing r with
  | nil => exact h
  | cons b s ih =>
    obtain ⟨l, hl, hle⟩ := h
    cases b with
    | true =>
      simp only [ticksSupplied, Bool.and_eq_true] at hs
      refine ih (tick r) ?_ hs.2
      by_cases ht : r.p.timer = true
      · have hlt : r.p.emitted.length + F < p.emitted.length + r.p.fs.fptr := by
          simpa [ht] using hs.1
        simp only [tick, ht, if_true]
        refine ⟨l ++ [(isr r.p).OCR2B], by rw [isr_emitted, hl, List.append_assoc], ?_⟩
        rw [hl, List.length_append] at hlt
        rw [isr_fs, List.length_append, List.length_singleton]
        omega
      · simp only [tick, ht]
        exact ⟨l, hl, hle⟩
    | false =>
      simp only [ticksSupplied] at hs
      obtain ⟨f1, f2⟩ := fg_monotone r
      exact ih (fg r) ⟨l, by rw [f1, hl], by omega⟩ hs

/-- A schedule whose ticks all find the counter positive is one whose ticks
all find a byte to play. -/
theorem positive_supplied (p : Player) (h0 : p.bcnt = 0) (s : List Bool) (r : Run)
    (h : withinSupply p (pf_read p.fs (align_count p.fs.fptr)).2.2.fptr r)
    (hs : ticksPositive s r = true) :
    ticksSupplied p.emitted.length (pf_read p.fs (align_count p.fs.fptr)).2.2.fptr s r
      = true := by
  induction s generalizing r with
  | nil => rfl
  | cons b s ih =>
    cases b with
    | true =>
      simp only [ticksPositive, Bool.and_eq_true] at hs
      simp only [ticksSupplied, Bool.and_eq_true]
      refine ⟨?_, ih _ (tick_within p h0 _ r h hs.1) hs.2⟩
      by_cases ht : r.p.timer = true
      · have hb0 : 0 < r.p.bcnt := by simpa [ht] using hs.1
        rcases h with rfl | ⟨_, _, _, l, hl, hle⟩
        · simp only [Run.start, h0] at hb0
          omega
        · simp only [ht, Bool.not_true, Bool.false_or, decide_eq_true_eq]
          rw [hl, List.length_append]
          omega
      · simp [ht]
    | false =>
      simp only [ticksPositive] at hs
      simp only [ticksSupplied]
      exact ih _ (fg_within p h0 r h) hs

theorem fg_streaming (p : Player) (h0 : p.bcnt = 0)
    (hfull : (fg (Run.start p)).p.bcnt = 2 * BUFFER_SIZE) (r : Run)
    (h : streaming p (pf_read p.fs (align_count p.fs.fptr)).2.2.fptr r) :
    streaming p (pf_read p.fs (align_count p.fs.fptr)).2.2.fptr (fg r) := by
  rcases h with rfl | ⟨l, hl, hi, h⟩
  · right
    have la := pf_read_length (pf_read p.fs (align_count p.fs.fptr)).2.2 BUFFER_SIZE
    have lb := pf_read_length (pf_read (pf_read p.fs (align_count p.fs.fptr)).2.2
      BUFFER_SIZE).2.2 BUFFER_SIZE
    have fa := pf_read_fptr (pf_read p.fs (align_count p.fs.fptr)).2.2 BUFFER_SIZE
    have fb := pf_read_fptr (pf_read (pf_read p.fs (align_count p.fs.fptr)).2.2
      BUFFER_SIZE).2.2 BUFFER_SIZE
    simp only [BUFFER_SIZE] at la lb fa fb
    simp only [fg, Run.start, ← align_count.eq_1] at hfull ⊢
    split at hfull
    · simp only [h0, BUFFER_SIZE] at hfull
      omega
    · rename_i hok
      rw [if_neg hok]
      simp only [setBuffer_bcnt, setBuffer_fs, h0, BUFFER_SIZE, Nat.reducePow,
        Nat.reduceMul] at hfull
      refine ⟨[], by simp, by simp, Or.inl ⟨Or.inl rfl, ?_, Or.inl ⟨rfl, ?_⟩⟩⟩
      · simp only [setBuffer_fs, BUFFER_SIZE]
        omega
      · simp only [setBuffer_fs, setBuffer_index, BUFFER_SIZE, List.length_nil, Nat.reduceMul]
        omega
  · have lr := pf_read_length r.p.fs BUFFER_SIZE
    have fr := pf_read_fptr r.p.fs BUFFER_SIZE
    obtain ⟨q, pc, br, res, ret⟩ := r
    simp only at hl hi h lr fr
    cases pc with
    | entry => simp at h
    | loopTop =>
      simp only [reduceCtorEq, false_and, and_false, or_false, false_or, true_or, true_and] at h
      obtain ⟨hbr, h⟩ := h
      simp only [fg]
      rcases h with ⟨he, h⟩ | ⟨he, h⟩
      · rw [if_neg (by simpa using he)]
        exact Or.inr ⟨l, hl, hi, Or.inl ⟨Or.inr rfl, hbr, Or.inl ⟨he, h⟩⟩⟩
      · rw [if_pos he]
        exact Or.inr ⟨l, hl, hi, Or.inr (Or.inl ⟨rfl, rfl, h⟩)⟩
    | doRead =>
      simp only [reduceCtorEq, false_and, and_false, or_false, false_or, true_and] at h
      obtain ⟨he, h⟩ := h
      simp only [fg]
      refine Or.inr ⟨l, by simpa using hl, by simpa using hi,
        Or.inr (Or.inr (Or.inl ⟨rfl, by simpa using he, lr, ?_⟩))⟩
      simp only [setBuffer_fs, setBuffer_index]
      omega
    | setBcnt =>
      simp only [reduceCtorEq, false_and, and_false, or_false, false_or, true_and] at h
      obtain ⟨he, hb, h⟩ := h
      simp only [fg]
      by_cases h128 : br = BUFFER_SIZE
      · refine Or.inr ⟨l, hl, hi, Or.inl ⟨Or.inr rfl, h128, Or.inl ⟨he, ?_⟩⟩⟩
        simp only [BUFFER_SIZE] at h128 h ⊢
        omega
      · refine Or.inr ⟨l, hl, hi, Or.inr (Or.inr (Or.inr ⟨Or.inl ⟨rfl, h128⟩, hb, ?_⟩))⟩
        simp only [BUFFER_SIZE] at h hi ⊢
        omega
    | loopCond =>
      simp only [reduceCtorEq, false_and, and_false, or_false, false_or, true_and, or_true] at h
      simp only [fg]
      rcases h with ⟨hbr, h⟩ | ⟨hbr, h⟩
      · rw [if_pos hbr]
        exact Or.inr ⟨l, hl, hi, Or.inl ⟨Or.inl rfl, hbr, h⟩⟩
      · rw [if_neg hbr]
        exact Or.inr ⟨l, hl, hi, Or.inr (Or.inr (Or.inr ⟨Or.inr (Or.inl rfl), h⟩))⟩
    | drain =>
      simp only [reduceCtorEq, false_and, and_false, or_false, false_or, true_and, or_true] at h
      simp only [fg]
      split
      · exact Or.inr ⟨l, hl, hi, Or.inr (Or.inr (Or.inr ⟨Or.inr (Or.inl rfl), h⟩))⟩
      · exact Or.inr ⟨l, hl, hi, Or.inr (Or.inr (Or.inr ⟨Or.inr (Or.inr (Or.inl rfl)), h⟩))⟩
    | stop =>
      simp only [reduceCtorEq, false_and, and_false, or_false, false_or, true_and, or_true] at h
      simp only [fg]
      exact Or.inr ⟨l, hl, hi, Or.inr (Or.inr (Or.inr ⟨Or.inr (Or.inr (Or.inr rfl)), h⟩))⟩
    | done =>
      simp only [reduceCtorEq, false_and, and_false, or_false, false_or, true_and, or_true] at h
      simp only [fg]
      exact Or.inr ⟨l, hl, hi, Or.inr (Or.inr (Or.inr ⟨Or.inr (Or.inr (Or.inr rfl)), h⟩))⟩

theorem tick_streaming (p : Player) (h0 : p.bcnt = 0) (F : Nat) (r : Run)
    (h : streaming p F r) (ht : timelyTick r = true) :
    streaming p F (tick r) ∧
      (r.p.timer = true → r.p.emitted.length + F < p.emitted.length + r.p.fs.fptr) := by
  by_cases htm : r.p.timer = true
  · simp only [timelyTick, htm, Bool.not_true, Bool.false_or, Bool.and_eq_true, Bool.or_eq_true,
      decide_eq_true_eq] at ht
    obtain ⟨t1, t2⟩ := ht
    rcases h with rfl | ⟨l, hl, hi, h⟩
    · simp [Run.start, h0, loopAlive] at t2
    · have hE : (isr r.p).emitted = p.emitted ++ (l ++ [(isr r.p).OCR2B]) := by
        rw [isr_emitted, hl, List.append_assoc]
      have hF := isr_fs r.p
      have hB := isr_bcnt r.p
      have hlen : r.p.emitted.length = p.emitted.length + l.length := by
        rw [hl, List.length_append]
      simp only [tick, htm, if_true, forall_true_left]
      obtain ⟨q, pc, br, res, ret⟩ := r
      simp only [BUFFER_SIZE, Nat.reducePow, Nat.reduceMul] at hl hi h t1 t2 hE hF hB hlen ⊢
      by_cases hsw : q.buffer_index = 128
      · obtain ⟨-, -, hI, hN, -⟩ := isr_swap q hsw
        cases pc <;>
          simp only [refillDone, loopAlive, hsw, not_true_eq_false, false_or, reduceCtorEq,
            Bool.and_eq_true, decide_eq_true_eq, Bool.and_false, Bool.false_eq_true,
            false_and, and_false, or_false, true_and, or_true, true_or, and_true,
            or_self, BUFFER_SIZE, Bool.and_true] at t1 t2 h
        all_goals refine ⟨Or.inr ⟨l ++ [(isr q).OCR2B], hE, ?_, ?_⟩, ?_⟩
        all_goals first
          | omega
          | (simp [hI, hN, hF, hB, BUFFER_SIZE] <;> omega)
      · obtain ⟨-, -, hI, hN, -⟩ := isr_keep q hsw
        simp only [Nat.reducePow] at hI
        cases pc <;>
          simp only [refillDone, loopAlive, hsw, not_false_eq_true, true_or, reduceCtorEq,
            Bool.and_eq_true, decide_eq_true_eq, Bool.and_false, Bool.false_eq_true,
            false_and, and_false, or_false, true_and, or_true, and_true, false_or,
            or_self, BUFFER_SIZE, Bool.and_true] at t1 t2 h
        all_goals refine ⟨Or.inr ⟨l ++ [(isr q).OCR2B], hE, ?_, ?_⟩, ?_⟩
        all_goals first
          | omega
          | (simp [hI, hN, hF, hB, BUFFER_SIZE]; omega)
  · simp only [tick, htm]
    exact ⟨h, fun hh => absurd hh (by simp)⟩

/-- A schedule whose ticks are all timely, on a call that starts with both
buffers full, is one whose ticks all find a byte to play. -/
theorem timely_supplied (p : Player) (h0 : p.bcnt = 0)
    (hfull : (fg (Run.start p)).p.bcnt = 2 * BUFFER_SIZE) (s : List Bool) (r : Run)
    (h : streaming p (pf_read p.fs (align_count p.fs.fptr)).2.2.fptr r)
    (hs : timely s r = true) :
    ticksSupplied p.emitted.length (pf_read p.fs (align_count p.fs.fptr)).2.2.fptr s r
      = true := by
  induction s generalizing r with
  | nil => rfl
  | cons b s ih =>
    cases b with
    | true =>
      simp only [timely, Bool.and_eq_true] at hs
      obtain ⟨k1, k2⟩ := tick_streaming p h0 _ r h hs.1
      simp only [ticksSupplied, Bool.and_eq_true]
      refine ⟨?_, ih _ k1 hs.2⟩
      by_cases ht : r.p.timer = true
      · simpa [ht] using k2 ht
      · simp [ht]
    | false =>
      simp only [timely] at hs
      simp only [ticksSupplied]
      exact ih _ (fg_streaming p h0 hfull r h) hs

/-- C11 as amended: the handler has no test of the counter; every invocation
emits one byte and decrements the counter modulo `2 ^ 16`. In a run of
`playback` in which every tick that runs the handler finds a byte to play
(fewer bytes emitted since the start than the reads have supplied since the
alignment read), the bytes emitted since the start are never more than the
bytes supplied. For a call started with the counter at 0 this covers every
schedule whose ticks all find the counter positive, and, when the two priming
reads fill both buffers, every schedule whose ticks are all timely: no swap
while a refill is pending or in progress, no tick at counter 0 once the
refill loop has ended; ticks during a refill may find the counter at 0. -/
theorem playback_within_supply (p : Player) (s : List Bool)
    (hs : ticksSupplied p.emitted.length (pf_read p.fs (align_count p.fs.fptr)).2.2.fptr s
      (Run.start p) = true) :
    (∃ l, (run s (Run.start p)).p.emitted = p.emitted ++ l ∧
      l.length ≤ (run s (Run.start p)).p.fs.fptr
        - (pf_read p.fs (align_count p.fs.fptr)).2.2.fptr) ∧
    (∀ q : Player, (isr q).emitted = q.emitted ++ [(isr q).OCR2B] ∧
      (isr q).bcnt = (q.bcnt + 2 ^ 16 - 1) % 2 ^ 16) ∧
    (∀ t : List Bool, p.bcnt = 0 → ticksPositive t (Run.start p) = true →
      ticksSupplied p.emitted.length (pf_read p.fs (align_count p.fs.fptr)).2.2.fptr t
        (Run.start p) = true) ∧
    (∀ t : List Bool, p.bcnt = 0 → (fg (Run.start p)).p.bcnt = 2 * BUFFER_SIZE →
      timely t (Run.start p) = true →
      ticksSupplied p.emitted.length (pf_read p.fs (align_count p.fs.fptr)).2.2.fptr t
        (Run.start p) = true) :=
  ⟨run_supplied p _ s (Run.start p) ⟨[], by simp [Run.start], by simp⟩ hs,
    fun q => ⟨isr_emitted q, isr_bcnt q⟩,
    fun t h0 ht => positive_supplied p h0 t (Run.start p) (Or.inl rfl) ht,
    fun t h0 hfull ht => timely_supplied p h0 hfull t (Run.start p) (Or.inl rfl) ht⟩

set_option maxRecDepth 1000000 in
/-- Witness of C11 as amended: on the 984-byte file the schedule `lateRefills`
is timely although its second refill lets a tick find the counter at 0; the
handler emits 385 bytes, the reads supply 512. -/
theorem playback_within_supply_witness :
    (∃ l, (run lateRefills (Run.start loaded4)).p.emitted = loaded4.emitted ++ l ∧
      l.length ≤ (run lateRefills (Run.start loaded4)).p.fs.fptr
        - (pf_read loaded4.fs (align_count loaded4.fs.fptr)).2.2.fptr) ∧
    ticksPositive lateRefills (Run.start loaded4) = false ∧
    timely lateRefills (Run.start loaded4) = true ∧
    (run lateRefills (Run.start loaded4)).p.emitted.length = 385 ∧
    (run lateRefills (Run.start loaded4)).p.fs.fptr
      - (pf_read loaded4.fs (align_count loaded4.fs.fptr)).2.2.fptr = 512 ∧
    (run lateRefills (Run.start loaded4)).ret = some 0 :=
  have h := playback_within_supply loaded4 lateRefills
    ((playback_within_supply loaded4 lateRefills (by decide)).2.2.2 lateRefills (by decide)
      (by decide) (by decide))
  ⟨h.1, by decide, by decide, by decide, by decide, by decide⟩

end Timely

section ReplaySteps

variable {σ : Type} (dev : Dev σ)

theorem pins_eq {τ : Type} {d : Drive σ} {e : Drive τ} :
    pins e = pins d ↔ e.cs = d.cs ∧ e.cardType = d.cardType ∧ e.fast = d.fast := by
  simp [pins]

theorem Replays.congr {α : Type} {a : Drive σ → α × Drive σ}
    {b : Drive (List Nat) → α × Drive (List Nat)} {d : Drive σ}
    (a2 : Drive σ → α × Drive σ) (b2 : Drive (List Nat) → α × Drive (List Nat))
    (ha : ∀ x, a x = a2 x) (hb : ∀ y, b y = b2 y) (h : Replays a2 b2 d) : Replays a b d := by
  obtain ⟨m, h1, h2⟩ := h
  refine ⟨m, by rw [ha]; exact h1, fun e t he hp => ?_⟩
  rw [hb, ha]
  exact h2 e t he hp

theorem Replays.bind {α β : Type} {a : Drive σ → α × Drive σ}
    {b : Drive (List Nat) → α × Drive (List Nat)} {k : α → Drive σ → β × Drive σ}
    {k2 : α → Drive (List Nat) → β × Drive (List Nat)} {d : Drive σ}
    (h1 : Replays a b d) (h2 : Replays (k (a d).1) (k2 (a d).1) (a d).2) :
    Replays (andThen a k) (andThen b k2) d := by
  obtain ⟨m1, r1, f1⟩ := h1
  obtain ⟨m2, r2, f2⟩ := h2
  refine ⟨m1 ++ m2, ?_, fun e t he hp => ?_⟩
  · simp only [andThen]
    rw [r2, r1, List.append_assoc]
  · obtain ⟨v1, c1, p1⟩ := f1 e (m2 ++ t) (by rw [he, List.append_assoc]) hp
    simp only [andThen]
    rw [v1]
    exact f2 (b e).2 t c1 p1

theorem Replays.pure {α : Type} (v : α) (d : Drive σ) :
    Replays (fun x => (v, x)) (fun y => (v, y)) d :=
  ⟨[], by simp, fun e t he hp => ⟨rfl, by simpa using he, hp⟩⟩

theorem Replays.discard {α : Type} {a : Drive σ → α × Drive σ}
    {b : Drive (List Nat) → α × Drive (List Nat)} {d : Drive σ} (h : Replays a b d) :
    Replays (fun x => ((), (a x).2)) (fun y => ((), (b y).2)) d := by
  obtain ⟨m, h1, h2⟩ := h
  exact ⟨m, h1, fun e t he hp => ⟨rfl, (h2 e t he hp).2⟩⟩

theorem replays_spi (x : Nat) (d : Drive σ) : Replays (spi dev x) (spi scriptDev x) d := by
  refine ⟨[(dev d.card d.cs (x % 256)).1 % 256], by simp [received, spi], fun e t he hp => ?_⟩
  rw [pins_eq] at hp
  simp [spi, scriptDev, he, pins, hp.1, hp.2.1, hp.2.2]

theorem replays_DESELECT (d : Drive σ) :
    Replays (fun x => ((), DESELECT x)) (fun y => ((), DESELECT y)) d := by
  refine ⟨[], by simp [received, DESELECT], fun e t he hp => ?_⟩
  rw [pins_eq] at hp
  simp [DESELECT, pins, he, hp.2.1, hp.2.2]

theorem replays_SELECT (d : Drive σ) :
    Replays (fun x => ((), SELECT x)) (fun y => ((), SELECT y)) d := by
  refine ⟨[], by simp [received, SELECT], fun e t he hp => ?_⟩
  rw [pins_eq] at hp
  simp [SELECT, pins, he, hp.2.1, hp.2.2]

theorem replays_send_cmd_poll (i : Nat) (d : Drive σ) :
    Replays (send_cmd_poll dev i) (send_cmd_poll scriptDev i) d := by
  induction i generalizing d with
  | zero => exact replays_spi dev 0xFF d
  | succ i ih =>
    refine Replays.congr (andThen (rx_spi dev) (fun v x =>
        if IS_R1_RESP v then (v, x) else send_cmd_poll dev i x))
      (andThen (rx_spi scriptDev) (fun v y =>
        if IS_R1_RESP v then (v, y) else send_cmd_poll scriptDev i y))
      (fun x => rfl) (fun y => rfl) (Replays.bind (replays_spi dev 0xFF d) ?_)
    split
    · exact Replays.pure _ _
    · exact ih _

theorem replays_send_cmd_frame (cmd arg : Nat) (d : Drive σ) :
    Replays (send_cmd_frame dev cmd arg) (send_cmd_frame scriptDev cmd arg) d := by
  refine Replays.congr
    (andThen (fun x => ((), DESELECT x)) fun _ => andThen (rx_spi dev) fun _ =>
      andThen (fun x => ((), SELECT x)) fun _ => andThen (rx_spi dev) fun _ =>
      andThen (spi dev cmd) fun _ => andThen (spi dev (arg >>> 24)) fun _ =>
      andThen (spi dev (arg >>> 16)) fun _ => andThen (spi dev (arg >>> 8)) fun _ =>
      andThen (spi dev arg) fun _ =>
      andThen (spi dev (if cmd = CHECK_V then CHECK_V_CRC else
        if cmd = GO_IDLE then GO_IDLE_CRC else 0xFF)) fun _ =>
      andThen (fun x => ((), if cmd = STOP_READ then (rx_spi dev x).2 else x)) fun _ =>
      send_cmd_poll dev 10)
    (andThen (fun x => ((), DESELECT x)) fun _ => andThen (rx_spi scriptDev) fun _ =>
      andThen (fun x => ((), SELECT x)) fun _ => andThen (rx_spi scriptDev) fun _ =>
      andThen (spi scriptDev cmd) fun _ => andThen (spi scriptDev (arg >>> 24)) fun _ =>
      andThen (spi scriptDev (arg >>> 16)) fun _ => andThen (spi scriptDev (arg >>> 8)) fun _ =>
      andThen (spi scriptDev arg) fun _ =>
      andThen (spi scriptDev (if cmd = CHECK_V then CHECK_V_CRC else
        if cmd = GO_IDLE then GO_IDLE_CRC else 0xFF)) fun _ =>
      andThen (fun x => ((), if cmd = STOP_READ then (rx_spi scriptDev x).2 else x)) fun _ =>
      send_cmd_poll scriptDev 10)
    (fun x => rfl) (fun y => rfl) ?_
  refine Replays.bind (replays_DESELECT _) (Replays.bind (replays_spi dev _ _)
    (Replays.bind (replays_SELECT _) (Replays.bind (replays_spi dev _ _)
    (Replays.bind (replays_spi dev _ _) (Replays.bind (replays_spi dev _ _)
    (Replays.bind (replays_spi dev _ _) (Replays.bind (replays_spi dev _ _)
    (Replays.bind (replays_spi dev _ _) (Replays.bind (replays_spi dev _ _)
    (Replays.bind ?_ (replays_send_cmd_poll dev 10 _)))))))))))
  by_cases h : cmd = STOP_READ
  · simp only [h, if_true]
    exact Replays.discard (replays_spi dev 0xFF _)
  · simp only [h, if_false]
    exact Replays.pure () _

theorem replays_send_cmd (cmd arg : Nat) (d : Drive σ) :
    Replays (send_cmd dev cmd arg) (send_cmd scriptDev cmd arg) d := by
  by_cases h : IS_ACMD (cmd % 256) = true
  · refine Replays.congr
      (andThen (send_cmd_frame dev ACMD_LEADING 0) fun v x =>
        if v > 1 then (v, x)
        else send_cmd_frame dev ((cmd % 256) &&& ACMD_MASK) (arg % 2 ^ 32) x)
      (andThen (send_cmd_frame scriptDev ACMD_LEADING 0) fun v y =>
        if v > 1 then (v, y)
        else send_cmd_frame scriptDev ((cmd % 256) &&& ACMD_MASK) (arg % 2 ^ 32) y)
      (fun x => by rw [send_cmd_eq, if_pos h]; rfl) (fun y => by rw [send_cmd_eq, if_pos h]; rfl)
      (Replays.bind (replays_send_cmd_frame dev _ _ d) ?_)
    split
    · exact Replays.pure _ _
    · exact replays_send_cmd_frame dev _ _ _
  · exact Replays.congr _ _ (fun x => by rw [send_cmd_eq, if_neg h])
      (fun y => by rw [send_cmd_eq, if_neg h]) (replays_send_cmd_frame dev _ _ d)

theorem replays_retry (attempt : (τ : Type) → Dev τ → Drive τ → Nat × Drive τ)
    (again : Nat → Bool)
    (hatt : ∀ x : Drive σ, Replays (attempt σ dev) (attempt (List Nat) scriptDev) x)
    (n : Nat) (d : Drive σ) :
    Replays (retry (attempt σ dev) again n) (retry (attempt (List Nat) scriptDev) again n) d := by
  induction n generalizing d with
  | zero => exact Replays.pure 0 d
  | succ n ih =>
    refine Replays.congr
      (andThen (attempt σ dev) fun v x =>
        if again v then retry (attempt σ dev) again n x else (n + 1, x))
      (andThen (attempt (List Nat) scriptDev) fun v y =>
        if again v then retry (attempt (List Nat) scriptDev) again n y else (n + 1, y))
      (fun x => rfl) (fun y => rfl) (Replays.bind (hatt d) ?_)
    split
    · exact ih _
    · exact Replays.pure _ _

theorem replays_rx_n (n : Nat) (d : Drive σ) : Replays (rx_n dev n) (rx_n scriptDev n) d := by
  induction n generalizing d with
  | zero => exact Replays.pure [] d
  | succ n ih =>
    exact Replays.congr
      (andThen (rx_spi dev) fun v x => andThen (rx_n dev n) (fun l z => (v :: l, z)) x)
      (andThen (rx_spi scriptDev) fun v y =>
        andThen (rx_n scriptDev n) (fun l z => (v :: l, z)) y)
      (fun x => rfl) (fun y => rfl)
      (Replays.bind (replays_spi dev 0xFF d) (Replays.bind (ih _) (Replays.pure _ _)))

theorem replays_cardType (c : Nat) (d : Drive σ) :
    Replays (fun x => ((), { x with cardType := c })) (fun y => ((), { y with cardType := c }))
      d := by
  refine ⟨[], by simp [received], fun e t he hp => ?_⟩
  rw [pins_eq] at hp
  simp [pins, he, hp.1, hp.2.2]

theorem Replays.cond (c : Prop) [Decidable c] {a b : Drive σ → Drive σ}
    {a2 b2 : Drive (List Nat) → Drive (List Nat)} {d : Drive σ}
    (h1 : c → Replays (fun x => ((), a x)) (fun y => ((), a2 y)) d)
    (h2 : ¬c → Replays (fun x => ((), b x)) (fun y => ((), b2 y)) d) :
    Replays (fun x => ((), if c then a x else b x)) (fun y => ((), if c then a2 y else b2 y))
      d := by
  by_cases h : c
  · exact Replays.congr _ _ (fun x => by rw [if_pos h]) (fun y => by rw [if_pos h]) (h1 h)
  · exact Replays.congr _ _ (fun x => by rw [if_neg h]) (fun y => by rw [if_neg h]) (h2 h)

theorem Replays.state {α : Type} {a : Drive σ → α × Drive σ}
    {b : Drive (List Nat) → α × Drive (List Nat)} {d : Drive σ} (h : Replays a b d) :
    Replays (fun x => ((), (a x).2)) (fun y => ((), (b y).2)) d := Replays.discard h

theorem replays_blocklen (d : Drive σ) :
    Replays
      (fun x => ((), if x.cardType &&& CT_BLOCK = 0 ∧ x.cardType ≠ CT_UNKNOWN then
        (send_cmd dev SET_BLOCKLEN 0x0200 x).2 else x))
      (fun y => ((), if y.cardType &&& CT_BLOCK = 0 ∧ y.cardType ≠ CT_UNKNOWN then
        (send_cmd scriptDev SET_BLOCKLEN 0x0200 y).2 else y)) d := by
  by_cases c : d.cardType &&& CT_BLOCK = 0 ∧ d.cardType ≠ CT_UNKNOWN
  · obtain ⟨m, h1, h2⟩ := replays_send_cmd dev SET_BLOCKLEN 0x0200 d
    refine ⟨m, by simp only [if_pos c]; exact h1, fun e t he hp => ?_⟩
    have hc : e.cardType = d.cardType := (pins_eq.mp hp).2.1
    simp only [hc, if_pos c]
    exact ⟨trivial, (h2 e t he hp).2⟩
  · refine ⟨[], by simp only [if_neg c, List.append_nil], fun e t he hp => ?_⟩
    have hc : e.cardType = d.cardType := (pins_eq.mp hp).2.1
    simp only [hc, if_neg c]
    exact ⟨trivial, by simpa using he, hp⟩

theorem replays_finish (sta : Nat) (d : Drive σ) :
    Replays
      (fun x =>
        (if (if (DESELECT x).cardType ≠ CT_UNKNOWN then spi_set_rw_speed (DESELECT x)
            else DESELECT x).cardType = CT_UNKNOWN then sta else 0,
          if (DESELECT x).cardType ≠ CT_UNKNOWN then spi_set_rw_speed (DESELECT x)
            else DESELECT x))
      (fun y =>
        (if (if (DESELECT y).cardType ≠ CT_UNKNOWN then spi_set_rw_speed (DESELECT y)
            else DESELECT y).cardType = CT_UNKNOWN then sta else 0,
          if (DESELECT y).cardType ≠ CT_UNKNOWN then spi_set_rw_speed (DESELECT y)
            else DESELECT y)) d := by
  refine ⟨[], ?_, fun e t he hp => ?_⟩
  · simp only [List.append_nil]
    split <;> rfl
  · have hc := pins_eq.mp hp
    simp only [DESELECT, spi_set_rw_speed, hc.2.1]
    split <;> simp [pins, he, hc.2.2]

/-- Past its opening, `disk_initialize` is one and the same sequence of steps
`B` for every bus device, and on every device it can be replayed in front of a
scripted card. -/
theorem disk_initialize_body (useWrite : Bool) (sta : Nat) :
    ∃ B : (τ : Type) → Dev τ → Drive τ → Nat × Drive τ,
      (∀ (τ : Type) (dv : Dev τ) (z : Drive τ),
        disk_initialize dv useWrite sta z = B τ dv (init_prelude dv useWrite z)) ∧
      (∀ (σ : Type) (dev : Dev σ) (d0 : Drive σ),
        Replays (B σ dev) (B (List Nat) scriptDev) d0) := by
  refine ⟨fun τ dv =>
    andThen (retry (send_cmd dv GO_IDLE 0x00) (fun r => r != IN_IDLE_STATE) 1000) fun g =>
    andThen (fun x => ((),
      if g ≠ 0 then
        (andThen (send_cmd dv CHECK_V 0x01AA) (fun v x => ((),
          if v = 0x01 then
            (andThen (rx_n dv 4) (fun ocr x => ((),
              if List.getD ocr 2 0 = 0x01 ∧ List.getD ocr 3 0 = 0xAA then
                (andThen (retry (send_cmd dv APP_INIT HCS_SET) (fun r => r != 0) 10000)
                  (fun a x => ((),
                    if a ≠ 0 then
                      (andThen (send_cmd dv READ_OCR 0x00) (fun o x => ((),
                        if o = 0x00 then
                          (andThen (rx_n dv 4) (fun ocr x => ((),
                            { x with
                              cardType := if List.getD ocr 0 0 &&& 0x40 ≠ 0 then
                                CT_SDC2 ||| CT_BLOCK else CT_SDC2 })) x).2
                        else x)) x).2
                    else x)) x).2
              else x)) x).2
          else
            (andThen (retry (send_cmd dv APP_INIT 0x00) (fun r => r != 0) 10000)
              (fun a x => ((),
                if a ≠ 0 then { x with cardType := CT_SDC1 }
                else
                  (andThen (retry (send_cmd dv INIT 0x00) (fun r => r != 0) 10000)
                    (fun m x => ((),
                      { x with cardType := if m ≠ 0 then CT_MMC3 else CT_UNKNOWN })) x).2))
              x).2)) x).2
      else x)) fun _ =>
    andThen (fun x =>
      ((), if x.cardType &&& CT_BLOCK = 0 ∧ x.cardType ≠ CT_UNKNOWN then
        (send_cmd dv SET_BLOCKLEN 0x0200 x).2 else x)) fun _ x =>
    (if (if (DESELECT x).cardType ≠ CT_UNKNOWN then spi_set_rw_speed (DESELECT x)
          else DESELECT x).cardType = CT_UNKNOWN then sta else 0,
      if (DESELECT x).cardType ≠ CT_UNKNOWN then spi_set_rw_speed (DESELECT x)
        else DESELECT x),
    fun τ dv z => rfl, fun σ dev d0 => ?_⟩
  refine Replays.bind (replays_retry dev (fun τ dv => send_cmd dv GO_IDLE 0x00) _
    (fun x => replays_send_cmd dev _ _ x) 1000 d0) (Replays.bind ?_
      (Replays.bind (replays_blocklen dev _) (replays_finish sta _)))
  refine Replays.cond _ (fun _ => ?_) (fun _ => Replays.pure () _)
  refine Replays.state (Replays.bind (replays_send_cmd dev _ _ _) ?_)
  refine Replays.cond _ (fun _ => ?_) (fun _ => ?_)
  · refine Replays.state (Replays.bind (replays_rx_n dev 4 _) ?_)
    refine Replays.cond _ (fun _ => ?_) (fun _ => Replays.pure () _)
    refine Replays.state (Replays.bind (replays_retry dev
      (fun τ dv => send_cmd dv APP_INIT HCS_SET) _ (fun x => replays_send_cmd dev _ _ x)
      10000 _) ?_)
    refine Replays.cond _ (fun _ => ?_) (fun _ => Replays.pure () _)
    refine Replays.state (Replays.bind (replays_send_cmd dev _ _ _) ?_)
    refine Replays.cond _ (fun _ => ?_) (fun _ => Replays.pure () _)
    exact Replays.state (Replays.bind (replays_rx_n dev 4 _) (replays_cardType _ _))
  · refine Replays.state (Replays.bind (replays_retry dev
      (fun τ dv => send_cmd dv APP_INIT 0x00) _ (fun x => replays_send_cmd dev _ _ x)
      10000 _) ?_)
    refine Replays.cond _ (fun _ => replays_cardType _ _) (fun _ => ?_)
    exact Replays.state (Replays.bind (replays_retry dev
      (fun τ dv => send_cmd dv INIT 0x00) _ (fun x => replays_send_cmd dev _ _ x)
      10000 _) (replays_cardType _ _))

/-- With the chip-select pin high at entry, a call of `disk_initialize` can be
replayed in front of a scripted card that sends the bytes the call has read:
same status, same family, script consumed exactly. -/
theorem disk_initialize_replays (useWrite : Bool) (sta : Nat) (d : Drive σ)
    (hd : d.cs = true) :
    ∃ m, received ( disk_initialize dev useWrite sta d).2 = received d ++ m ∧
      ∀ (e : Drive (List Nat)) (t : List Nat), e.card = m ++ t → e.cs = true →
        ( disk_initialize scriptDev useWrite sta e).1 = ( disk_initialize dev useWrite sta d).1 ∧
        ( disk_initialize scriptDev useWrite sta e).2.card = t ∧
        ( disk_initialize scriptDev useWrite sta e).2.cardType
          = ( disk_initialize dev useWrite sta d).2.cardType := by
  obtain ⟨B, hB, hR⟩ := disk_initialize_body useWrite sta
  have hp : ∀ (τ : Type) (dv : Dev τ) (z : Drive τ), z.cs = true →
      init_prelude dv useWrite z
        = (rx_n dv 10 (DESELECT (init_spi { z with cardType := CT_UNKNOWN }))).2 := by
    intro τ dv z hz
    simp only [init_prelude, IS_SELECTED, hz, Bool.not_true, Bool.and_false, Bool.false_eq_true,
      if_false]
  obtain ⟨m0, r0, f0⟩ := replays_rx_n dev 10 (DESELECT (init_spi { d with cardType := CT_UNKNOWN }))
  obtain ⟨m1, r1, f1⟩ := hR σ dev (init_prelude dev useWrite d)
  rw [hB]
  rw [hp σ dev d hd] at r1 f1 ⊢
  refine ⟨m0 ++ m1, ?_, fun e t he hc => ?_⟩
  · rw [r1, r0, List.append_assoc]
    rfl
  · rw [hB, hp _ scriptDev e hc]
    obtain ⟨-, c0, p0⟩ := f0 (DESELECT (init_spi { e with cardType := CT_UNKNOWN }))
      (m1 ++ t) (by rw [← List.append_assoc]; exact he) rfl
    obtain ⟨v1, c1, p1⟩ := f1 _ t c0 p0
    exact ⟨v1, c1, (pins_eq.mp p1).2.1⟩

/-- The status and the family `disk_initialize` establishes are a function of
the bytes it reads: two calls, on any two devices, that read the same bytes
give the same status and the same family. -/
theorem disk_initialize_received {τ : Type} (dev2 : Dev τ) (useWrite : Bool) (sta : Nat)
    (d : Drive σ) (x : Drive τ) (hd : d.cs = true) (hx : x.cs = true)
    (h : (received ( disk_initialize dev2 useWrite sta x).2).drop (received x).length
      = (received ( disk_initialize dev useWrite sta d).2).drop (received d).length) :
    ( disk_initialize dev2 useWrite sta x).1 = ( disk_initialize dev useWrite sta d).1 ∧
    ( disk_initialize dev2 useWrite sta x).2.cardType
      = ( disk_initialize dev useWrite sta d).2.cardType := by
  obtain ⟨m1, r1, f1⟩ := disk_initialize_replays dev useWrite sta d hd
  obtain ⟨m2, r2, f2⟩ := disk_initialize_replays dev2 useWrite sta x hx
  rw [r1, r2, List.drop_left, List.drop_left] at h
  subst h
  obtain ⟨a1, -, a3⟩ := f1 (ready CT_UNKNOWN m2) [] (by simp [ready]) rfl
  obtain ⟨b1, -, b3⟩ := f2 (ready CT_UNKNOWN m2) [] (by simp [ready]) rfl
  exact ⟨b1.symm.trans a1, b3.symm.trans a3⟩

end ReplaySteps

section Idempotent

variable {σ : Type} (dev : Dev σ)

/-- C16: idempotence of initialization. With the chip-select pin high at entry
(no write open), `disk_initialize` does not depend on the value of `cardType`
before the call; its status, the family it establishes and the state it
leaves the card in are the same from every driver state `e` in front of the
same card state; it returns with the pin high. The status and the family are
a function of the bytes received: a call on any device `dev2` from any state
`x` with the pin high that reads the same bytes ends with the same status and
family. Hence a second call in a row gives the same status and family as the
first whenever the card answers it with the same bytes, and in particular
whenever the card is back in the state it started from. -/
theorem disk_initialize_idempotent {τ : Type} (dev2 : Dev τ) (useWrite : Bool) (sta c : Nat)
    (d e : Drive σ) (x : Drive τ) (hd : d.cs = true) (he : e.cs = true)
    (hcard : e.card = d.card) (hx : x.cs = true) :
    let r := disk_initialize dev useWrite sta d
    disk_initialize dev useWrite sta { d with cardType := c } = r ∧
    (( disk_initialize dev useWrite sta e).1 = r.1 ∧
      ( disk_initialize dev useWrite sta e).2.cardType = r.2.cardType ∧
      ( disk_initialize dev useWrite sta e).2.card = r.2.card) ∧
    r.2.cs = true ∧
    (r.2.card = d.card →
      ( disk_initialize dev useWrite sta r.2).1 = r.1 ∧
      ( disk_initialize dev useWrite sta r.2).2.cardType = r.2.cardType) ∧
    ((received ( disk_initialize dev2 useWrite sta x).2).drop (received x).length
        = (received r.2).drop (received d).length →
      ( disk_initialize dev2 useWrite sta x).1 = r.1 ∧
      ( disk_initialize dev2 useWrite sta x).2.cardType = r.2.cardType) ∧
    ((received ( disk_initialize dev useWrite sta r.2).2).drop (received r.2).length
        = (received r.2).drop (received d).length →
      ( disk_initialize dev useWrite sta r.2).1 = r.1 ∧
      ( disk_initialize dev useWrite sta r.2).2.cardType = r.2.cardType) := by
  intro r
  obtain ⟨H, F, h1, h2, h3, _⟩ := disk_initialize_factors dev useWrite sta
  have key : ∀ y : Drive σ, y.cs = true → y.card = d.card →
      ( disk_initialize dev useWrite sta y).1 = r.1 ∧
      bus ( disk_initialize dev useWrite sta y).2 = bus r.2 := by
    intro y hy hc
    simp only [r]
    rw [h1 y, h1 d]
    exact h3 _ _ (h2 _ _ (init_prelude_bus dev useWrite d y hd hy hc))
  refine ⟨?_, ?_, disk_initialize_cs dev useWrite sta d, ?_,
    disk_initialize_received dev dev2 useWrite sta d x hd hx,
    disk_initialize_received dev dev useWrite sta d r.2 hd
      (disk_initialize_cs dev useWrite sta d)⟩
  · simp only [r, disk_initialize, init_prelude, IS_SELECTED, hd, Bool.not_true, Bool.and_false,
      Bool.false_eq_true, if_false]
  · obtain ⟨k1, k2⟩ := key e he hcard
    rw [bus_eq] at k2
    exact ⟨k1, k2.2.2.1, k2.1⟩
  · intro hr
    obtain ⟨k1, k2⟩ := key r.2 (disk_initialize_cs dev useWrite sta d) hr
    rw [bus_eq] at k2
    exact ⟨k1, k2.2.2.1⟩

set_option maxRecDepth 1000000 in
/-- Witness of C16: a scripted version-1 card that sends the handshake of
`scriptSD1` twice, initialised twice in a row: its state after the first call
is not the state it started from, the bytes it sends are the same; and a
cyclic card, back in its starting state after each call. -/
theorem disk_initialize_idempotent_witness :
    (( disk_initialize scriptDev true 1
        ( disk_initialize scriptDev true 1 (ready CT_UNKNOWN (scriptSD1 ++ scriptSD1))).2).1
      = ( disk_initialize scriptDev true 1 (ready CT_UNKNOWN (scriptSD1 ++ scriptSD1))).1 ∧
    ( disk_initialize scriptDev true 1
        ( disk_initialize scriptDev true 1
          (ready CT_UNKNOWN (scriptSD1 ++ scriptSD1))).2).2.cardType
      = ( disk_initialize scriptDev true 1
          (ready CT_UNKNOWN (scriptSD1 ++ scriptSD1))).2.cardType) ∧
    ( disk_initialize scriptDev true 1 (ready CT_UNKNOWN (scriptSD1 ++ scriptSD1))).2.card
      ≠ (ready CT_UNKNOWN (scriptSD1 ++ scriptSD1)).card ∧
    (( disk_initialize (cyclicDev scriptSD1) true 1 (ready CT_SDC2 0)).1
      = ( disk_initialize scriptDev true 1 (ready CT_UNKNOWN (scriptSD1 ++ scriptSD1))).1 ∧
    ( disk_initialize (cyclicDev scriptSD1) true 1 (ready CT_SDC2 0)).2.cardType
      = ( disk_initialize scriptDev true 1
          (ready CT_UNKNOWN (scriptSD1 ++ scriptSD1))).2.cardType) ∧
    (( disk_initialize (cyclicDev scriptSD1) true 1
        ( disk_initialize (cyclicDev scriptSD1) true 1 (ready CT_UNKNOWN 0)).2).1
      = ( disk_initialize (cyclicDev scriptSD1) true 1 (ready CT_UNKNOWN 0)).1 ∧
    ( disk_initialize (cyclicDev scriptSD1) true 1
        ( disk_initialize (cyclicDev scriptSD1) true 1 (ready CT_UNKNOWN 0)).2).2.cardType
      = ( disk_initialize (cyclicDev scriptSD1) true 1 (ready CT_UNKNOWN 0)).2.cardType) :=
  have a := disk_initialize_idempotent scriptDev (cyclicDev scriptSD1) true 1 CT_MMC3
    (ready CT_UNKNOWN (scriptSD1 ++ scriptSD1)) (ready CT_SDC2 (scriptSD1 ++ scriptSD1))
    (ready CT_SDC2 0) rfl rfl rfl rfl
  have b := disk_initialize_idempotent (cyclicDev scriptSD1) scriptDev true 1 CT_MMC3
    (ready CT_UNKNOWN 0) (ready CT_SDC2 0) (ready CT_SDC2 scriptSD1) rfl rfl rfl rfl
  ⟨a.2.2.2.2.2 (by decide), by decide, a.2.2.2.2.1 (by decide), b.2.2.2.1 (by decide)⟩

end Idempotent

end PlayWave
